import Mathlib

/-!
Shallow embedding of the `dataframe` Go package (github.com/nickwells/dataframe.mod).

The embedding models, faithfully to the Go source:
  - the typed value wrappers `BoolVal`, `IntVal`, `FloatVal`, `StringVal` and
    their `SetVal` parsers (backed by models of Go's `strconv.ParseBool`,
    `strconv.ParseInt(s, 0, 64)` and `strconv.ParseFloat(s, 64)`);
  - the column registry `ColInfo` / `MultiColInfo` with its name map and
    slot (`valIdx`) bookkeeping;
  - the columnar store `DF` with its row/column accessors, error accumulator
    and row-append operations;
  - the ingestion pipeline `DFReader` / `Read` with its fixed chain of
    per-line stages, the lookahead cache and the type-inference pass
    (`tryParse` / `guessColTypes`).

Modelling conventions:
  - Go panics are modelled by `Option` results (`none` = panic).
  - Go `error` results are modelled by `Option DfErr` (`none` = nil error) or
    `Except DfErr`.
  - Go machine integers are modelled by `Int` / `Nat` with explicit bounds
    where overflow matters (the `strconv` models check the int64/uint64 and
    float64 ranges exactly).
  - The numeric payload of a successfully parsed float is idealized as the
    exact rational value of the literal (rounding to binary64 is not
    modelled); the success/failure outcome of every parse, which is all the
    claims depend on, follows Go exactly, including the overflow-to-infinity
    range error.
  - Go maps (`map[string]int`, `map[int]bool`) are modelled by association
    lists with replace-on-insert semantics and by lists of keys respectively;
    iteration-order-dependent data (the order in which offending skip-column
    indexes are listed inside one error value) is normalized.
-/

namespace Dataframe

/-! ### Models of the Go strconv parsers -/

/-- Kind of a strconv error: Go's `ErrSyntax` and `ErrRange`. -/
inductive GoNumErr where
  | syntaxError
  | rangeError
deriving DecidableEq, Repr

/-- Go's `lower(c) = c | ('x' - 'X')` byte case-folding, on code points. -/
def goLower (n : Nat) : Nat := n ||| 32

/-- Decimal digit test, as in Go's `'0' <= c && c <= '9'`. -/
def isDecDigit (c : Char) : Bool := 48 ≤ c.toNat && c.toNat ≤ 57

/-- Letter test used by Go's digit conversion: `'a' <= lower(c) <= 'z'`. -/
def isLetterDigit (c : Char) : Bool :=
  97 ≤ goLower c.toNat && goLower c.toNat ≤ 122

/-- The digit value Go's ParseUint loop assigns to a character, if any. -/
def digitValGo (c : Char) : Option Nat :=
  if isDecDigit c then some (c.toNat - 48)
  else if isLetterDigit c then some (goLower c.toNat - 97 + 10)
  else none

/-- The scan loop of Go's `underscoreOK`: `saw` is `'^'` (nothing yet),
`'0'` (digit), `'_'` (underscore) or `'!'` (other). -/
def underscoreOKLoop (hex : Bool) : Char → List Char → Bool
  | saw, [] => saw ≠ '_'
  | saw, c :: rest =>
    if isDecDigit c || (hex && 97 ≤ goLower c.toNat && goLower c.toNat ≤ 102) then
      underscoreOKLoop hex '0' rest
    else if c = '_' then
      if saw = '0' then underscoreOKLoop hex '_' rest else false
    else if saw = '_' then false
    else underscoreOKLoop hex '!' rest

/-- Go's `strconv.underscoreOK`: underscores only between digits or between
a base prefix and a digit. -/
def underscoreOK (cs0 : List Char) : Bool :=
  let cs1 := match cs0 with
    | c :: rest => if c = '-' || c = '+' then rest else cs0
    | [] => cs0
  match cs1 with
  | c0 :: c1 :: rest =>
    if c0 = '0' && (goLower c1.toNat = 98 || goLower c1.toNat = 111 ||
        goLower c1.toNat = 120) then
      underscoreOKLoop (goLower c1.toNat = 120) '0' rest
    else underscoreOKLoop false '^' cs1
  | _ => underscoreOKLoop false '^' cs1

/-- The digit-accumulation loop of Go's `ParseUint` (`base0 = true` call
sites only, so `'_'` is tolerated and checked afterwards). Returns the
accumulated value or the error, plus the underscores-seen flag. -/
def goUintDigits (base maxVal cutoff : Nat) :
    List Char → Bool → Nat → Except GoNumErr Nat × Bool
  | [], us, n => (.ok n, us)
  | c :: rest, us, n =>
    if c = '_' then goUintDigits base maxVal cutoff rest true n
    else match digitValGo c with
      | none => (.error .syntaxError, us)
      | some d =>
        if base ≤ d then (.error .syntaxError, us)
        else if cutoff ≤ n then (.error .rangeError, us)
        else
          let n1 := n * base + d
          if maxVal < n1 then (.error .rangeError, us)
          else goUintDigits base maxVal cutoff rest us n1

/-- Model of Go's `strconv.ParseUint(s, 0, 64)`: base sniffing from the
`0b` / `0o` / `0x` / leading-`0` prefixes, then digit accumulation with the
uint64 cutoff, then the underscore validity check. -/
def goParseUintBase0 (cs0 : List Char) : Except GoNumErr Nat :=
  match cs0 with
  | [] => .error .syntaxError
  | c0 :: rest0 =>
    let pr : Nat × List Char :=
      if c0 = '0' then
        match rest0 with
        | c1 :: rest1 =>
          if rest1 ≠ [] && goLower c1.toNat = 98 then (2, rest1)
          else if rest1 ≠ [] && goLower c1.toNat = 111 then (8, rest1)
          else if rest1 ≠ [] && goLower c1.toNat = 120 then (16, rest1)
          else (8, rest0)
        | [] => (8, ([] : List Char))
      else (10, cs0)
    let base := pr.1
    let cutoff := (2 ^ 64 - 1) / base + 1
    match goUintDigits base (2 ^ 64 - 1) cutoff pr.2 false 0 with
    | (.error e, _) => .error e
    | (.ok n, us) =>
      if us && ¬ underscoreOK cs0 then .error .syntaxError else .ok n

/-- Model of Go's `strconv.ParseInt(s, 0, 64)`: returns the value the Go
function would return (0 on a syntax error, the clamped boundary on a range
error) together with the error kind, if any. -/
def goParseInt0 (s : String) : Int × Option GoNumErr :=
  match s.data with
  | [] => (0, some .syntaxError)
  | c :: rest =>
    let neg := c = '-'
    let body := if c = '-' || c = '+' then rest else c :: rest
    match goParseUintBase0 body with
    | .error .syntaxError => (0, some .syntaxError)
    | .error .rangeError =>
      (if neg then -(2 ^ 63) else 2 ^ 63 - 1, some .rangeError)
    | .ok un =>
      if ¬ neg ∧ 2 ^ 63 ≤ un then (2 ^ 63 - 1, some .rangeError)
      else if neg ∧ 2 ^ 63 < un then (-(2 ^ 63), some .rangeError)
      else (if neg then -(un : Int) else (un : Int), none)

/-- Model of Go's `strconv.ParseBool`: the twelve accepted literals. -/
def goParseBool (s : String) : Bool × Option GoNumErr :=
  if s = "1" ∨ s = "t" ∨ s = "T" ∨ s = "true" ∨ s = "TRUE" ∨ s = "True" then
    (true, none)
  else if s = "0" ∨ s = "f" ∨ s = "F" ∨ s = "false" ∨ s = "FALSE" ∨ s = "False" then
    (false, none)
  else (false, some .syntaxError)

/-- A float64 result: a finite value (idealized as the exact rational value
of the literal), a signed infinity, or NaN. -/
inductive GoFloat where
  | num (q : Rat)
  | inf (neg : Bool)
  | nan
deriving DecidableEq, Repr

/-- Case-folding string comparison on ASCII, as Go's special-value check. -/
def eqFold (cs t : List Char) : Bool :=
  cs.length = t.length &&
    (List.zip cs t).all (fun p => goLower p.1.toNat = goLower p.2.toNat)

/-- Go's `special`: `inf` / `infinity` with optional sign, `nan` unsigned,
all case-insensitive, and the whole string must be consumed. -/
def goFloatSpecial (cs : List Char) : Option GoFloat :=
  match cs with
  | [] => none
  | c :: rest =>
    let signed := c = '+' || c = '-'
    let isNeg := c = '-'
    let body := if signed then rest else cs
    if eqFold body "inf".data || eqFold body "infinity".data then
      some (.inf (signed && isNeg))
    else if ¬ signed && eqFold cs "nan".data then some .nan
    else none

/-- Mantissa scan of Go's `readFloat`: consumes digits of the given base,
underscores and at most one dot; returns the unconsumed rest, the
saw-digits flag, the exact mantissa and the count of fractional digits. -/
def mantLoop (base : Nat) :
    List Char → Bool → Bool → Nat → Nat → List Char × Bool × Nat × Nat
  | [], _, sg, m, f => ([], sg, m, f)
  | c :: rest, sd, sg, m, f =>
    if c = '_' then mantLoop base rest sd sg m f
    else if c = '.' then
      if sd then (c :: rest, sg, m, f) else mantLoop base rest true sg m f
    else match digitValGo c with
      | some d =>
        if base ≤ d then (c :: rest, sg, m, f)
        else mantLoop base rest sd true (m * base + d) (if sd then f + 1 else f)
      | none => (c :: rest, sg, m, f)

/-- Exponent scan of Go's `readFloat`: decimal digits and underscores to the
end of the string (any other character is a syntax error, because the whole
string must be consumed). -/
def expDigits : List Char → Nat → Option Nat
  | [], e => some e
  | c :: rest, e =>
    if c = '_' then expDigits rest e
    else if isDecDigit c then expDigits rest (e * 10 + (c.toNat - 48))
    else none

/-- Model of Go's `readFloat` over the full string: sign, optional `0x`
prefix, mantissa, and the exponent part (`e` optional for decimal, `p`
mandatory for hex). Returns `(neg, hex, mant, exp)` where the value is
`± mant * 10 ^ exp` (decimal) or `± mant * 2 ^ exp` (hex). -/
def goReadFloat (cs0 : List Char) : Option (Bool × Bool × Nat × Int) :=
  match cs0 with
  | [] => none
  | c :: rest =>
    let neg := c = '-'
    let afterSign := if c = '-' || c = '+' then rest else cs0
    let pr : Bool × List Char :=
      match afterSign with
      | c0 :: c1 :: rest1 =>
        if c0 = '0' && goLower c1.toNat = 120 then (true, rest1)
        else (false, afterSign)
      | _ => (false, afterSign)
    let hex := pr.1
    let base := if hex then 16 else 10
    match mantLoop base pr.2 false false 0 0 with
    | (rem, sg, m, f) =>
      if ¬ sg then none
      else
        match rem with
        | [] => if hex then none else some (neg, false, m, -(f : Int))
        | c2 :: rest2 =>
          if goLower c2.toNat = (if hex then 112 else 101) then
            match rest2 with
            | [] => none
            | c3 :: rest3 =>
              let esign : Int := if c3 = '-' then -1 else 1
              let ds := if c3 = '+' || c3 = '-' then rest3 else rest2
              match ds with
              | [] => none
              | d0 :: _ =>
                if ¬ isDecDigit d0 then none
                else match expDigits ds 0 with
                  | none => none
                  | some e =>
                    some (neg, hex, m,
                      esign * e + (if hex then -(4 * (f : Int)) else -(f : Int)))
          else none

/-- Integer power of 10 over the rationals (total, sign-aware). -/
def ratPowI (b : Rat) (e : Int) : Rat :=
  if 0 ≤ e then b ^ e.toNat else 1 / b ^ (-e).toNat

/-- The smallest rational that `strconv.ParseFloat` rounds to `+Inf` with a
range error: the midpoint above the largest finite float64. -/
def floatOverflowBound : Rat := ((2 ^ 1024 - 2 ^ 970 : Nat) : Rat)

/-- Model of Go's `strconv.ParseFloat(s, 64)`: returns the value (the finite
payload idealized as the exact rational of the literal) and a success flag;
failure covers syntax errors (value 0) and the overflow range error (value
±Inf), as in Go. -/
def goParseFloat (s : String) : GoFloat × Bool :=
  let cs := s.data
  match goFloatSpecial cs with
  | some g => (g, true)
  | none =>
    match goReadFloat cs with
    | none => (.num 0, false)
    | some (neg, hex, m, e) =>
      if cs.contains '_' && ¬ underscoreOK cs then (.num 0, false)
      else
        let q0 : Rat := (m : Rat) * ratPowI (if hex then 2 else 10) e
        let q := if neg then -q0 else q0
        if floatOverflowBound ≤ q then (.inf false, false)
        else if q ≤ -floatOverflowBound then (.inf true, false)
        else (.num q, true)

/-! ### Model of the default field splitter

`regexp.MustCompile(defaultSplitPattern).Split(line, -1)` with the default
pattern, one or more whitespace characters (Go's `\s` class is
tab, newline, formfeed, carriage return and space). -/

/-- Membership in Go's regexp `\s` character class. -/
def goWSChar (c : Char) : Bool :=
  c.toNat = 32 || c.toNat = 9 || c.toNat = 10 || c.toNat = 12 || c.toNat = 13

mutual

/-- Splitting on `\s+`: inside a token (`acc` holds its reversed characters). -/
def splitWSTok (acc : List Char) (l : List Char) : List String :=
  match l with
  | [] => [String.mk acc.reverse]
  | c :: rest =>
    if goWSChar c then String.mk acc.reverse :: splitWSSep rest
    else splitWSTok (c :: acc) rest
termination_by structural l

/-- Splitting on `\s+`: inside a separator run. -/
def splitWSSep (l : List Char) : List String :=
  match l with
  | [] => [""]
  | c :: rest => if goWSChar c then splitWSSep rest else splitWSTok [c] rest
termination_by structural l

end

/-- The default splitter of the reader: `Split(line, -1)` for `\s+`. -/
def goSplitWS (s : String) : List String := splitWSTok [] s.data

end Dataframe

namespace Dataframe

/-! ### Column types, errors, and typed value wrappers -/

/-- Go `type ColType uint`. Modelled as `Nat`, so that the unsigned
comparison semantics of the source (`colType < ColTypeUnknown` is always
false) carry over exactly. -/
abbrev ColType := Nat

def ColTypeUnknown : ColType := 0
def ColTypeBool : ColType := 1
def ColTypeInt : ColType := 2
def ColTypeFloat : ColType := 3
def ColTypeString : ColType := 4
def ColTypeMaxVal : ColType := 5

/-- Go `BitFlagBool = uint64(1) << ColTypeBool`, and friends. -/
def BitFlagBool : Nat := 2 ^ ColTypeBool
def BitFlagInt : Nat := 2 ^ ColTypeInt
def BitFlagFloat : Nat := 2 ^ ColTypeFloat
def BitmaskNonStringDataTypes : Nat := BitFlagBool ||| BitFlagInt ||| BitFlagFloat

/-- The errors of the package (`dfError` values and the `fmt.Errorf` values
of `MultiColInfo.Match`), modelled structurally: each constructor carries
the data the Go error message interpolates. -/
inductive DfErr where
  | noNamesGiven
  | noTypesGiven
  | noTypeInfo
  | hasNamesAndHeader
  | namesAlreadySet
  | typesAlreadySet
  | skipIndexesAlreadySet
  | maxErrorsNegative (n : Int)
  | initialLinesNegative (n : Int)
  | duplicateSkipIndex (i : Nat) (v : Int)
  | nameCountMismatch (nCols nNames : Nat)
  | typeCountMismatch (nCols nTypes : Nat)
  | duplicateColName (name : String) (first second : Nat)
  | badColType (idx : Nat) (t : ColType)
  | colNameInvalid
  | colTypeInvalid (t : ColType)
  | colNameAlreadyUsed (name : String) (otherIdx : Nat)
  | atColumn (i : Nat) (name : String) (e : DfErr)
  | unknownColName (name : String)
  | noSuchCol (idx maxIdx : Int)
  | rowColCountMismatch (nCols nGiven : Nat)
  | cellParseFailure (row : Int) (col : Nat) (e : GoNumErr)
  | skipColsPastEnd (lineNum : Int) (offending : List Int)
  | unexpectedBlankLine (lineNum : Int)
  | colCountLineMismatch (lineNum : Int) (nCols nLine : Nat) (cols : List String)
  | parsingErrors (lineNum : Int)
  | initialLinesErrors (source : String) (count : Int)
  | matchColCount (a b : Nat)
  | matchColType (idx : Nat)
  | matchColName (idx : Nat)
  | matchValIdx (idx : Nat)
deriving DecidableEq, Repr

/-- Go `BoolVal`: a bool plus the availability flag. -/
structure BoolVal where
  Val : Bool := false
  IsNA : Bool := false
deriving DecidableEq, Repr

/-- Go `IntVal`: an int64 plus the availability flag. -/
structure IntVal where
  Val : Int := 0
  IsNA : Bool := false
deriving DecidableEq, Repr

/-- Go `FloatVal`: a float64 plus the availability flag. -/
structure FloatVal where
  Val : GoFloat := .num 0
  IsNA : Bool := false
deriving DecidableEq, Repr

/-- Go `StringVal`: a string plus the availability flag. -/
structure StringVal where
  Val : String := ""
  IsNA : Bool := false
deriving DecidableEq, Repr

instance : Inhabited BoolVal := ⟨{}⟩
instance : Inhabited IntVal := ⟨{}⟩
instance : Inhabited FloatVal := ⟨{}⟩
instance : Inhabited StringVal := ⟨{}⟩

/-- Go `(*BoolVal).SetVal`: parse, keep the value either way, mark NA on
failure. -/
def BoolVal.SetVal (v : BoolVal) (s : String) : BoolVal × Option GoNumErr :=
  let p := goParseBool s
  match p.2 with
  | none => ({ v with Val := p.1 }, none)
  | some e => ({ v with Val := p.1, IsNA := true }, some e)

/-- Go `(*IntVal).SetVal`. -/
def IntVal.SetVal (v : IntVal) (s : String) : IntVal × Option GoNumErr :=
  let p := goParseInt0 s
  match p.2 with
  | none => ({ v with Val := p.1 }, none)
  | some e => ({ v with Val := p.1, IsNA := true }, some e)

/-- Go `(*FloatVal).SetVal`. -/
def FloatVal.SetVal (v : FloatVal) (s : String) : FloatVal × Option GoNumErr :=
  let p := goParseFloat s
  if p.2 then ({ v with Val := p.1 }, none)
  else
    ({ v with Val := p.1, IsNA := true },
     some (match p.1 with | .inf _ => .rangeError | _ => .syntaxError))

/-! ### The column registry -/

/-- Go `ColInfo`: a column name and its type. -/
structure ColInfo where
  name : String := ""
  colType : ColType := ColTypeUnknown
deriving DecidableEq, Repr

/-- Go `ColInfo.Check`: blank names and out-of-range types are invalid
(note the `<=` here, unlike the `<` of `DF.SetColTypes`). -/
def ColInfo.Check (ci : ColInfo) : Option DfErr :=
  if ci.name = "" then some .colNameInvalid
  else if ci.colType ≤ ColTypeUnknown ∨ ColTypeMaxVal ≤ ci.colType then
    some (.colTypeInvalid ci.colType)
  else none

/-- Go `NewColInfo` panics on an out-of-range type; `none` models the panic. -/
def NewColInfo (name : String) (colType : ColType) : Option ColInfo :=
  if colType ≤ ColTypeUnknown ∨ ColTypeMaxVal ≤ colType then none
  else some { name := name, colType := colType }

/-- The `map[string]int` of the registry, as an association list with
replace-on-insert update. -/
abbrev NameMap := List (String × Nat)

def mapLookup (m : NameMap) (k : String) : Option Nat := List.lookup k m

def mapInsert (m : NameMap) (k : String) (v : Nat) : NameMap :=
  if (List.lookup k m).isSome then
    m.map (fun p => if p.1 = k then (k, v) else p)
  else m ++ [(k, v)]

/-- Go `MultiColInfo`: descriptors, the per-column slot into the
type-specific storage, and the name map. -/
structure MultiColInfo where
  info : List ColInfo := []
  valIdx : List Int := []
  nameToCol : NameMap := []
deriving DecidableEq, Repr

/-- Go `MultiColInfo.Add`: validate, reject duplicate names, then append
with slot = count of prior same-typed columns. -/
def MultiColInfo.Add (mci : MultiColInfo) (ci : ColInfo) : Except DfErr MultiColInfo :=
  match ci.Check with
  | some e => .error e
  | none =>
    match mapLookup mci.nameToCol ci.name with
    | some otherIdx => .error (.colNameAlreadyUsed ci.name otherIdx)
    | none =>
      let count := (mci.info.filter (fun e => e.colType = ci.colType)).length
      .ok { info := mci.info ++ [ci],
            valIdx := mci.valIdx ++ [(count : Int)],
            nameToCol := mapInsert mci.nameToCol ci.name mci.info.length }

/-- The fold inside Go's `NewMultiColInfo`. -/
def newMciLoop (mci : MultiColInfo) : List ColInfo → Nat → Except DfErr MultiColInfo
  | [], _ => .ok mci
  | ci :: rest, i =>
    match mci.Add ci with
    | .error e => .error (.atColumn i ci.name e)
    | .ok mci' => newMciLoop mci' rest (i + 1)

/-- Go `NewMultiColInfo`. -/
def NewMultiColInfo (cis : List ColInfo) : Except DfErr MultiColInfo :=
  newMciLoop {} cis 0

/-- The descriptor-comparison loop of Go `MultiColInfo.Match` (both lists
already known to have equal length). -/
def matchInfoLoop : List ColInfo → List ColInfo → Nat → Option DfErr
  | [], _, _ => none
  | _ :: _, [], _ => none
  | a :: as_, b :: bs, i =>
    if a.colType ≠ b.colType then some (.matchColType i)
    else if a.name ≠ b.name then some (.matchColName i)
    else matchInfoLoop as_ bs (i + 1)

/-- The valIdx-comparison loop of Go `MultiColInfo.Match`; the outer `none`
models the panic when `other.valIdx` is shorter than `mci.valIdx`. -/
def matchValIdxLoop : List Int → List Int → Nat → Option (Option DfErr)
  | [], _, _ => some none
  | _ :: _, [], _ => none
  | a :: as_, b :: bs, i =>
    if a ≠ b then some (some (.matchValIdx i))
    else matchValIdxLoop as_ bs (i + 1)

/-- Go `MultiColInfo.Match`: first structural difference, `some none` when
identical; the outer `none` models an index panic. -/
def MultiColInfo.Match (mci other : MultiColInfo) : Option (Option DfErr) :=
  if mci.info.length ≠ other.info.length then
    some (some (.matchColCount mci.info.length other.info.length))
  else
    match matchInfoLoop mci.info other.info 0 with
    | some e => some (some e)
    | none => matchValIdxLoop mci.valIdx other.valIdx 0

/-- Go `MultiColInfo.Clone` deep-copies the slices and the map; with value
semantics this is the identity. -/
def MultiColInfo.Clone (mci : MultiColInfo) : MultiColInfo := mci

/-! ### Index helpers modelling Go slice indexing (panic = `none`) -/

/-- Go `xs[i]` for an int index: `none` models the out-of-range panic. -/
def getI {α : Type} (l : List α) (i : Int) : Option α :=
  if 0 ≤ i then l.get? i.toNat else none

/-- Go `xs[i] = a` after a successful bounds check (total; out-of-range
writes are never reached in the embedding because `getI` guards them). -/
def setI {α : Type} (l : List α) (i : Int) (a : α) : List α :=
  if 0 ≤ i then l.set i.toNat a else l

end Dataframe

namespace Dataframe

/-! ### Rows -/

/-- Go `RowData`: per-type value lists. -/
structure RowData where
  boolVals : List BoolVal := []
  intVals : List IntVal := []
  floatVals : List FloatVal := []
  stringVals : List StringVal := []
deriving DecidableEq, Repr

/-- Go `Row`: data plus the registry that gives it meaning. -/
structure Row where
  mci : MultiColInfo := {}
  rd : RowData := {}
deriving DecidableEq, Repr

/-- The NA-filling loop of Go `NewRow` (a switch with no default: columns of
unknown type are silently skipped). -/
def newRowFill : RowData → List ColInfo → RowData
  | rd, [] => rd
  | rd, ci :: rest =>
    let rd' :=
      if ci.colType = ColTypeBool then
        { rd with boolVals := rd.boolVals ++ [{ IsNA := true }] }
      else if ci.colType = ColTypeInt then
        { rd with intVals := rd.intVals ++ [{ IsNA := true }] }
      else if ci.colType = ColTypeFloat then
        { rd with floatVals := rd.floatVals ++ [{ IsNA := true }] }
      else if ci.colType = ColTypeString then
        { rd with stringVals := rd.stringVals ++ [{ IsNA := true }] }
      else rd
    newRowFill rd' rest

/-- Go `NewRow`. -/
def NewRow (cis : List ColInfo) : Except DfErr Row :=
  match NewMultiColInfo cis with
  | .error e => .error e
  | .ok mci => .ok { mci := mci, rd := newRowFill {} mci.info }

/-- Go `(*Row).AddBool`. -/
def Row.AddBool (r : Row) (name : String) (v : BoolVal) : Except DfErr Row :=
  match r.mci.Add { name := name, colType := ColTypeBool } with
  | .error e => .error e
  | .ok mci' =>
    .ok { mci := mci', rd := { r.rd with boolVals := r.rd.boolVals ++ [v] } }

/-- Go `(*Row).AddInt`. -/
def Row.AddInt (r : Row) (name : String) (v : IntVal) : Except DfErr Row :=
  match r.mci.Add { name := name, colType := ColTypeInt } with
  | .error e => .error e
  | .ok mci' =>
    .ok { mci := mci', rd := { r.rd with intVals := r.rd.intVals ++ [v] } }

/-- Go `(*Row).AddFloat`. -/
def Row.AddFloat (r : Row) (name : String) (v : FloatVal) : Except DfErr Row :=
  match r.mci.Add { name := name, colType := ColTypeFloat } with
  | .error e => .error e
  | .ok mci' =>
    .ok { mci := mci', rd := { r.rd with floatVals := r.rd.floatVals ++ [v] } }

/-- Go `(*Row).AddString`. -/
def Row.AddString (r : Row) (name : String) (v : StringVal) : Except DfErr Row :=
  match r.mci.Add { name := name, colType := ColTypeString } with
  | .error e => .error e
  | .ok mci' =>
    .ok { mci := mci', rd := { r.rd with stringVals := r.rd.stringVals ++ [v] } }

/-! ### The columnar store -/

/-- Go `DF`: the registry, one array of column arrays per type, and the
capped-but-counted error accumulator. -/
structure DF where
  mci : MultiColInfo := {}
  floatCols : List (List FloatVal) := []
  intCols : List (List IntVal) := []
  boolCols : List (List BoolVal) := []
  stringCols : List (List StringVal) := []
  errors : List DfErr := []
  maxErrors : Int := 0
  errCount : Int := 0
deriving DecidableEq, Repr

/-- Go `(*DF).addError`: the count always increments, the capped list only
grows while under `maxErrors`. -/
def DF.addError (df : DF) (err : DfErr) : DF :=
  { df with
    errCount := df.errCount + 1,
    errors :=
      if (df.errors.length : Int) < df.maxErrors then df.errors ++ [err]
      else df.errors }

/-- Go `(*DF).RowCount`: 0 when there are no slots, else the length of
column 0's array; `none` models the panics (empty `info` with non-empty
`valIdx`, a bad slot, or an unknown column type). -/
def DF.RowCount (df : DF) : Option Int :=
  if df.mci.valIdx.length = 0 then some 0
  else do
    let i ← df.mci.valIdx.get? 0
    let ci ← df.mci.info.get? 0
    let t := ci.colType
    if t = ColTypeBool then do
      let a ← getI df.boolCols i; some ((a.length : Int))
    else if t = ColTypeInt then do
      let a ← getI df.intCols i; some ((a.length : Int))
    else if t = ColTypeFloat then do
      let a ← getI df.floatCols i; some ((a.length : Int))
    else if t = ColTypeString then do
      let a ← getI df.stringCols i; some ((a.length : Int))
    else none

/-- The NA-filling loop of Go `(*DF).RowNA` (this switch has a default:
an unknown column type panics). -/
def naFill : RowData → List ColInfo → Option RowData
  | rd, [] => some rd
  | rd, ci :: rest =>
    if ci.colType = ColTypeBool then
      naFill { rd with boolVals := rd.boolVals ++ [{ IsNA := true }] } rest
    else if ci.colType = ColTypeInt then
      naFill { rd with intVals := rd.intVals ++ [{ IsNA := true }] } rest
    else if ci.colType = ColTypeFloat then
      naFill { rd with floatVals := rd.floatVals ++ [{ IsNA := true }] } rest
    else if ci.colType = ColTypeString then
      naFill { rd with stringVals := rd.stringVals ++ [{ IsNA := true }] } rest
    else none

/-- Go `(*DF).RowNA`. -/
def DF.RowNA (df : DF) : Option Row :=
  (naFill {} df.mci.info).map (fun rd => { mci := df.mci.Clone, rd := rd })

/-- The zero-filling loop of Go `(*DF).RowZero` (default: panic). -/
def zeroFill : RowData → List ColInfo → Option RowData
  | rd, [] => some rd
  | rd, ci :: rest =>
    if ci.colType = ColTypeBool then
      zeroFill { rd with boolVals := rd.boolVals ++ [{}] } rest
    else if ci.colType = ColTypeInt then
      zeroFill { rd with intVals := rd.intVals ++ [{}] } rest
    else if ci.colType = ColTypeFloat then
      zeroFill { rd with floatVals := rd.floatVals ++ [{}] } rest
    else if ci.colType = ColTypeString then
      zeroFill { rd with stringVals := rd.stringVals ++ [{}] } rest
    else none

/-- Go `(*DF).RowZero`. -/
def DF.RowZero (df : DF) : Option Row :=
  (zeroFill {} df.mci.info).map (fun rd => { mci := df.mci.Clone, rd := rd })

/-- The copying loop of Go `(*DF).Row` (a switch with no default: unknown
columns are skipped; concrete columns read slot `valIdx[cidx]`, row `i`). -/
def rowFill (df : DF) (i : Int) : List ColInfo → Nat → RowData → Option RowData
  | [], _, rd => some rd
  | ci :: rest, cidx, rd =>
    if ci.colType = ColTypeBool then do
      let vi ← df.mci.valIdx.get? cidx
      let a ← getI df.boolCols vi
      let v ← getI a i
      rowFill df i rest (cidx + 1) { rd with boolVals := rd.boolVals ++ [v] }
    else if ci.colType = ColTypeInt then do
      let vi ← df.mci.valIdx.get? cidx
      let a ← getI df.intCols vi
      let v ← getI a i
      rowFill df i rest (cidx + 1) { rd with intVals := rd.intVals ++ [v] }
    else if ci.colType = ColTypeFloat then do
      let vi ← df.mci.valIdx.get? cidx
      let a ← getI df.floatCols vi
      let v ← getI a i
      rowFill df i rest (cidx + 1) { rd with floatVals := rd.floatVals ++ [v] }
    else if ci.colType = ColTypeString then do
      let vi ← df.mci.valIdx.get? cidx
      let a ← getI df.stringCols vi
      let v ← getI a i
      rowFill df i rest (cidx + 1) { rd with stringVals := rd.stringVals ++ [v] }
    else rowFill df i rest (cidx + 1) rd

/-- Go `(*DF).Row`: an out-of-range index gives the all-NA row, otherwise a
snapshot of row `i`. -/
def DF.Row (df : DF) (i : Int) : Option Row := do
  let rc ← df.RowCount
  if i < 0 ∨ rc ≤ i then df.RowNA
  else do
    let rd ← rowFill df i df.mci.info 0 {}
    some { mci := df.mci.Clone, rd := rd }

/-- Go `(*DF).Clone`: same registry, per-type array counts preserved but
all arrays empty, error state zeroed. -/
def DF.Clone (df : DF) : DF :=
  { mci := df.mci.Clone,
    floatCols := df.floatCols.map (fun _ => []),
    boolCols := df.boolCols.map (fun _ => []),
    intCols := df.intCols.map (fun _ => []),
    stringCols := df.stringCols.map (fun _ => []),
    errors := [], maxErrors := 0, errCount := 0 }

/-- Go `DFOpt`. -/
abbrev DFOpt := DF → Except DfErr DF

/-- The option fold of Go `NewDF`. -/
def newDFLoop : DF → List DFOpt → Except DfErr DF
  | df, [] => .ok df
  | df, o :: rest =>
    match o df with
    | .error e => .error e
    | .ok df' => newDFLoop df' rest

/-- Go `NewDF`: the zero store with `maxErrors = 500`, then the options. -/
def NewDF (opts : List DFOpt) : Except DfErr DF :=
  newDFLoop { maxErrors := 500 } opts

/-- Go `MaxErrors`. -/
def MaxErrors (n : Int) : DFOpt := fun df =>
  if n < 0 then .error (.maxErrorsNegative n) else .ok { df with maxErrors := n }

/-- Go `(DF).ErrCount`. -/
def DF.ErrCount (df : DF) : Int := df.errCount

/-- Go `(DF).Errors`. -/
def DF.Errors (df : DF) : List DfErr := df.errors

/-- Go `(DF).ColCount`. -/
def DF.ColCount (df : DF) : Nat := df.mci.info.length

/-- The duplicate-checking map-building loop of Go `(*DF).SetColNames`. -/
def dupCheckLoop (m : NameMap) : List String → Nat → Except DfErr NameMap
  | [], _ => .ok m
  | name :: rest, i =>
    match mapLookup m name with
    | some dup => .error (.duplicateColName name dup i)
    | none => dupCheckLoop (mapInsert m name i) rest (i + 1)

/-- The renaming loop of Go `(*DF).SetColNames` (lengths are equal at every
call site, enforced by the preceding checks). -/
def applyNames (info : List ColInfo) (names : List String) : List ColInfo :=
  (List.zipWith (fun ci n => { ci with name := n }) info names) ++
    info.drop names.length

/-- Go `(*DF).SetColNames`: empty and duplicate name lists are recorded
and returned as errors; on success the descriptors are renamed and the
name map replaced wholesale. -/
def DF.SetColNames (df : DF) (names : List String) : DF × Option DfErr :=
  if names.length = 0 then
    (df.addError .noNamesGiven, some .noNamesGiven)
  else
    let df0 :=
      if df.mci.info.length = 0 then
        { df with mci := { df.mci with
            info := List.replicate names.length ({} : ColInfo) } }
      else df
    if df0.mci.info.length ≠ names.length then
      let e := DfErr.nameCountMismatch df0.mci.info.length names.length
      (df0.addError e, some e)
    else
      match dupCheckLoop [] names 0 with
      | .error e => (df0.addError e, some e)
      | .ok m =>
        ({ df0 with mci := { df0.mci with
            info := applyNames df0.mci.info names, nameToCol := m } }, none)

/-- Go `(*DF).setIdx`: allocate the next slot of the column's type
(`ColTypeUnknown` allocates nothing and records slot -1; an out-of-range
type panics). -/
def DF.setIdx (df : DF) (i : Nat) : Option DF :=
  match df.mci.info.get? i with
  | none => none
  | some ci =>
    let t := ci.colType
    if t = ColTypeUnknown then
      some { df with mci := { df.mci with valIdx := df.mci.valIdx ++ [(-1 : Int)] } }
    else if t = ColTypeBool then
      some { df with
        boolCols := df.boolCols ++ [[]],
        mci := { df.mci with valIdx := df.mci.valIdx ++ [(df.boolCols.length : Int)] } }
    else if t = ColTypeInt then
      some { df with
        intCols := df.intCols ++ [[]],
        mci := { df.mci with valIdx := df.mci.valIdx ++ [(df.intCols.length : Int)] } }
    else if t = ColTypeFloat then
      some { df with
        floatCols := df.floatCols ++ [[]],
        mci := { df.mci with valIdx := df.mci.valIdx ++ [(df.floatCols.length : Int)] } }
    else if t = ColTypeString then
      some { df with
        stringCols := df.stringCols ++ [[]],
        mci := { df.mci with valIdx := df.mci.valIdx ++ [(df.stringCols.length : Int)] } }
    else none

/-- The validation loop of Go `(*DF).SetColTypes`. Note the faithful
`t < ColTypeUnknown` comparison: on the unsigned `ColType` it never holds,
so `ColTypeUnknown` itself passes validation. -/
def setTypesValidate : List ColType → Nat → Option DfErr
  | [], _ => none
  | t :: rest, i =>
    if t < ColTypeUnknown ∨ ColTypeMaxVal ≤ t then some (.badColType i t)
    else setTypesValidate rest (i + 1)

/-- The assignment loop of Go `(*DF).SetColTypes`: set each descriptor's
type and allocate its slot. -/
def setTypesApply : DF → List ColType → Nat → Option DF
  | df, [], _ => some df
  | df, t :: rest, i =>
    match df.mci.info.get? i with
    | none => none
    | some ci =>
      let df1 := { df with mci := { df.mci with
          info := df.mci.info.set i { ci with colType := t } } }
      match df1.setIdx i with
      | none => none
      | some df2 => setTypesApply df2 rest (i + 1)

/-- Go `(*DF).SetColTypes`. -/
def DF.SetColTypes (df : DF) (types : List ColType) : Option (DF × Option DfErr) :=
  if types.length = 0 then
    some (df.addError .noTypesGiven, some .noTypesGiven)
  else
    match setTypesValidate types 0 with
    | some e => some (df.addError e, some e)
    | none =>
      let df0 :=
        if df.mci.info.length = 0 then
          { df with mci := { df.mci with
              info := List.replicate types.length ({} : ColInfo) } }
        else df
      if df0.mci.info.length ≠ types.length then
        let e := DfErr.typeCountMismatch df0.mci.info.length types.length
        some (df0.addError e, some e)
      else
        (setTypesApply df0 types 0).map (fun df' => (df', none))

/-- The appending loop of Go `(*DF).AddRow` (a switch with no default;
each concrete column appends the row's slot value to the store's slot). -/
def addRowLoop (row : Row) : DF → List ColInfo → Nat → Option DF
  | df, [], _ => some df
  | df, ci :: rest, i => do
    let vi ← df.mci.valIdx.get? i
    if ci.colType = ColTypeBool then do
      let a ← getI df.boolCols vi
      let v ← getI row.rd.boolVals vi
      addRowLoop row { df with boolCols := setI df.boolCols vi (a ++ [v]) } rest (i + 1)
    else if ci.colType = ColTypeFloat then do
      let a ← getI df.floatCols vi
      let v ← getI row.rd.floatVals vi
      addRowLoop row { df with floatCols := setI df.floatCols vi (a ++ [v]) } rest (i + 1)
    else if ci.colType = ColTypeInt then do
      let a ← getI df.intCols vi
      let v ← getI row.rd.intVals vi
      addRowLoop row { df with intCols := setI df.intCols vi (a ++ [v]) } rest (i + 1)
    else if ci.colType = ColTypeString then do
      let a ← getI df.stringCols vi
      let v ← getI row.rd.stringVals vi
      addRowLoop row { df with stringCols := setI df.stringCols vi (a ++ [v]) } rest (i + 1)
    else addRowLoop row df rest (i + 1)

/-- Go `(*DF).AddRow`: gate on registry `Match`, then append slot by slot. -/
def DF.AddRow (df : DF) (row : Dataframe.Row) : Option (Except DfErr DF) :=
  match df.mci.Match row.mci with
  | none => none
  | some (some e) => some (.error e)
  | some none => (addRowLoop row df df.mci.info 0).map Except.ok

/-- The per-column loop of Go `(*DF).AddRowFromText`: parse the field by
the column's type, append the wrapper whatever the outcome, and record a
located error for each failed parse (the default case panics). -/
def addRFTLoop : DF → List String → List ColInfo → Nat → Option DF
  | df, _, [], _ => some df
  | df, cols, c :: rest, i => do
    let vi ← df.mci.valIdx.get? i
    let s ← cols.get? i
    if c.colType = ColTypeBool then do
      let p := BoolVal.SetVal {} s
      let a ← getI df.boolCols vi
      let df1 := { df with boolCols := setI df.boolCols vi (a ++ [p.1]) }
      match p.2 with
      | none => addRFTLoop df1 cols rest (i + 1)
      | some e => do
        let rc ← df1.RowCount
        addRFTLoop (df1.addError (.cellParseFailure rc i e)) cols rest (i + 1)
    else if c.colType = ColTypeInt then do
      let p := IntVal.SetVal {} s
      let a ← getI df.intCols vi
      let df1 := { df with intCols := setI df.intCols vi (a ++ [p.1]) }
      match p.2 with
      | none => addRFTLoop df1 cols rest (i + 1)
      | some e => do
        let rc ← df1.RowCount
        addRFTLoop (df1.addError (.cellParseFailure rc i e)) cols rest (i + 1)
    else if c.colType = ColTypeFloat then do
      let p := FloatVal.SetVal {} s
      let a ← getI df.floatCols vi
      let df1 := { df with floatCols := setI df.floatCols vi (a ++ [p.1]) }
      match p.2 with
      | none => addRFTLoop df1 cols rest (i + 1)
      | some e => do
        let rc ← df1.RowCount
        addRFTLoop (df1.addError (.cellParseFailure rc i e)) cols rest (i + 1)
    else if c.colType = ColTypeString then do
      let a ← getI df.stringCols vi
      let df1 := { df with stringCols := setI df.stringCols vi (a ++ [⟨s, false⟩]) }
      addRFTLoop df1 cols rest (i + 1)
    else none

/-- Go `(*DF).AddRowFromText`: an arity mismatch records one error and
appends nothing; otherwise every column gets exactly one value. -/
def DF.AddRowFromText (df : DF) (cols : List String) : Option DF :=
  if cols.length ≠ df.mci.info.length then
    some (df.addError (.rowColCountMismatch df.mci.info.length cols.length))
  else addRFTLoop df cols df.mci.info 0

/-- Go `(*DF).AddRowsFromText`. -/
def DF.AddRowsFromText : DF → List (List String) → Option DF
  | df, [] => some df
  | df, r :: rest =>
    match df.AddRowFromText r with
    | none => none
    | some df' => df'.AddRowsFromText rest

end Dataframe

namespace Dataframe

/-! ### The ingestion pipeline -/

/-- Go `DFReader`: the configuration of a read. The two compiled regexes
become functions: `commentStrip` maps a line to its part before the first
comment match, and `split` is `splitRegex.Split(line, maxCols)` (with
`maxCols` always -1, as in the source). -/
structure DFReader where
  hasHeader : Bool := false
  skipBlankLines : Bool := false
  allowErrors : Bool := false
  commentStrip : Option (String → String) := none
  colNames : List String := []
  colTypes : List ColType := []
  skipLines : Int := 0
  initialLines : Int := 10
  skipCols : List Int := []
  maxCols : Int := -1
  split : String → List String := goSplitWS

/-- Go `dfReadState`: the per-read mutable state. `lineNum` models
`loc.Idx()` (1-based after the first `Incr`). -/
structure DfReadState where
  source : String := ""
  lineNum : Int := 0
  dataLineNum : Int := 0
  line : String := ""
  cols : List String := []
  cache : Option (List (List String)) := none

/-- Go `newDFReadState`: the cache exists only when `initialLines > 0`,
with capacity `initialLines`. -/
def newDFReadState (dfr : DFReader) (source : String) : DfReadState :=
  { source := source,
    cache := if 0 < dfr.initialLines then some [] else none }

/-- The result of one line-handler: new state, new store, skip flag, error. -/
abbrev StageRes := DfReadState × DF × Bool × Option DfErr

/-- Go `lineHandler`; `none` models a panic inside the handler. -/
abbrev LineHandler := DFReader → DfReadState → DF → Option StageRes

/-! ### Type inference -/

/-- Go `canBeBool`. -/
def canBeBool (v : Nat) : Bool := v &&& BitFlagBool = BitFlagBool

/-- Go `canBeInt`. -/
def canBeInt (v : Nat) : Bool := v &&& BitFlagInt = BitFlagInt

/-- Go `canBeFloat`. -/
def canBeFloat (v : Nat) : Bool := v &&& BitFlagFloat = BitFlagFloat

/-- Go's `^x` (bitwise complement) on a uint64. -/
def uNot64 (x : Nat) : Nat := (2 ^ 64 - 1) ^^^ x

/-- The per-field body of Go `tryParse`: clear the candidate bit of every
parser that rejects the field. -/
def tryParseField (v : Nat) (s : String) : Nat :=
  let v1 := if (goParseBool s).2 = none then v else v &&& uNot64 BitFlagBool
  let v2 := if (goParseInt0 s).2 = none then v1 else v1 &&& uNot64 BitFlagInt
  if (goParseFloat s).2 then v2 else v2 &&& uNot64 BitFlagFloat

/-- The inner (per-row) loop of Go `tryParse`: positional update of the
candidate masks; a row longer than the mask slice panics (`none`). -/
def tryParseRow : List Nat → List String → Option (List Nat)
  | canBe, [] => some canBe
  | [], _ :: _ => none
  | v :: vs, s :: ss => (tryParseRow vs ss).map (fun r => tryParseField v s :: r)

/-- Go `tryParse`: fold the per-row update over the sample. -/
def tryParse : List Nat → List (List String) → Option (List Nat)
  | canBe, [] => some canBe
  | canBe, row :: rest =>
    match tryParseRow canBe row with
    | none => none
    | some canBe' => tryParse canBe' rest

/-- Go `initTypeSlice`: every column starts with all three non-string
candidates. -/
def initTypeSlice (n : Nat) : List Nat := List.replicate n BitmaskNonStringDataTypes

/-- The resolution step of Go `guessColTypes` for one column: a pinned type
wins, otherwise boolean > integer > float > text. -/
def guessOne (ci : ColInfo) (v : Nat) : ColType :=
  if ci.colType ≠ ColTypeUnknown then ci.colType
  else if canBeBool v then ColTypeBool
  else if canBeInt v then ColTypeInt
  else if canBeFloat v then ColTypeFloat
  else ColTypeString

/-- Go `guessColTypes`. -/
def guessColTypes (ci : List ColInfo) (rows : List (List String)) :
    Option (List ColType) :=
  if ci.length = 0 then some []
  else
    match tryParse (initTypeSlice ci.length) rows with
    | none => none
    | some canBe => some (List.zipWith guessOne ci canBe)

/-! ### The line-handling stages, in pipeline order -/

/-- Go `skipLine`. -/
def skipLine : LineHandler := fun dfr state df =>
  if state.lineNum ≤ dfr.skipLines then some (state, df, true, none)
  else some (state, df, false, none)

/-- Go `stripComments`. -/
def stripComments : LineHandler := fun dfr state df =>
  match dfr.commentStrip with
  | none => some (state, df, false, none)
  | some f => some ({ state with line := f state.line }, df, false, none)

/-- Go `skipBlankLine`: blank lines are skipped; unless configured away
they also record an error, suppressed (but the skip kept) in permissive
mode. -/
def skipBlankLine : LineHandler := fun dfr state df =>
  if state.line ≠ "" then some (state, df, false, none)
  else if dfr.skipBlankLines then some (state, df, true, none)
  else
    let e := DfErr.unexpectedBlankLine state.lineNum
    some (state, df.addError e, true, if dfr.allowErrors then none else some e)

/-- Sorted insertion, used to normalize the map-iteration order of the
offending skip indexes in the error payload. -/
def insertSorted (x : Int) : List Int → List Int
  | [] => [x]
  | y :: ys => if x ≤ y then x :: y :: ys else y :: insertSorted x ys

def sortInts : List Int → List Int
  | [] => []
  | x :: xs => insertSorted x (sortInts xs)

/-- The backwards removal loop of Go `splitLine`: starting from the last
index, drop each column whose (original) index is in the skip set, and
stop once the counter reaches zero. -/
def removeLoop (skips : List Int) : List String → Nat → Nat → List String × Nat
  | cols, 0, toSkip => (cols, toSkip)
  | cols, i + 1, toSkip =>
    if skips.contains ((i : Int)) then
      let cols' := cols.take i ++ cols.drop (i + 1)
      if toSkip - 1 = 0 then (cols', 0)
      else removeLoop skips cols' i (toSkip - 1)
    else removeLoop skips cols i toSkip

/-- Go `splitLine`: split the line, remove the skip columns, and if any
skip index was never consumed, record an error and return it — note that
unlike the other stages this error is NOT suppressed in permissive mode. -/
def splitLine : LineHandler := fun dfr state df =>
  let cols := dfr.split state.line
  let st1 := { state with cols := cols }
  let colsToSkip := dfr.skipCols.length
  if colsToSkip = 0 then some (st1, df, false, none)
  else
    let pr := removeLoop dfr.skipCols cols cols.length colsToSkip
    let st2 := { st1 with cols := pr.1 }
    if 0 < pr.2 then
      let maxIdx : Int := (pr.1.length : Int) - 1
      let offending := sortInts (dfr.skipCols.filter (fun i => maxIdx < i))
      let e := DfErr.skipColsPastEnd st2.lineNum offending
      some (st2, df.addError e, false, some e)
    else some (st2, df, false, none)

/-- Go `(*DFReader).setColNames`: explicit names win; in header mode the
first line's fields become names (and the line is skipped); otherwise
positional `V0..Vn-1` names are synthesized. -/
def DFReader.setColNames (dfr : DFReader) (state : DfReadState) (df : DF) :
    Bool × DF × Option DfErr :=
  if dfr.colNames.length ≠ 0 then (false, df, none)
  else if dfr.hasHeader then
    let pr := df.SetColNames state.cols
    (true, pr.1, pr.2)
  else
    let names := (List.range state.cols.length).map (fun i => "V" ++ toString i)
    let pr := df.SetColNames names
    (false, pr.1, pr.2)

/-- Go `handleLine1`: only the first non-skipped line establishes the
column names; errors are suppressed in permissive mode. -/
def handleLine1 : LineHandler := fun dfr state df =>
  let st1 := { state with dataLineNum := state.dataLineNum + 1 }
  if st1.dataLineNum ≠ 1 then some (st1, df, false, none)
  else
    let pr := dfr.setColNames st1 df
    some (st1, pr.2.1, pr.1, if dfr.allowErrors then none else pr.2.2)

/-- Go `checkColumns`: arity gate; mismatches are recorded (and suppressed
in permissive mode) and the line is skipped. -/
def checkColumns : LineHandler := fun dfr state df =>
  if df.mci.info.length = state.cols.length then some (state, df, false, none)
  else
    let e := DfErr.colCountLineMismatch state.lineNum df.mci.info.length
      state.cols.length state.cols
    some (state, df.addError e, true, if dfr.allowErrors then none else some e)

/-- Go `(DFReader).setColTypes`: nothing to do when explicit types were
given, else infer from the cached sample and set them. -/
def DFReader.setColTypes (dfr : DFReader) (df : DF) (cache : List (List String)) :
    Option (DF × Option DfErr) :=
  if dfr.colTypes.length ≠ 0 then some (df, none)
  else
    match guessColTypes df.mci.info cache with
    | none => none
    | some types => df.SetColTypes types

/-- Go `populateDF`: resolve the column types from the cache, flush every
cached row, and fail if any error was recorded along the way. -/
def populateDF (dfr : DFReader) (state : DfReadState) (df : DF) :
    Option (DF × Option DfErr) :=
  match state.cache with
  | none => some (df, none)
  | some c =>
    if c.length = 0 then some (df, none)
    else
      match dfr.setColTypes df c with
      | none => none
      | some (df1, some e) => some (df1, some e)
      | some (df1, none) =>
        match df1.AddRowsFromText c with
        | none => none
        | some df2 =>
          if df2.errCount ≠ 0 then
            some (df2, some (.initialLinesErrors state.source df2.errCount))
          else some (df2, none)

/-- Go `cacheData`: while the cache exists, append the row; on reaching
capacity resolve-and-flush, then deactivate the cache. -/
def cacheData : LineHandler := fun dfr state df =>
  match state.cache with
  | none => some (state, df, false, none)
  | some c =>
    let c' := c ++ [state.cols]
    if (c'.length : Int) = dfr.initialLines then
      match populateDF dfr { state with cache := some c' } df with
      | none => none
      | some (df', err) =>
        some ({ state with cache := none }, df', true,
          if dfr.allowErrors then none else err)
    else some ({ state with cache := some c' }, df, true, none)

/-- Go `handleData`: direct ingestion of the row; in strict mode any
recorded error so far aborts. -/
def handleData : LineHandler := fun dfr state df =>
  match df.AddRowFromText state.cols with
  | none => none
  | some df' =>
    if ¬ dfr.allowErrors ∧ df'.errCount ≠ 0 then
      some (state, df', false, some (.parsingErrors state.lineNum))
    else some (state, df', false, none)

/-- The fixed stage chain of Go `(*DFReader).Read`. -/
def operations : List LineHandler :=
  [skipLine, stripComments, skipBlankLine, splitLine, handleLine1,
   checkColumns, cacheData, handleData]

/-- Go `(DFReader).makeDF`: a fresh store, with any explicit names and
types applied. -/
def DFReader.makeDF (dfr : DFReader) : Option (Except DfErr DF) :=
  match NewDF [] with
  | .error e => some (.error e)
  | .ok df0 =>
    let pr1 := if 0 < dfr.colNames.length then df0.SetColNames dfr.colNames
      else (df0, none)
    match pr1.2 with
    | some e => some (.error e)
    | none =>
      if 0 < dfr.colTypes.length then
        match pr1.1.SetColTypes dfr.colTypes with
        | none => none
        | some (_, some e) => some (.error e)
        | some (df2, none) => some (.ok df2)
      else some (.ok pr1.1)

/-- The inner operation loop of Go `Read`: first error aborts, first skip
ends the line. -/
def runOps (dfr : DFReader) :
    List LineHandler → DfReadState → DF → Option (DfReadState × DF × Option DfErr)
  | [], state, df => some (state, df, none)
  | op :: rest, state, df =>
    match op dfr state df with
    | none => none
    | some (state', df', skip, err) =>
      match err with
      | some e => some (state', df', some e)
      | none =>
        if skip then some (state', df', none) else runOps dfr rest state' df'

/-- The scanner loop of Go `Read`: one line at a time through the stages. -/
def readLoop (dfr : DFReader) :
    List String → DfReadState → DF → Option (DfReadState × DF × Option DfErr)
  | [], state, df => some (state, df, none)
  | l :: rest, state, df =>
    let st1 := { state with lineNum := state.lineNum + 1, line := l }
    match runOps dfr operations st1 df with
    | none => none
    | some (state', df', some e) => some (state', df', some e)
    | some (state', df', none) => readLoop dfr rest state' df'

/-- Go `(*DFReader).Read` over an abstract line source: build the store,
run every line through the stage chain (any non-nil stage error aborts
with no store), then flush whatever remains in the cache; in strict mode a
flush error also aborts. -/
def DFReader.Read (dfr : DFReader) (lines : List String) (source : String) :
    Option (Except DfErr DF) :=
  match dfr.makeDF with
  | none => none
  | some (.error e) => some (.error e)
  | some (.ok df) =>
    match readLoop dfr lines (newDFReadState dfr source) df with
    | none => none
    | some (_, _, some e) => some (.error e)
    | some (state', df', none) =>
      match populateDF dfr state' df' with
      | none => none
      | some (df2, some e) =>
        if ¬ dfr.allowErrors then some (.error e) else some (.ok df2)
      | some (df2, none) => some (.ok df2)

/-! ### Reader construction -/

/-- Go `DFReaderOpt`. -/
abbrev DFReaderOpt := DFReader → Except DfErr DFReader

/-- Go `HasHeader` (the mutation happens before the conflict check). -/
def HasHeader : DFReaderOpt := fun dfr =>
  let dfr1 := { dfr with hasHeader := true }
  if dfr1.colNames.length ≠ 0 then .error .hasNamesAndHeader else .ok dfr1

/-- Go `SkipBlankLines`. -/
def SkipBlankLines : DFReaderOpt := fun dfr =>
  .ok { dfr with skipBlankLines := true }

/-- Go `AllowErrors`. -/
def AllowErrors : DFReaderOpt := fun dfr =>
  .ok { dfr with allowErrors := true }

/-- The insertion loop of Go `DFRSkipCols` (with its repeated duplicate
check). -/
def skipColsLoop (cur : List Int) : List Int → Nat → Except DfErr (List Int)
  | [], _ => .ok cur
  | s :: rest, i =>
    if cur.contains s then .error (.duplicateSkipIndex i s)
    else skipColsLoop (cur ++ [s]) rest (i + 1)

/-- Go `DFRSkipCols`: panics (`none`) on an empty, negative or duplicated
skip list at option-construction time. -/
def DFRSkipCols (skips : List Int) : Option DFReaderOpt :=
  if skips.length = 0 then none
  else if skips.any (fun s => s < 0) then none
  else if ¬ skips.Nodup then none
  else some (fun dfr =>
    if dfr.skipCols.length ≠ 0 then .error .skipIndexesAlreadySet
    else
      match skipColsLoop dfr.skipCols skips 0 with
      | .error e => .error e
      | .ok sc => .ok { dfr with skipCols := sc })

/-- Go `DFRColNames`. -/
def DFRColNames (names : List String) : DFReaderOpt := fun dfr =>
  if dfr.hasHeader then .error .hasNamesAndHeader
  else if names.length = 0 then .error .noNamesGiven
  else if dfr.colNames.length ≠ 0 then .error .namesAlreadySet
  else if dfr.colTypes.length ≠ 0 ∧ dfr.colTypes.length ≠ names.length then
    .error (.typeCountMismatch dfr.colTypes.length names.length)
  else .ok { dfr with colNames := names }

/-- Go `DFRColTypes`. -/
def DFRColTypes (types : List ColType) : DFReaderOpt := fun dfr =>
  if types.length = 0 then .error .noTypesGiven
  else if dfr.colTypes.length ≠ 0 then .error .typesAlreadySet
  else if dfr.colNames.length ≠ 0 ∧ dfr.colNames.length ≠ types.length then
    .error (.typeCountMismatch types.length dfr.colNames.length)
  else .ok { dfr with colTypes := types }

/-- Go `SkipLines` (panics on a negative count at construction time). -/
def SkipLines (n : Int) : Option DFReaderOpt :=
  if n < 0 then none
  else some (fun dfr => .ok { dfr with skipLines := n })

/-- Go `InitialLines`. -/
def InitialLines (n : Int) : DFReaderOpt := fun dfr =>
  if n < 0 then .error (.initialLinesNegative n)
  else .ok { dfr with initialLines := n }

/-- The option fold of Go `NewDFReader`. -/
def newDFReaderLoop : DFReader → List DFReaderOpt → Except DfErr DFReader
  | dfr, [] => .ok dfr
  | dfr, o :: rest =>
    match o dfr with
    | .error e => .error e
    | .ok dfr' => newDFReaderLoop dfr' rest

/-- Go `NewDFReader`: defaults, the options, the no-type-information check,
the header increment of `initialLines`, and its reset when explicit types
make inference unnecessary. -/
def NewDFReader (opts : List DFReaderOpt) : Except DfErr DFReader :=
  match newDFReaderLoop {} opts with
  | .error e => .error e
  | .ok dfr =>
    if dfr.initialLines = 0 ∧ dfr.colTypes.length = 0 then .error .noTypeInfo
    else
      let dfr1 := if dfr.hasHeader then
        { dfr with initialLines := dfr.initialLines + 1 } else dfr
      let dfr2 := if dfr1.colTypes.length ≠ 0 then
        { dfr1 with initialLines := 0 } else dfr1
      .ok dfr2

end Dataframe

namespace Dataframe

/-! ### Well-formedness predicates for the store -/

/-- A concrete (storable) column type: one of the four data kinds. -/
def IsConcrete (t : ColType) : Prop :=
  t = ColTypeBool ∨ t = ColTypeInt ∨ t = ColTypeFloat ∨ t = ColTypeString

instance (t : ColType) : Decidable (IsConcrete t) := by
  unfold IsConcrete; infer_instance

/-- Number of columns of the given type. -/
def countType (info : List ColInfo) (t : ColType) : Nat :=
  (info.filter (fun ci => ci.colType = t)).length

/-- Checks the registry slot invariant of the source: walking the columns
with four running per-type counters, every column must be concrete and its
slot must equal the current counter of its type. -/
def slotCheck : List ColInfo → List Int → Nat → Nat → Nat → Nat → Bool
  | [], [], _, _, _, _ => true
  | ci :: rest, v :: vs, cb, cn, cf, cs =>
    if ci.colType = ColTypeBool then v = (cb : Int) && slotCheck rest vs (cb + 1) cn cf cs
    else if ci.colType = ColTypeInt then v = (cn : Int) && slotCheck rest vs cb (cn + 1) cf cs
    else if ci.colType = ColTypeFloat then v = (cf : Int) && slotCheck rest vs cb cn (cf + 1) cs
    else if ci.colType = ColTypeString then v = (cs : Int) && slotCheck rest vs cb cn cf (cs + 1)
    else false
  | _, _, _, _, _, _ => false

/-- All inner arrays have length `R`. -/
def allLen {α : Type} (R : Nat) (ls : List (List α)) : Bool :=
  ls.all (fun a => a.length = R)

/-- Well-formedness of a (typed) store, the invariant of every store built
through the public API with names and concrete types set: registry slots
correct and concrete, one storage array per column of each type, and every
array of length `R` (the row count). -/
def DFWF (df : DF) (R : Nat) : Prop :=
  slotCheck df.mci.info df.mci.valIdx 0 0 0 0 = true ∧
  df.boolCols.length = countType df.mci.info ColTypeBool ∧
  df.intCols.length = countType df.mci.info ColTypeInt ∧
  df.floatCols.length = countType df.mci.info ColTypeFloat ∧
  df.stringCols.length = countType df.mci.info ColTypeString ∧
  allLen R df.boolCols = true ∧ allLen R df.intCols = true ∧
  allLen R df.floatCols = true ∧ allLen R df.stringCols = true

instance (df : DF) (R : Nat) : Decidable (DFWF df R) := by
  unfold DFWF; infer_instance

/-- Iterated `addError`, used to state the error-accumulator claim. -/
def addErrors : DF → List DfErr → DF
  | df, [] => df
  | df, e :: rest => addErrors (df.addError e) rest

/-! ### The error accumulator (claim C6) -/

theorem addErrors_general (es : List DfErr) : ∀ df : DF,
    (addErrors df es).errCount = df.errCount + es.length ∧
    (addErrors df es).errors =
      df.errors ++ es.take ((df.maxErrors - df.errors.length).toNat) ∧
    (addErrors df es).maxErrors = df.maxErrors := by
  induction es with
  | nil => intro df; simp [addErrors]
  | cons e rest ih =>
    intro df
    obtain ⟨h1, h2, h3⟩ := ih (df.addError e)
    refine ⟨?_, ?_, ?_⟩
    · rw [addErrors, h1]; simp [DF.addError]; omega
    · rw [addErrors, h2]
      by_cases hlt : (df.errors.length : Int) < df.maxErrors
      · have hlen : (df.addError e).errors = df.errors ++ [e] := by
          simp [DF.addError, hlt]
        have hmax : (df.addError e).maxErrors = df.maxErrors := by
          simp [DF.addError]
        rw [hlen, hmax]
        have harith : (df.maxErrors - df.errors.length).toNat =
            (df.maxErrors - (df.errors ++ [e]).length).toNat + 1 := by
          simp only [List.length_append, List.length_singleton]
          omega
        rw [harith, List.append_assoc]
        rfl
      · have hlen : (df.addError e).errors = df.errors := by
          simp [DF.addError, hlt]
        have hmax : (df.addError e).maxErrors = df.maxErrors := by
          simp [DF.addError]
        rw [hlen, hmax]
        have hz : (df.maxErrors - df.errors.length).toNat = 0 := by omega
        rw [hz]
        simp
    · rw [addErrors, h3]; simp [DF.addError]

/-- Claim C6: for every DF with error cap M and every sequence of k calls
to addError (starting from an empty accumulator), errCount increases by
exactly k while the stored error list holds exactly the first min(k, M)
errors in arrival order; and for every single call, the counter increments
unconditionally while the append happens if and only if the list currently
holds fewer than M entries. -/
theorem claim_C6_addError_cap (df : DF) (es : List DfErr)
    (hmax : 0 ≤ df.maxErrors) (herrs : df.errors = []) (hcnt : df.errCount = 0) :
    (addErrors df es).errCount = es.length ∧
    (addErrors df es).errors = es.take (min es.length df.maxErrors.toNat) ∧
    (∀ (d : DF) (e : DfErr), (d.addError e).errCount = d.errCount + 1 ∧
      (d.addError e).errors =
        (if (d.errors.length : Int) < d.maxErrors then d.errors ++ [e] else d.errors)) := by
  obtain ⟨h1, h2, h3⟩ := addErrors_general es df
  refine ⟨by rw [h1, hcnt]; simp, ?_, ?_⟩
  · rw [h2, herrs]
    simp only [List.length_nil, List.nil_append, Int.ofNat_zero, sub_zero]
    rw [List.take_eq_take]
    omega
  · intro d e
    constructor
    · simp [DF.addError]
    · by_cases hlt : (d.errors.length : Int) < d.maxErrors <;> simp [DF.addError, hlt]

theorem claim_C6_witness :
    (0 : Int) ≤ (({ maxErrors := 2 } : DF)).maxErrors ∧
    (addErrors { maxErrors := 2 }
        [.noNamesGiven, .noTypesGiven, .noTypeInfo]).errCount = 3 ∧
    (addErrors { maxErrors := 2 }
        [.noNamesGiven, .noTypesGiven, .noTypeInfo]).errors =
      [.noNamesGiven, .noTypesGiven] := by
  have h := claim_C6_addError_cap { maxErrors := 2 }
    [.noNamesGiven, .noTypesGiven, .noTypeInfo] (by decide) rfl rfl
  exact ⟨by decide, h.1, by rw [h.2.1]; rfl⟩

/-! ### SetColTypes and the unknown sentinel (claims C7 and C10) -/

/-- Claim C7 (code bug): the validation in SetColTypes is
`colType < ColTypeUnknown || colType >= ColTypeMaxVal`; on the unsigned
ColType the first comparison is vacuous, so the sentinel ColTypeUnknown is
accepted rather than rejected: SetColTypes on a fresh store with the single
type ColTypeUnknown returns a nil error, leaves the column non-concrete
and records the slot -1. -/
theorem claim_C7_unknown_accepted :
    ∃ df' : DF, ({ maxErrors := 500 } : DF).SetColTypes [ColTypeUnknown] =
        some (df', none) ∧
      df'.mci.info.map (fun ci => ci.colType) = [ColTypeUnknown] ∧
      df'.mci.valIdx = [-1] := by
  refine ⟨_, rfl, by decide, by decide⟩

/-- Claim C10 (counterexample): a DF with one non-concrete column can have
a non-empty slot list (SetColTypes accepts ColTypeUnknown, recording slot
-1), and on such a DF RowCount panics rather than returning 0. -/
theorem claim_C10_counterexample :
    ∃ df' : DF, ({ maxErrors := 500 } : DF).SetColTypes [ColTypeUnknown] =
        some (df', none) ∧
      (∃ ci ∈ df'.mci.info, ¬ IsConcrete ci.colType) ∧
      df'.RowCount = none := by
  refine ⟨_, rfl, ?_, by decide⟩
  exact ⟨{ name := "", colType := ColTypeUnknown }, by decide, by decide⟩

/-- naFill panics as soon as it reaches a non-concrete column. -/
theorem naFill_none (info : List ColInfo)
    (h : ∃ ci ∈ info, ¬ IsConcrete ci.colType) :
    ∀ rd, naFill rd info = none := by
  induction info with
  | nil => simp at h
  | cons ci rest ih =>
    intro rd
    obtain ⟨c, hc, hnc⟩ := h
    rcases List.mem_cons.mp hc with hh | ht
    · subst hh
      have h1 : ¬ c.colType = ColTypeBool := fun he => hnc (Or.inl he)
      have h2 : ¬ c.colType = ColTypeInt := fun he => hnc (Or.inr (Or.inl he))
      have h3 : ¬ c.colType = ColTypeFloat := fun he => hnc (Or.inr (Or.inr (Or.inl he)))
      have h4 : ¬ c.colType = ColTypeString := fun he => hnc (Or.inr (Or.inr (Or.inr he)))
      simp [naFill, h1, h2, h3, h4]
    · have := ih ⟨c, ht, hnc⟩
      by_cases h1 : ci.colType = ColTypeBool
      · simp [naFill, h1, this]
      · by_cases h2 : ci.colType = ColTypeInt
        · simp [naFill, h1, h2, this]
        · by_cases h3 : ci.colType = ColTypeFloat
          · simp [naFill, h1, h2, h3, this]
          · by_cases h4 : ci.colType = ColTypeString
            · simp [naFill, h1, h2, h3, h4, this]
            · simp [naFill, h1, h2, h3, h4]

/-- zeroFill panics as soon as it reaches a non-concrete column. -/
theorem zeroFill_none (info : List ColInfo)
    (h : ∃ ci ∈ info, ¬ IsConcrete ci.colType) :
    ∀ rd, zeroFill rd info = none := by
  induction info with
  | nil => simp at h
  | cons ci rest ih =>
    intro rd
    obtain ⟨c, hc, hnc⟩ := h
    rcases List.mem_cons.mp hc with hh | ht
    · subst hh
      have h1 : ¬ c.colType = ColTypeBool := fun he => hnc (Or.inl he)
      have h2 : ¬ c.colType = ColTypeInt := fun he => hnc (Or.inr (Or.inl he))
      have h3 : ¬ c.colType = ColTypeFloat := fun he => hnc (Or.inr (Or.inr (Or.inl he)))
      have h4 : ¬ c.colType = ColTypeString := fun he => hnc (Or.inr (Or.inr (Or.inr he)))
      simp [zeroFill, h1, h2, h3, h4]
    · have := ih ⟨c, ht, hnc⟩
      by_cases h1 : ci.colType = ColTypeBool
      · simp [zeroFill, h1, this]
      · by_cases h2 : ci.colType = ColTypeInt
        · simp [zeroFill, h1, h2, this]
        · by_cases h3 : ci.colType = ColTypeFloat
          · simp [zeroFill, h1, h2, h3, this]
          · by_cases h4 : ci.colType = ColTypeString
            · simp [zeroFill, h1, h2, h3, h4, this]
            · simp [zeroFill, h1, h2, h3, h4]

/-- Claim C10 (amended): for every DF whose slot list is empty — in
particular one on which SetColNames has been called but SetColTypes has
not — and that has at least one non-concrete column, RowCount returns 0
while RowNA, RowZero and Row(i) for every index i panic. (The original
claim's RowCount part fails when a non-concrete column does own a slot,
which the SetColTypes unknown-acceptance bug makes reachable.) -/
theorem claim_C10_amended (df : DF) (hv : df.mci.valIdx = [])
    (h : ∃ ci ∈ df.mci.info, ¬ IsConcrete ci.colType) :
    df.RowCount = some 0 ∧ df.RowNA = none ∧ df.RowZero = none ∧
    ∀ i : Int, df.Row i = none := by
  have hrc : df.RowCount = some 0 := by
    unfold DF.RowCount
    rw [hv]
    simp
  have hna : df.RowNA = none := by
    unfold DF.RowNA
    rw [naFill_none df.mci.info h]
    rfl
  refine ⟨hrc, hna, ?_, ?_⟩
  · unfold DF.RowZero
    rw [zeroFill_none df.mci.info h]
    rfl
  · intro i
    unfold DF.Row
    rw [hrc]
    have : i < 0 ∨ (0 : Int) ≤ i := by omega
    simp only [Option.bind_eq_bind, Option.some_bind]
    rcases this with hlt | hle
    · simp [hlt, hna]
    · simp [hna, if_pos (Or.inr hle)]

theorem claim_C10_witness :
    ((({ maxErrors := 500 } : DF).SetColNames ["a"]).1.mci.valIdx = [] ∧
      ∃ ci ∈ (({ maxErrors := 500 } : DF).SetColNames ["a"]).1.mci.info,
        ¬ IsConcrete ci.colType) ∧
    (({ maxErrors := 500 } : DF).SetColNames ["a"]).1.RowCount = some 0 ∧
    (({ maxErrors := 500 } : DF).SetColNames ["a"]).1.RowNA = none := by
  have h := claim_C10_amended (({ maxErrors := 500 } : DF).SetColNames ["a"]).1
    (by decide) ⟨{ name := "a", colType := ColTypeUnknown }, by decide, by decide⟩
  exact ⟨⟨by decide, ⟨{ name := "a", colType := ColTypeUnknown }, by decide, by decide⟩⟩,
    h.1, h.2.1⟩

/-! ### The registry invariant (claim C8): counterexample -/

/-- Claim C8 (counterexample): DF.SetColNames alone is a successful public
registry-mutating operation after which the descriptor list has length 1
while the slot list is still empty, violating the claimed invariant that
the two always have equal length. -/
theorem claim_C8_counterexample :
    ∃ df' : DF, ({ maxErrors := 500 } : DF).SetColNames ["c1"] = (df', none) ∧
      df'.mci.info.length = 1 ∧ df'.mci.valIdx.length = 0 := by
  exact ⟨_, rfl, by decide, by decide⟩

end Dataframe

namespace Dataframe

/-! ### Out-of-range row access (claim C3) -/

theorem countType_cons (ci : ColInfo) (rest : List ColInfo) (t : ColType) :
    countType (ci :: rest) t =
      countType rest t + (if ci.colType = t then 1 else 0) := by
  simp only [countType, List.filter_cons]
  split <;> simp_all

/-- On an all-concrete column list, naFill appends exactly one NA value per
column to the matching type list. -/
theorem naFill_concrete (info : List ColInfo)
    (h : ∀ ci ∈ info, IsConcrete ci.colType) : ∀ rd : RowData,
    naFill rd info = some
      { boolVals := rd.boolVals ++
          List.replicate (countType info ColTypeBool) { IsNA := true },
        intVals := rd.intVals ++
          List.replicate (countType info ColTypeInt) { IsNA := true },
        floatVals := rd.floatVals ++
          List.replicate (countType info ColTypeFloat) { IsNA := true },
        stringVals := rd.stringVals ++
          List.replicate (countType info ColTypeString) { IsNA := true } } := by
  induction info with
  | nil => intro rd; simp [naFill, countType]
  | cons ci rest ih =>
    intro rd
    have hci := h ci (List.mem_cons_self _ _)
    have hrest : ∀ c ∈ rest, IsConcrete c.colType :=
      fun c hc => h c (List.mem_cons_of_mem _ hc)
    rcases hci with h1 | h1 | h1 | h1 <;>
      simp [naFill, h1, ih hrest, countType_cons, List.replicate_succ,
        ColTypeBool, ColTypeInt, ColTypeFloat, ColTypeString]

/-- Claim C3: for every DF all of whose columns have one of the four
concrete types (and whose RowCount is well-defined), and for every index i
with i < 0 or i >= RowCount — in particular i = -1 and i = rowCount —
Row(i) returns (no panic, no error) the row with the same registry as the
store in which every value is the NA wrapper. -/
theorem claim_C3_row_out_of_range (df : DF) (n : Int)
    (hrc : df.RowCount = some n)
    (hconc : ∀ ci ∈ df.mci.info, IsConcrete ci.colType)
    (i : Int) (hi : i < 0 ∨ n ≤ i) :
    df.Row i = some
      { mci := df.mci,
        rd := { boolVals :=
                  List.replicate (countType df.mci.info ColTypeBool) { IsNA := true },
                intVals :=
                  List.replicate (countType df.mci.info ColTypeInt) { IsNA := true },
                floatVals :=
                  List.replicate (countType df.mci.info ColTypeFloat) { IsNA := true },
                stringVals :=
                  List.replicate (countType df.mci.info ColTypeString) { IsNA := true } } } := by
  unfold DF.Row
  rw [hrc]
  have hna := naFill_concrete df.mci.info hconc {}
  simp only [Option.bind_eq_bind, Option.some_bind, if_pos hi]
  unfold DF.RowNA
  rw [hna]
  simp [MultiColInfo.Clone]

/-- A concrete two-column store (the result of SetColNames then
SetColTypes on a fresh DF), used to witness claim C3. -/
def c3exampleDF : DF :=
  { mci := { info := [{ name := "a", colType := ColTypeInt },
                      { name := "b", colType := ColTypeBool }],
             valIdx := [0, 0],
             nameToCol := [("a", 0), ("b", 1)] },
    intCols := [[]], boolCols := [[]], maxErrors := 500 }

theorem claim_C3_witness :
    (({ maxErrors := 500 } : DF).SetColNames ["a", "b"]).1.SetColTypes
        [ColTypeInt, ColTypeBool] = some (c3exampleDF, none) ∧
    c3exampleDF.RowCount = some 0 ∧
    (∀ ci ∈ c3exampleDF.mci.info, IsConcrete ci.colType) ∧
    c3exampleDF.Row (-1) = some
      { mci := c3exampleDF.mci,
        rd := { boolVals := [{ IsNA := true }], intVals := [{ IsNA := true }] } } ∧
    c3exampleDF.Row 0 = some
      { mci := c3exampleDF.mci,
        rd := { boolVals := [{ IsNA := true }], intVals := [{ IsNA := true }] } } := by
  refine ⟨by decide, by decide, by decide, ?_, ?_⟩
  · have h := claim_C3_row_out_of_range c3exampleDF 0 (by decide) (by decide)
      (-1) (by decide)
    rw [h]; rfl
  · have h := claim_C3_row_out_of_range c3exampleDF 0 (by decide) (by decide)
      0 (by decide)
    rw [h]; rfl

end Dataframe

namespace Dataframe

/-! ### Type inference (claim C4) -/

/-- Parse-success predicates for the three candidate types. -/
def boolOk (s : String) : Bool := (goParseBool s).2.isNone

def intOk (s : String) : Bool := (goParseInt0 s).2.isNone

def floatOk (s : String) : Bool := (goParseFloat s).2

/-- The fields sampled for column `i`. -/
def colFields (rows : List (List String)) (i : Nat) : List String :=
  rows.filterMap (fun r => r.get? i)

/-- One conditional bit-clear step of `tryParseField`. -/
def tpfStep (v : Nat) (ok : Bool) (flag : Nat) : Nat :=
  if ok then v else v &&& uNot64 flag

theorem tryParseField_cascade (v : Nat) (s : String) :
    tryParseField v s =
      tpfStep (tpfStep (tpfStep v (boolOk s) BitFlagBool) (intOk s) BitFlagInt)
        (floatOk s) BitFlagFloat := by
  by_cases hb : (goParseBool s).2 = none <;>
    by_cases hn : (goParseInt0 s).2 = none <;>
      by_cases hf : (goParseFloat s).2 = true <;>
        simp [tryParseField, tpfStep, boolOk, intOk, floatOk, hb, hn, hf,
          Option.isNone_iff_eq_none]

/-- Finite check of the mask arithmetic: the cascade of the three
conditional clears keeps the mask below 16 and each candidate bit survives
exactly when it was set and its parse succeeded. -/
theorem tpf_bits : ∀ v < 16, ∀ b n f : Bool,
    (canBeBool (tpfStep (tpfStep (tpfStep v b BitFlagBool) n BitFlagInt) f BitFlagFloat) =
      (canBeBool v && b)) ∧
    (canBeInt (tpfStep (tpfStep (tpfStep v b BitFlagBool) n BitFlagInt) f BitFlagFloat) =
      (canBeInt v && n)) ∧
    (canBeFloat (tpfStep (tpfStep (tpfStep v b BitFlagBool) n BitFlagInt) f BitFlagFloat) =
      (canBeFloat v && f)) ∧
    tpfStep (tpfStep (tpfStep v b BitFlagBool) n BitFlagInt) f BitFlagFloat < 16 := by
  decide

/-- Folding `tryParseField` over a field list: a candidate bit survives
exactly when it started set and every field parses as that type. -/
theorem colFold_spec (fields : List String) : ∀ v, v < 16 →
    (canBeBool (List.foldl tryParseField v fields) = (canBeBool v && fields.all boolOk)) ∧
    (canBeInt (List.foldl tryParseField v fields) = (canBeInt v && fields.all intOk)) ∧
    (canBeFloat (List.foldl tryParseField v fields) = (canBeFloat v && fields.all floatOk)) ∧
    List.foldl tryParseField v fields < 16 := by
  induction fields with
  | nil => intro v hv; simp [hv]
  | cons s rest ih =>
    intro v hv
    have hc := tryParseField_cascade v s
    have hb := tpf_bits v hv (boolOk s) (intOk s) (floatOk s)
    rw [← hc] at hb
    obtain ⟨ih1, ih2, ih3, ih4⟩ := ih (tryParseField v s) hb.2.2.2
    refine ⟨?_, ?_, ?_, by simpa using ih4⟩ <;>
      simp [List.foldl_cons, ih1, ih2, ih3, hb.1, hb.2.1, hb.2.2.1,
        List.all_cons, Bool.and_assoc]

theorem zipWithGet {α β γ : Type} (f : α → β → γ) :
    ∀ (l1 : List α) (l2 : List β) (i : Nat),
      (List.zipWith f l1 l2).get? i =
        match l1.get? i, l2.get? i with
        | some a, some b => some (f a b)
        | _, _ => none := by
  intro l1
  induction l1 with
  | nil => intro l2 i; cases l2 <;> simp
  | cons a as ih =>
    intro l2 i
    cases l2 with
    | nil => simp
    | cons b bs => cases i with
      | zero => simp
      | succ j => simpa using ih bs j

/-- Positional characterization of the per-row mask update. -/
theorem tryParseRow_spec : ∀ (canBe : List Nat) (row : List String),
    row.length ≤ canBe.length →
    ∃ res, tryParseRow canBe row = some res ∧ res.length = canBe.length ∧
      ∀ i, res.get? i =
        (match row.get? i with
         | some s => (canBe.get? i).map (fun v => tryParseField v s)
         | none => canBe.get? i) := by
  intro canBe
  induction canBe with
  | nil =>
    intro row h
    have : row = [] := List.eq_nil_of_length_eq_zero (Nat.le_zero.mp h)
    subst this
    exact ⟨[], rfl, rfl, fun i => by simp [tryParseRow]⟩
  | cons v vs ih =>
    intro row h
    cases row with
    | nil =>
      refine ⟨v :: vs, rfl, rfl, fun i => by simp⟩
    | cons s ss =>
      obtain ⟨res, h1, h2, h3⟩ := ih ss (by simpa using h)
      refine ⟨tryParseField v s :: res, ?_, by simpa using h2, ?_⟩
      · simp [tryParseRow, h1]
      · intro i
        cases i with
        | zero => simp
        | succ j => simpa using h3 j

/-- Pointwise characterization of the whole inference scan: the final mask
of column `i` is the fold of the per-field update over that column's
sampled fields. -/
theorem tryParse_col : ∀ (rows : List (List String)) (canBe : List Nat),
    (∀ r ∈ rows, r.length ≤ canBe.length) →
    ∃ res, tryParse canBe rows = some res ∧ res.length = canBe.length ∧
      ∀ i, res.get? i =
        (canBe.get? i).map (fun v => List.foldl tryParseField v (colFields rows i)) := by
  intro rows
  induction rows with
  | nil =>
    intro canBe _
    exact ⟨canBe, rfl, rfl, fun i => by simp [colFields]⟩
  | cons row rest ih =>
    intro canBe h
    obtain ⟨res1, h1, h2, h3⟩ := tryParseRow_spec canBe row
      (h row (List.mem_cons_self _ _))
    obtain ⟨res2, g1, g2, g3⟩ := ih res1
      (fun r hr => h2 ▸ h r (List.mem_cons_of_mem _ hr))
    refine ⟨res2, ?_, by rw [g2, h2], ?_⟩
    · simp [tryParse, h1, g1]
    · intro i
      rw [g3 i, h3 i]
      have hcf : colFields (row :: rest) i =
          (match row.get? i with
           | some s => s :: colFields rest i
           | none => colFields rest i) := by
        simp only [colFields, List.filterMap_cons]
        match row.get? i with
        | some s => rfl
        | none => rfl
      rw [hcf]
      match row.get? i with
      | some s =>
        simp only []
        cases canBe.get? i <;> simp
      | none => rfl

/-- Claim C4: for every column list and every sample of rows (whose arity
matches the column count), guessColTypes assigns to each non-pinned column
boolean if every sampled field in that column parses as a boolean, else
integer if every field parses as a base-prefixed 64-bit signed integer,
else float if every field parses as a 64-bit float, else text (an empty
candidate set resolves to text); a pinned column keeps its pinned type
regardless of the sample. -/
theorem claim_C4_guessColTypes (ci : List ColInfo) (rows : List (List String))
    (harity : ∀ r ∈ rows, r.length = ci.length) :
    ∃ types, guessColTypes ci rows = some types ∧ types.length = ci.length ∧
      ∀ i, i < ci.length →
        types.get? i = (ci.get? i).map (fun c =>
          if c.colType ≠ ColTypeUnknown then c.colType
          else if (colFields rows i).all boolOk then ColTypeBool
          else if (colFields rows i).all intOk then ColTypeInt
          else if (colFields rows i).all floatOk then ColTypeFloat
          else ColTypeString) := by
  by_cases hn : ci.length = 0
  · have : ci = [] := List.eq_nil_of_length_eq_zero hn
    subst this
    exact ⟨[], by simp [guessColTypes], rfl, fun i hi => by omega⟩
  · obtain ⟨res, h1, h2, h3⟩ := tryParse_col rows (initTypeSlice ci.length)
      (fun r hr => by simp [initTypeSlice, harity r hr])
    refine ⟨List.zipWith guessOne ci res, ?_, ?_, ?_⟩
    · simp only [guessColTypes, hn, if_false]
      rw [h1]
    · rw [List.length_zipWith, h2]
      simp [initTypeSlice]
    · intro i hi
      rw [zipWithGet]
      have hres : res.get? i = some (List.foldl tryParseField
          BitmaskNonStringDataTypes (colFields rows i)) := by
        rw [h3 i]
        have : (initTypeSlice ci.length).get? i = some BitmaskNonStringDataTypes := by
          simp [initTypeSlice, List.get?_eq_get, hi]
        rw [this]; rfl
      have hc : ci.get? i = some (ci.get ⟨i, hi⟩) := List.get?_eq_get hi
      set c := ci.get ⟨i, hi⟩
      have hmask := colFold_spec (colFields rows i) BitmaskNonStringDataTypes (by decide)
      rw [hres, hc]
      simp only [Option.map_some]
      unfold guessOne
      by_cases hp : c.colType ≠ ColTypeUnknown
      · simp [hp]
      · have e1 : canBeBool BitmaskNonStringDataTypes = true := by decide
        have e2 : canBeInt BitmaskNonStringDataTypes = true := by decide
        have e3 : canBeFloat BitmaskNonStringDataTypes = true := by decide
        simp only [hp, if_neg, if_false]
        rw [hmask.1, hmask.2.1, hmask.2.2.1, e1, e2, e3]
        rw [not_not] at hp
        simp [hp]

theorem claim_C4_witness :
    (∀ r ∈ [["true", "1"], ["false", "4"], ["x", "2.5"]],
      r.length = ([{ name := "a" }, { name := "b" }] : List ColInfo).length) ∧
    (∃ types, guessColTypes [{ name := "a" }, { name := "b" }]
        [["true", "1"], ["false", "4"], ["x", "2.5"]] = some types ∧
      types.length = 2 ∧ ∀ i, i < 2 →
        types.get? i = (([{ name := "a" }, { name := "b" }] : List ColInfo).get? i).map
          (fun c =>
            if c.colType ≠ ColTypeUnknown then c.colType
            else if (colFields [["true", "1"], ["false", "4"], ["x", "2.5"]] i).all boolOk
              then ColTypeBool
            else if (colFields [["true", "1"], ["false", "4"], ["x", "2.5"]] i).all intOk
              then ColTypeInt
            else if (colFields [["true", "1"], ["false", "4"], ["x", "2.5"]] i).all floatOk
              then ColTypeFloat
            else ColTypeString)) :=
  ⟨by decide, claim_C4_guessColTypes _ _ (by decide)⟩

end Dataframe

namespace Dataframe

/-! ### Characterizing AddRowFromText (claim C2) -/

/-- Append one value to the end of each array, pairwise. -/
def zipApp {α : Type} (ls : List (List α)) (vs : List α) : List (List α) :=
  List.zipWith (fun a v => a ++ [v]) ls vs

/-- The wrappers AddRowFromText appends, one per column, gathered by type. -/
def parsedRowVals : List (ColInfo × String) → RowData
  | [] => {}
  | (ci, s) :: rest =>
    let rd := parsedRowVals rest
    if ci.colType = ColTypeBool then
      { rd with boolVals := (BoolVal.SetVal {} s).1 :: rd.boolVals }
    else if ci.colType = ColTypeInt then
      { rd with intVals := (IntVal.SetVal {} s).1 :: rd.intVals }
    else if ci.colType = ColTypeFloat then
      { rd with floatVals := (FloatVal.SetVal {} s).1 :: rd.floatVals }
    else if ci.colType = ColTypeString then
      { rd with stringVals := { Val := s, IsNA := false } :: rd.stringVals }
    else rd

/-- Whether a field fails to parse as its column's type (text never fails). -/
def cellFails (ci : ColInfo) (s : String) : Bool :=
  if ci.colType = ColTypeBool then ¬ boolOk s
  else if ci.colType = ColTypeInt then ¬ intOk s
  else if ci.colType = ColTypeFloat then ¬ floatOk s
  else false

/-- Number of failing fields of one textual row. -/
def parseFailCount : List (ColInfo × String) → Nat
  | [] => 0
  | p :: rest => (if cellFails p.1 p.2 then 1 else 0) + parseFailCount rest

theorem getI_natCast {α : Type} (l : List α) (n : Nat) :
    getI l (n : Int) = l.get? n := by
  simp [getI]

theorem setI_natCast {α : Type} (l : List α) (n : Nat) (a : α) :
    setI l (n : Int) a = l.set n a := by
  simp [setI]

theorem drop_cons_of_get? {α : Type} {l : List α} {n : Nat} {x : α}
    (h : l.get? n = some x) : l.drop n = x :: l.drop (n + 1) := by
  have hn : n < l.length := by
    by_contra hc
    rw [List.get?_eq_none.mpr (Nat.le_of_not_lt hc)] at h
    exact Option.noConfusion h
  rw [List.drop_eq_getElem_cons hn]
  have : l[n] = x := by
    have := List.get?_eq_get hn
    rw [this] at h
    simpa [List.get_eq_getElem] using Option.some.inj h
  rw [this]

theorem take_succ_set {α : Type} (l : List α) (n : Nat) (h : n < l.length) (x : α) :
    (l.set n x).take (n + 1) = l.take n ++ [x] := by
  rw [List.set_eq_take_append_cons_drop, if_pos h, List.take_append_eq_append_take,
    List.take_take]
  have h1 : (l.take n).length = n := by rw [List.length_take]; omega
  rw [h1]
  have h2 : min (n + 1) n = n := by omega
  rw [h2]
  have h3 : n + 1 - n = 1 := by omega
  rw [h3]
  rfl

theorem drop_succ_set {α : Type} (l : List α) (n : Nat) (x : α) :
    (l.set n x).drop (n + 1) = l.drop (n + 1) := by
  by_cases h : n < l.length
  · rw [List.set_eq_take_append_cons_drop, if_pos h, List.drop_append_eq_append_drop]
    have h1 : (l.take n).length = n := by rw [List.length_take]; omega
    rw [h1]
    have h2 : (l.take n).drop (n + 1) = [] :=
      List.drop_eq_nil_of_le (by rw [h1]; omega)
    have h3 : n + 1 - n = 1 := by omega
    rw [h2, h3]
    rfl
  · rw [List.set_eq_of_length_le (Nat.le_of_not_lt h)]

end Dataframe

namespace Dataframe

theorem boolSetVal_err (s : String) :
    (BoolVal.SetVal {} s).2 = (goParseBool s).2 := by
  unfold BoolVal.SetVal
  cases h : (goParseBool s).2 <;> simp [h]

theorem intSetVal_err (s : String) :
    (IntVal.SetVal {} s).2 = (goParseInt0 s).2 := by
  unfold IntVal.SetVal
  cases h : (goParseInt0 s).2 <;> simp [h]

theorem floatSetVal_err (s : String) :
    ((FloatVal.SetVal {} s).2 = none) = (floatOk s = true) := by
  unfold FloatVal.SetVal floatOk
  by_cases hf : (goParseFloat s).2 = true <;> simp [hf]

theorem addError_fields (df : DF) (e : DfErr) :
    (df.addError e).mci = df.mci ∧ (df.addError e).boolCols = df.boolCols ∧
    (df.addError e).intCols = df.intCols ∧ (df.addError e).floatCols = df.floatCols ∧
    (df.addError e).stringCols = df.stringCols ∧
    (df.addError e).maxErrors = df.maxErrors ∧
    (df.addError e).errCount = df.errCount + 1 := by
  simp [DF.addError]

theorem tail_of_drop_eq {α : Type} {l : List α} {n : Nat} {x : α} {r : List α}
    (h : l.drop n = x :: r) : l.drop (n + 1) = r := by
  rw [← List.tail_drop, h]
  rfl

theorem lt_length_of_drop_cons {α : Type} {l : List α} {n : Nat} {x : α} {r : List α}
    (h : l.drop n = x :: r) : n < l.length := by
  by_contra hc
  rw [List.drop_eq_nil_of_le (Nat.le_of_not_lt hc)] at h
  exact List.noConfusion h

theorem get?_of_drop_cons {α : Type} {l : List α} {n : Nat} {x : α} {r : List α}
    (h : l.drop n = x :: r) : l.get? n = some x := by
  have h0 := List.getElem?_drop l n 0
  rw [h] at h0
  simpa [← List.get?_eq_getElem?] using h0.symm

end Dataframe

namespace Dataframe

/-- Full characterization of the per-column loop of AddRowFromText on a
well-slotted suffix: it never panics, appends exactly the parsed wrapper to
each column's array, and bumps the error count once per failing field. -/
theorem addRFTLoop_spec :
    ∀ (rest : List ColInfo) (df : DF) (cols : List String) (cidx cb cn cf cs : Nat),
    df.mci.info.drop cidx = rest →
    slotCheck rest (df.mci.valIdx.drop cidx) cb cn cf cs = true →
    cols.length = df.mci.info.length →
    df.boolCols.length = cb + countType rest ColTypeBool →
    df.intCols.length = cn + countType rest ColTypeInt →
    df.floatCols.length = cf + countType rest ColTypeFloat →
    df.stringCols.length = cs + countType rest ColTypeString →
    (∀ d : DF, d.mci = df.mci → d.boolCols.length = df.boolCols.length →
      d.intCols.length = df.intCols.length →
      d.floatCols.length = df.floatCols.length →
      d.stringCols.length = df.stringCols.length → ∃ k, d.RowCount = some k) →
    ∃ df', addRFTLoop df cols rest cidx = some df' ∧
      df'.mci = df.mci ∧ df'.maxErrors = df.maxErrors ∧
      df'.boolCols = df.boolCols.take cb ++
        zipApp (df.boolCols.drop cb)
          (parsedRowVals (rest.zip (cols.drop cidx))).boolVals ∧
      df'.intCols = df.intCols.take cn ++
        zipApp (df.intCols.drop cn)
          (parsedRowVals (rest.zip (cols.drop cidx))).intVals ∧
      df'.floatCols = df.floatCols.take cf ++
        zipApp (df.floatCols.drop cf)
          (parsedRowVals (rest.zip (cols.drop cidx))).floatVals ∧
      df'.stringCols = df.stringCols.take cs ++
        zipApp (df.stringCols.drop cs)
          (parsedRowVals (rest.zip (cols.drop cidx))).stringVals ∧
      df'.errCount = df.errCount + parseFailCount (rest.zip (cols.drop cidx)) := by
  intro rest
  induction rest with
  | nil =>
    intro df cols cidx cb cn cf cs hinfo hslot hcols hB hI hF hS hrc
    simp only [countType, List.filter_nil, List.length_nil, Nat.add_zero] at hB hI hF hS
    refine ⟨df, rfl, rfl, rfl, ?_, ?_, ?_, ?_, by simp [parseFailCount]⟩ <;>
      simp [parsedRowVals, zipApp, List.take_of_length_le, hB.le, hI.le, hF.le, hS.le]
  | cons ci rest' ih =>
    intro df cols cidx cb cn cf cs hinfo hslot hcols hB hI hF hS hrc
    -- the slot list at cidx
    cases hvl : df.mci.valIdx.drop cidx with
    | nil => rw [hvl] at hslot; simp [slotCheck] at hslot
    | cons v vs =>
      rw [hvl] at hslot
      -- the field at cidx
      have hlt : cidx < cols.length := by
        rw [hcols]
        exact lt_length_of_drop_cons hinfo
      obtain ⟨s, hs⟩ : ∃ s, cols.get? cidx = some s :=
        ⟨cols.get ⟨cidx, hlt⟩, List.get?_eq_get hlt⟩
      have hvi : df.mci.valIdx.get? cidx = some v := get?_of_drop_cons hvl
      have hcd : cols.drop cidx = s :: cols.drop (cidx + 1) := drop_cons_of_get? hs
      have hinfo1 : df.mci.info.drop (cidx + 1) = rest' := tail_of_drop_eq hinfo
      have hvl1 : df.mci.valIdx.drop (cidx + 1) = vs := tail_of_drop_eq hvl
      -- case split on the column type
      by_cases hb : ci.colType = ColTypeBool
      · -- slot facts
        simp only [slotCheck, hb, if_pos, if_true, Bool.and_eq_true, decide_eq_true_eq] at hslot
        obtain ⟨hveq, hslot'⟩ := hslot
        subst hveq
        have hcntB : countType (ci :: rest') ColTypeBool = countType rest' ColTypeBool + 1 := by
          rw [countType_cons]; simp [hb]
        have hcntI : countType (ci :: rest') ColTypeInt = countType rest' ColTypeInt := by
          rw [countType_cons]; simp [hb, ColTypeBool, ColTypeInt]
        have hcntF : countType (ci :: rest') ColTypeFloat = countType rest' ColTypeFloat := by
          rw [countType_cons]; simp [hb, ColTypeBool, ColTypeFloat]
        have hcntS : countType (ci :: rest') ColTypeString = countType rest' ColTypeString := by
          rw [countType_cons]; simp [hb, ColTypeBool, ColTypeString]
        have hcb : cb < df.boolCols.length := by rw [hB, hcntB]; omega
        obtain ⟨acol, hacol⟩ : ∃ a, df.boolCols.get? cb = some a :=
          ⟨df.boolCols.get ⟨cb, hcb⟩, List.get?_eq_get hcb⟩
        set p := BoolVal.SetVal {} s with hp
        set df1 : DF := { df with boolCols := setI df.boolCols (cb : Int) (acol ++ [p.1]) } with hdf1
        have hdf1b : df1.boolCols = df.boolCols.set cb (acol ++ [p.1]) := by
          rw [hdf1]; simp [setI_natCast]
        have hlen1 : df1.boolCols.length = df.boolCols.length := by
          rw [hdf1b, List.length_set]
        -- the continuation store: df1, plus one recorded error if the parse failed
        have hstep : ∀ df2 : DF, df2.mci = df.mci →
            df2.boolCols = df1.boolCols → df2.intCols = df.intCols →
            df2.floatCols = df.floatCols → df2.stringCols = df.stringCols →
            df2.maxErrors = df.maxErrors →
            ∃ df', addRFTLoop df2 cols rest' (cidx + 1) = some df' ∧
              df'.mci = df.mci ∧ df'.maxErrors = df.maxErrors ∧
              df'.boolCols = df1.boolCols.take (cb + 1) ++
                zipApp (df1.boolCols.drop (cb + 1))
                  (parsedRowVals (rest'.zip (cols.drop (cidx + 1)))).boolVals ∧
              df'.intCols = df.intCols.take cn ++
                zipApp (df.intCols.drop cn)
                  (parsedRowVals (rest'.zip (cols.drop (cidx + 1)))).intVals ∧
              df'.floatCols = df.floatCols.take cf ++
                zipApp (df.floatCols.drop cf)
                  (parsedRowVals (rest'.zip (cols.drop (cidx + 1)))).floatVals ∧
              df'.stringCols = df.stringCols.take cs ++
                zipApp (df.stringCols.drop cs)
                  (parsedRowVals (rest'.zip (cols.drop (cidx + 1)))).stringVals ∧
              df'.errCount = df2.errCount +
                parseFailCount (rest'.zip (cols.drop (cidx + 1))) := by
          intro df2 h1 h2 h3 h4 h5 h6
          obtain ⟨df', g0, g1, g2, g3, g4, g5, g6, g7⟩ := ih df2 cols (cidx + 1) (cb + 1) cn cf cs
            (by rw [h1, hinfo1]) (by rw [h1, hvl1]; exact hslot')
            (by rw [h1, hcols])
            (by rw [h2, hlen1, hB, hcntB]; omega)
            (by rw [h3, hI, hcntI]) (by rw [h4, hF, hcntF]) (by rw [h5, hS, hcntS])
            (by
              intro d k1 k2 k3 k4 k5
              exact hrc d (k1.trans h1) (by rw [k2, h2, hlen1])
                (by rw [k3, h3]) (by rw [k4, h4]) (by rw [k5, h5]))
          exact ⟨df', g0, g1.trans h1, g2.trans h6, by rw [g3, h2], by rw [g4, h3],
            by rw [g5, h4], by rw [g6, h5], g7⟩
        -- reduce one step of the loop
        have hred : addRFTLoop df cols (ci :: rest') cidx =
            (match p.2 with
             | none => addRFTLoop df1 cols rest' (cidx + 1)
             | some e => do
                let rc ← df1.RowCount
                addRFTLoop (df1.addError (.cellParseFailure rc cidx e)) cols rest' (cidx + 1)) := by
          simp only [addRFTLoop, hvi, hs, Option.bind_eq_bind, Option.some_bind, hb, if_true]
          rw [getI_natCast, hacol]
          rfl
        cases hp2 : p.2 with
        | none =>
          obtain ⟨df', g0, g1, g2, g3, g4, g5, g6, g7⟩ := hstep df1 rfl rfl rfl rfl rfl rfl
          refine ⟨df', by rw [hred, hp2]; exact g0, g1, g2, ?_, ?_, ?_, ?_, ?_⟩
          · rw [g3, hdf1b, take_succ_set df.boolCols cb hcb, drop_succ_set, hcd]
            rw [List.zip_cons_cons, drop_cons_of_get? hacol]
            simp only [parsedRowVals, hb, if_true, zipApp, List.zipWith_cons_cons]
            simp [List.append_assoc]
          · rw [g4, hcd, List.zip_cons_cons]
            simp [parsedRowVals, hb]
          · rw [g5, hcd, List.zip_cons_cons]
            simp [parsedRowVals, hb]
          · rw [g6, hcd, List.zip_cons_cons]
            simp [parsedRowVals, hb]
          · rw [g7, hcd, List.zip_cons_cons]
            have hnofail : cellFails ci s = false := by
              have : boolOk s = true := by
                unfold boolOk
                rw [← boolSetVal_err s, ← hp, hp2]
                rfl
              simp [cellFails, hb, this]
            simp [parseFailCount, hnofail]
        | some e =>
          obtain ⟨k, hk⟩ := hrc df1 rfl hlen1 rfl rfl rfl
          set df2 : DF := df1.addError (.cellParseFailure k cidx e) with hdf2
          obtain ⟨hm2, hb2, hi2, hf2, hs2, hx2, he2⟩ := addError_fields df1 (.cellParseFailure k cidx e)
          obtain ⟨df', g0, g1, g2, g3, g4, g5, g6, g7⟩ := hstep df2 hm2 hb2 hi2 hf2 hs2 hx2
          refine ⟨df', ?_, g1, g2, ?_, ?_, ?_, ?_, ?_⟩
          · rw [hred, hp2]
            simp only [hk, Option.bind_eq_bind, Option.some_bind]
            exact g0
          · rw [g3, hdf1b, take_succ_set df.boolCols cb hcb, drop_succ_set, hcd]
            rw [List.zip_cons_cons, drop_cons_of_get? hacol]
            simp only [parsedRowVals, hb, if_true, zipApp, List.zipWith_cons_cons]
            simp [List.append_assoc]
          · rw [g4, hcd, List.zip_cons_cons]
            simp [parsedRowVals, hb]
          · rw [g5, hcd, List.zip_cons_cons]
            simp [parsedRowVals, hb]
          · rw [g6, hcd, List.zip_cons_cons]
            simp [parsedRowVals, hb]
          · rw [g7, he2, hcd, List.zip_cons_cons]
            have hfail : cellFails ci s = true := by
              have : boolOk s = false := by
                unfold boolOk
                rw [← boolSetVal_err s, ← hp, hp2]
                rfl
              simp [cellFails, hb, this]
            simp [parseFailCount, hfail]
            omega
      · by_cases hn : ci.colType = ColTypeInt
        ·
          simp [slotCheck, hb, hn] at hslot
          obtain ⟨hveq, hslot'⟩ := hslot
          subst hveq
          have hcB : (ci.colType = ColTypeBool) = False := by
            simp [hn, ColTypeInt, ColTypeBool]
          have hcI : (ci.colType = ColTypeInt) = True := by simp [hn]
          have hcF : (ci.colType = ColTypeFloat) = False := by
            simp [hn, ColTypeInt, ColTypeFloat]
          have hcS : (ci.colType = ColTypeString) = False := by
            simp [hn, ColTypeInt, ColTypeString]
          have hcntB : countType (ci :: rest') ColTypeBool = countType rest' ColTypeBool := by
            rw [countType_cons]; simp [hn, ColTypeInt, ColTypeBool]
          have hcntI : countType (ci :: rest') ColTypeInt = countType rest' ColTypeInt + 1 := by
            rw [countType_cons]; simp [hn]
          have hcntF : countType (ci :: rest') ColTypeFloat = countType rest' ColTypeFloat := by
            rw [countType_cons]; simp [hn, ColTypeInt, ColTypeFloat]
          have hcntS : countType (ci :: rest') ColTypeString = countType rest' ColTypeString := by
            rw [countType_cons]; simp [hn, ColTypeInt, ColTypeString]
          have hcb : cn < df.intCols.length := by rw [hI, hcntI]; omega
          obtain ⟨acol, hacol⟩ : ∃ a, df.intCols.get? cn = some a :=
            ⟨df.intCols.get ⟨cn, hcb⟩, List.get?_eq_get hcb⟩
          set p := IntVal.SetVal {} s with hp
          set df1 : DF := { df with intCols := setI df.intCols (cn : Int) (acol ++ [p.1]) } with hdf1
          have hdf1b : df1.intCols = df.intCols.set cn (acol ++ [p.1]) := by
            rw [hdf1]; simp [setI_natCast]
          have hlen1 : df1.intCols.length = df.intCols.length := by
            rw [hdf1b, List.length_set]
          have hstep : ∀ df2 : DF, df2.mci = df.mci →
              df2.boolCols = df.boolCols → df2.intCols = df1.intCols →
              df2.floatCols = df.floatCols → df2.stringCols = df.stringCols →
              df2.maxErrors = df.maxErrors →
              ∃ df', addRFTLoop df2 cols rest' (cidx + 1) = some df' ∧
                df'.mci = df.mci ∧ df'.maxErrors = df.maxErrors ∧
                df'.boolCols = df.boolCols.take cb ++
                  zipApp (df.boolCols.drop cb)
                    (parsedRowVals (rest'.zip (cols.drop (cidx + 1)))).boolVals ∧
                df'.intCols = df1.intCols.take (cn + 1) ++
                  zipApp (df1.intCols.drop (cn + 1))
                    (parsedRowVals (rest'.zip (cols.drop (cidx + 1)))).intVals ∧
                df'.floatCols = df.floatCols.take cf ++
                  zipApp (df.floatCols.drop cf)
                    (parsedRowVals (rest'.zip (cols.drop (cidx + 1)))).floatVals ∧
                df'.stringCols = df.stringCols.take cs ++
                  zipApp (df.stringCols.drop cs)
                    (parsedRowVals (rest'.zip (cols.drop (cidx + 1)))).stringVals ∧
                df'.errCount = df2.errCount +
                  parseFailCount (rest'.zip (cols.drop (cidx + 1))) := by
            intro df2 h1 h2 h3 h4 h5 h6
            obtain ⟨df', g0, g1, g2, g3, g4, g5, g6, g7⟩ := ih df2 cols (cidx + 1) cb (cn + 1) cf cs
              (by rw [h1, hinfo1]) (by rw [h1, hvl1]; exact hslot')
              (by rw [h1, hcols])
              (by rw [h2, hB, hcntB])
              (by rw [h3, hlen1, hI, hcntI]; omega)
              (by rw [h4, hF, hcntF])
              (by rw [h5, hS, hcntS])
              (by
                intro d k1 k2 k3 k4 k5
                exact hrc d (k1.trans h1) (by rw [k2, h2]) (by rw [k3, h3, hlen1]) (by rw [k4, h4]) (by rw [k5, h5]))
            exact ⟨df', g0, g1.trans h1, g2.trans h6, by rw [g3, h2], by rw [g4, h3], by rw [g5, h4], by rw [g6, h5], g7⟩
          have hred : addRFTLoop df cols (ci :: rest') cidx =
              (match p.2 with
               | none => addRFTLoop df1 cols rest' (cidx + 1)
               | some e => do
                  let rc ← df1.RowCount
                  addRFTLoop (df1.addError (.cellParseFailure rc cidx e)) cols rest' (cidx + 1)) := by
            simp only [addRFTLoop, hvi, hs, Option.bind_eq_bind, Option.some_bind, hcB, hcI, hcF, hcS, if_true, if_false]
            rw [getI_natCast, hacol]
            rfl
          cases hp2 : p.2 with
          | none =>
            obtain ⟨df', g0, g1, g2, g3, g4, g5, g6, g7⟩ := hstep df1 rfl rfl rfl rfl rfl rfl
            refine ⟨df', by rw [hred, hp2]; exact g0, g1, g2, ?_, ?_, ?_, ?_, ?_⟩
            · rw [g3, hcd, List.zip_cons_cons]
              simp [parsedRowVals, hcB, hcI, hcF, hcS]
            · rw [g4, hdf1b, take_succ_set df.intCols cn hcb, drop_succ_set, hcd]
              rw [List.zip_cons_cons, drop_cons_of_get? hacol]
              simp only [parsedRowVals, hcB, hcI, hcF, hcS, if_true, if_false, zipApp, List.zipWith_cons_cons]
              simp [List.append_assoc]
            · rw [g5, hcd, List.zip_cons_cons]
              simp [parsedRowVals, hcB, hcI, hcF, hcS]
            · rw [g6, hcd, List.zip_cons_cons]
              simp [parsedRowVals, hcB, hcI, hcF, hcS]
            · rw [g7, hcd, List.zip_cons_cons]
              have hnofail : cellFails ci s = false := by
                have hok : intOk s = true := by
                  unfold intOk
                  rw [← intSetVal_err s, ← hp, hp2]
                  rfl
                simp [cellFails, hcB, hcI, hcF, hcS, hok]
              simp [parseFailCount, hnofail]
          | some e =>
            obtain ⟨k, hk⟩ := hrc df1 rfl rfl hlen1 rfl rfl
            set df2 : DF := df1.addError (.cellParseFailure k cidx e) with hdf2
            obtain ⟨hm2, hb2, hi2, hf2x, hs2x, hx2, he2⟩ := addError_fields df1 (.cellParseFailure k cidx e)
            obtain ⟨df', g0, g1, g2, g3, g4, g5, g6, g7⟩ := hstep df2 hm2 hb2 hi2 hf2x hs2x hx2
            refine ⟨df', ?_, g1, g2, ?_, ?_, ?_, ?_, ?_⟩
            · rw [hred, hp2]
              simp only [hk, Option.bind_eq_bind, Option.some_bind]
              exact g0
            · rw [g3, hcd, List.zip_cons_cons]
              simp [parsedRowVals, hcB, hcI, hcF, hcS]
            · rw [g4, hdf1b, take_succ_set df.intCols cn hcb, drop_succ_set, hcd]
              rw [List.zip_cons_cons, drop_cons_of_get? hacol]
              simp only [parsedRowVals, hcB, hcI, hcF, hcS, if_true, if_false, zipApp, List.zipWith_cons_cons]
              simp [List.append_assoc]
            · rw [g5, hcd, List.zip_cons_cons]
              simp [parsedRowVals, hcB, hcI, hcF, hcS]
            · rw [g6, hcd, List.zip_cons_cons]
              simp [parsedRowVals, hcB, hcI, hcF, hcS]
            · rw [g7, he2, hcd, List.zip_cons_cons]
              have hfail : cellFails ci s = true := by
                have hok : intOk s = false := by
                  unfold intOk
                  rw [← intSetVal_err s, ← hp, hp2]
                  rfl
                simp [cellFails, hcB, hcI, hcF, hcS, hok]
              simp [parseFailCount, hfail]
              omega
        · by_cases hf : ci.colType = ColTypeFloat
          ·
            simp [slotCheck, hb, hn, hf] at hslot
            obtain ⟨hveq, hslot'⟩ := hslot
            subst hveq
            have hcB : (ci.colType = ColTypeBool) = False := by
              simp [hf, ColTypeFloat, ColTypeBool]
            have hcI : (ci.colType = ColTypeInt) = False := by
              simp [hf, ColTypeFloat, ColTypeInt]
            have hcF : (ci.colType = ColTypeFloat) = True := by simp [hf]
            have hcS : (ci.colType = ColTypeString) = False := by
              simp [hf, ColTypeFloat, ColTypeString]
            have hcntB : countType (ci :: rest') ColTypeBool = countType rest' ColTypeBool := by
              rw [countType_cons]; simp [hf, ColTypeFloat, ColTypeBool]
            have hcntI : countType (ci :: rest') ColTypeInt = countType rest' ColTypeInt := by
              rw [countType_cons]; simp [hf, ColTypeFloat, ColTypeInt]
            have hcntF : countType (ci :: rest') ColTypeFloat = countType rest' ColTypeFloat + 1 := by
              rw [countType_cons]; simp [hf]
            have hcntS : countType (ci :: rest') ColTypeString = countType rest' ColTypeString := by
              rw [countType_cons]; simp [hf, ColTypeFloat, ColTypeString]
            have hcb : cf < df.floatCols.length := by rw [hF, hcntF]; omega
            obtain ⟨acol, hacol⟩ : ∃ a, df.floatCols.get? cf = some a :=
              ⟨df.floatCols.get ⟨cf, hcb⟩, List.get?_eq_get hcb⟩
            set p := FloatVal.SetVal {} s with hp
            set df1 : DF := { df with floatCols := setI df.floatCols (cf : Int) (acol ++ [p.1]) } with hdf1
            have hdf1b : df1.floatCols = df.floatCols.set cf (acol ++ [p.1]) := by
              rw [hdf1]; simp [setI_natCast]
            have hlen1 : df1.floatCols.length = df.floatCols.length := by
              rw [hdf1b, List.length_set]
            have hstep : ∀ df2 : DF, df2.mci = df.mci →
                df2.boolCols = df.boolCols → df2.intCols = df.intCols →
                df2.floatCols = df1.floatCols → df2.stringCols = df.stringCols →
                df2.maxErrors = df.maxErrors →
                ∃ df', addRFTLoop df2 cols rest' (cidx + 1) = some df' ∧
                  df'.mci = df.mci ∧ df'.maxErrors = df.maxErrors ∧
                  df'.boolCols = df.boolCols.take cb ++
                    zipApp (df.boolCols.drop cb)
                      (parsedRowVals (rest'.zip (cols.drop (cidx + 1)))).boolVals ∧
                  df'.intCols = df.intCols.take cn ++
                    zipApp (df.intCols.drop cn)
                      (parsedRowVals (rest'.zip (cols.drop (cidx + 1)))).intVals ∧
                  df'.floatCols = df1.floatCols.take (cf + 1) ++
                    zipApp (df1.floatCols.drop (cf + 1))
                      (parsedRowVals (rest'.zip (cols.drop (cidx + 1)))).floatVals ∧
                  df'.stringCols = df.stringCols.take cs ++
                    zipApp (df.stringCols.drop cs)
                      (parsedRowVals (rest'.zip (cols.drop (cidx + 1)))).stringVals ∧
                  df'.errCount = df2.errCount +
                    parseFailCount (rest'.zip (cols.drop (cidx + 1))) := by
              intro df2 h1 h2 h3 h4 h5 h6
              obtain ⟨df', g0, g1, g2, g3, g4, g5, g6, g7⟩ := ih df2 cols (cidx + 1) cb cn (cf + 1) cs
                (by rw [h1, hinfo1]) (by rw [h1, hvl1]; exact hslot')
                (by rw [h1, hcols])
                (by rw [h2, hB, hcntB])
                (by rw [h3, hI, hcntI])
                (by rw [h4, hlen1, hF, hcntF]; omega)
                (by rw [h5, hS, hcntS])
                (by
                  intro d k1 k2 k3 k4 k5
                  exact hrc d (k1.trans h1) (by rw [k2, h2]) (by rw [k3, h3]) (by rw [k4, h4, hlen1]) (by rw [k5, h5]))
              exact ⟨df', g0, g1.trans h1, g2.trans h6, by rw [g3, h2], by rw [g4, h3], by rw [g5, h4], by rw [g6, h5], g7⟩
            have hred : addRFTLoop df cols (ci :: rest') cidx =
                (match p.2 with
                 | none => addRFTLoop df1 cols rest' (cidx + 1)
                 | some e => do
                    let rc ← df1.RowCount
                    addRFTLoop (df1.addError (.cellParseFailure rc cidx e)) cols rest' (cidx + 1)) := by
              simp only [addRFTLoop, hvi, hs, Option.bind_eq_bind, Option.some_bind, hcB, hcI, hcF, hcS, if_true, if_false]
              rw [getI_natCast, hacol]
              rfl
            cases hp2 : p.2 with
            | none =>
              obtain ⟨df', g0, g1, g2, g3, g4, g5, g6, g7⟩ := hstep df1 rfl rfl rfl rfl rfl rfl
              refine ⟨df', by rw [hred, hp2]; exact g0, g1, g2, ?_, ?_, ?_, ?_, ?_⟩
              · rw [g3, hcd, List.zip_cons_cons]
                simp [parsedRowVals, hcB, hcI, hcF, hcS]
              · rw [g4, hcd, List.zip_cons_cons]
                simp [parsedRowVals, hcB, hcI, hcF, hcS]
              · rw [g5, hdf1b, take_succ_set df.floatCols cf hcb, drop_succ_set, hcd]
                rw [List.zip_cons_cons, drop_cons_of_get? hacol]
                simp only [parsedRowVals, hcB, hcI, hcF, hcS, if_true, if_false, zipApp, List.zipWith_cons_cons]
                simp [List.append_assoc]
              · rw [g6, hcd, List.zip_cons_cons]
                simp [parsedRowVals, hcB, hcI, hcF, hcS]
              · rw [g7, hcd, List.zip_cons_cons]
                have hnofail : cellFails ci s = false := by
                  have hok : floatOk s = true := by
                    have hfv := floatSetVal_err s
                    rw [← hp, hp2] at hfv
                    rw [← hfv]
                  simp [cellFails, hcB, hcI, hcF, hcS, hok]
                simp [parseFailCount, hnofail]
            | some e =>
              obtain ⟨k, hk⟩ := hrc df1 rfl rfl rfl hlen1 rfl
              set df2 : DF := df1.addError (.cellParseFailure k cidx e) with hdf2
              obtain ⟨hm2, hb2, hi2, hf2x, hs2x, hx2, he2⟩ := addError_fields df1 (.cellParseFailure k cidx e)
              obtain ⟨df', g0, g1, g2, g3, g4, g5, g6, g7⟩ := hstep df2 hm2 hb2 hi2 hf2x hs2x hx2
              refine ⟨df', ?_, g1, g2, ?_, ?_, ?_, ?_, ?_⟩
              · rw [hred, hp2]
                simp only [hk, Option.bind_eq_bind, Option.some_bind]
                exact g0
              · rw [g3, hcd, List.zip_cons_cons]
                simp [parsedRowVals, hcB, hcI, hcF, hcS]
              · rw [g4, hcd, List.zip_cons_cons]
                simp [parsedRowVals, hcB, hcI, hcF, hcS]
              · rw [g5, hdf1b, take_succ_set df.floatCols cf hcb, drop_succ_set, hcd]
                rw [List.zip_cons_cons, drop_cons_of_get? hacol]
                simp only [parsedRowVals, hcB, hcI, hcF, hcS, if_true, if_false, zipApp, List.zipWith_cons_cons]
                simp [List.append_assoc]
              · rw [g6, hcd, List.zip_cons_cons]
                simp [parsedRowVals, hcB, hcI, hcF, hcS]
              · rw [g7, he2, hcd, List.zip_cons_cons]
                have hfail : cellFails ci s = true := by
                  have hok : floatOk s = false := by
                    have hfv := floatSetVal_err s
                    rw [← hp, hp2] at hfv
                    have hne : ¬ (floatOk s = true) := by rw [← hfv]; simp
                    simpa using hne
                  simp [cellFails, hcB, hcI, hcF, hcS, hok]
                simp [parseFailCount, hfail]
                omega
          · by_cases ht : ci.colType = ColTypeString
            ·
              simp [slotCheck, hb, hn, hf, ht] at hslot
              obtain ⟨hveq, hslot'⟩ := hslot
              subst hveq
              have hcB : (ci.colType = ColTypeBool) = False := by
                simp [ht, ColTypeString, ColTypeBool]
              have hcI : (ci.colType = ColTypeInt) = False := by
                simp [ht, ColTypeString, ColTypeInt]
              have hcF : (ci.colType = ColTypeFloat) = False := by
                simp [ht, ColTypeString, ColTypeFloat]
              have hcS : (ci.colType = ColTypeString) = True := by simp [ht]
              have hcntB : countType (ci :: rest') ColTypeBool = countType rest' ColTypeBool := by
                rw [countType_cons]; simp [ht, ColTypeString, ColTypeBool]
              have hcntI : countType (ci :: rest') ColTypeInt = countType rest' ColTypeInt := by
                rw [countType_cons]; simp [ht, ColTypeString, ColTypeInt]
              have hcntF : countType (ci :: rest') ColTypeFloat = countType rest' ColTypeFloat := by
                rw [countType_cons]; simp [ht, ColTypeString, ColTypeFloat]
              have hcntS : countType (ci :: rest') ColTypeString = countType rest' ColTypeString + 1 := by
                rw [countType_cons]; simp [ht]
              have hcb : cs < df.stringCols.length := by rw [hS, hcntS]; omega
              obtain ⟨acol, hacol⟩ : ∃ a, df.stringCols.get? cs = some a :=
                ⟨df.stringCols.get ⟨cs, hcb⟩, List.get?_eq_get hcb⟩
              set df1 : DF := { df with stringCols := setI df.stringCols (cs : Int) (acol ++ [({ Val := s, IsNA := false } : StringVal)]) } with hdf1
              have hdf1b : df1.stringCols = df.stringCols.set cs (acol ++ [({ Val := s, IsNA := false } : StringVal)]) := by
                rw [hdf1]; simp [setI_natCast]
              have hlen1 : df1.stringCols.length = df.stringCols.length := by
                rw [hdf1b, List.length_set]
              have hstep : ∀ df2 : DF, df2.mci = df.mci →
                  df2.boolCols = df.boolCols → df2.intCols = df.intCols →
                  df2.floatCols = df.floatCols → df2.stringCols = df1.stringCols →
                  df2.maxErrors = df.maxErrors →
                  ∃ df', addRFTLoop df2 cols rest' (cidx + 1) = some df' ∧
                    df'.mci = df.mci ∧ df'.maxErrors = df.maxErrors ∧
                    df'.boolCols = df.boolCols.take cb ++
                      zipApp (df.boolCols.drop cb)
                        (parsedRowVals (rest'.zip (cols.drop (cidx + 1)))).boolVals ∧
                    df'.intCols = df.intCols.take cn ++
                      zipApp (df.intCols.drop cn)
                        (parsedRowVals (rest'.zip (cols.drop (cidx + 1)))).intVals ∧
                    df'.floatCols = df.floatCols.take cf ++
                      zipApp (df.floatCols.drop cf)
                        (parsedRowVals (rest'.zip (cols.drop (cidx + 1)))).floatVals ∧
                    df'.stringCols = df1.stringCols.take (cs + 1) ++
                      zipApp (df1.stringCols.drop (cs + 1))
                        (parsedRowVals (rest'.zip (cols.drop (cidx + 1)))).stringVals ∧
                    df'.errCount = df2.errCount +
                      parseFailCount (rest'.zip (cols.drop (cidx + 1))) := by
                intro df2 h1 h2 h3 h4 h5 h6
                obtain ⟨df', g0, g1, g2, g3, g4, g5, g6, g7⟩ := ih df2 cols (cidx + 1) cb cn cf (cs + 1)
                  (by rw [h1, hinfo1]) (by rw [h1, hvl1]; exact hslot')
                  (by rw [h1, hcols])
                  (by rw [h2, hB, hcntB])
                  (by rw [h3, hI, hcntI])
                  (by rw [h4, hF, hcntF])
                  (by rw [h5, hlen1, hS, hcntS]; omega)
                  (by
                    intro d k1 k2 k3 k4 k5
                    exact hrc d (k1.trans h1) (by rw [k2, h2]) (by rw [k3, h3]) (by rw [k4, h4]) (by rw [k5, h5, hlen1]))
                exact ⟨df', g0, g1.trans h1, g2.trans h6, by rw [g3, h2], by rw [g4, h3], by rw [g5, h4], by rw [g6, h5], g7⟩
              have hred : addRFTLoop df cols (ci :: rest') cidx =
                  addRFTLoop df1 cols rest' (cidx + 1) := by
                simp only [addRFTLoop, hvi, hs, Option.bind_eq_bind, Option.some_bind, hcB, hcI, hcF, hcS, if_true, if_false]
                rw [getI_natCast, hacol]
                rfl
              obtain ⟨df', g0, g1, g2, g3, g4, g5, g6, g7⟩ := hstep df1 rfl rfl rfl rfl rfl rfl
              refine ⟨df', by rw [hred]; exact g0, g1, g2, ?_, ?_, ?_, ?_, ?_⟩
              · rw [g3, hcd, List.zip_cons_cons]
                simp [parsedRowVals, hcB, hcI, hcF, hcS]
              · rw [g4, hcd, List.zip_cons_cons]
                simp [parsedRowVals, hcB, hcI, hcF, hcS]
              · rw [g5, hcd, List.zip_cons_cons]
                simp [parsedRowVals, hcB, hcI, hcF, hcS]
              · rw [g6, hdf1b, take_succ_set df.stringCols cs hcb, drop_succ_set, hcd]
                rw [List.zip_cons_cons, drop_cons_of_get? hacol]
                simp only [parsedRowVals, hcB, hcI, hcF, hcS, if_true, if_false, zipApp, List.zipWith_cons_cons]
                simp [List.append_assoc]
              · rw [g7, hcd, List.zip_cons_cons]
                have hnofail : cellFails ci s = false := by
                  simp [cellFails, hcB, hcI, hcF, hcS]
                simp [parseFailCount, hnofail]
            · rw [slotCheck] at hslot
              simp [hb, hn, hf, ht] at hslot

end Dataframe

namespace Dataframe

/-- A store whose registry slots check out and whose array counts match the
registry never panics in RowCount. -/
theorem rowCount_some (df : DF)
    (hslot : slotCheck df.mci.info df.mci.valIdx 0 0 0 0 = true)
    (hB : df.boolCols.length = countType df.mci.info ColTypeBool)
    (hI : df.intCols.length = countType df.mci.info ColTypeInt)
    (hF : df.floatCols.length = countType df.mci.info ColTypeFloat)
    (hS : df.stringCols.length = countType df.mci.info ColTypeString) :
    ∃ k, df.RowCount = some k := by
  cases hi : df.mci.info with
  | nil =>
    cases hv : df.mci.valIdx with
    | nil => exact ⟨0, by unfold DF.RowCount; rw [hv]; simp⟩
    | cons v vs => rw [hi, hv] at hslot; simp [slotCheck] at hslot
  | cons ci rest =>
    cases hv : df.mci.valIdx with
    | nil => rw [hi, hv] at hslot; simp [slotCheck] at hslot
    | cons v vs =>
      rw [hi, hv] at hslot
      have hvlen : df.mci.valIdx.length ≠ 0 := by rw [hv]; simp
      have hv0 : df.mci.valIdx.get? 0 = some v := by rw [hv]; rfl
      have hi0 : df.mci.info.get? 0 = some ci := by rw [hi]; rfl
      by_cases hb : ci.colType = ColTypeBool
      · simp [slotCheck, hb] at hslot
        obtain ⟨hveq, _⟩ := hslot
        have hlen : 0 < df.boolCols.length := by
          rw [hB, hi, countType_cons]; simp [hb]
        obtain ⟨a, ha⟩ : ∃ a, df.boolCols.get? 0 = some a :=
          ⟨df.boolCols.get ⟨0, hlen⟩, List.get?_eq_get hlen⟩
        refine ⟨a.length, ?_⟩
        unfold DF.RowCount
        rw [if_neg hvlen]
        simp only [Option.bind_eq_bind, hv0, hi0, Option.some_bind, hb, if_true]
        rw [hveq]
        have hg : getI df.boolCols ((0 : Nat) : Int) = some a := by
          rw [getI_natCast]; exact ha
        have hg2 : getI df.boolCols (0 : Int) = some a := by simpa using hg
        rw [hg2]
        rfl
      · by_cases hn : ci.colType = ColTypeInt
        · simp [slotCheck, hb, hn] at hslot
          obtain ⟨hveq, _⟩ := hslot
          have hlen : 0 < df.intCols.length := by
            rw [hI, hi, countType_cons]; simp [hn]
          obtain ⟨a, ha⟩ : ∃ a, df.intCols.get? 0 = some a :=
            ⟨df.intCols.get ⟨0, hlen⟩, List.get?_eq_get hlen⟩
          refine ⟨a.length, ?_⟩
          unfold DF.RowCount
          rw [if_neg hvlen]
          have hcB : (ci.colType = ColTypeBool) = False := by simp [hn, ColTypeInt, ColTypeBool]
          have hcT : (ci.colType = ColTypeInt) = True := by simp [hn]
          simp only [Option.bind_eq_bind, hv0, hi0, Option.some_bind, hcB, hcT,
            if_true, if_false]
          rw [hveq]
          have hg : getI df.intCols ((0 : Nat) : Int) = some a := by
            rw [getI_natCast]; exact ha
          have hg2 : getI df.intCols (0 : Int) = some a := by simpa using hg
          rw [hg2]
          rfl
        · by_cases hf : ci.colType = ColTypeFloat
          · simp [slotCheck, hb, hn, hf] at hslot
            obtain ⟨hveq, _⟩ := hslot
            have hlen : 0 < df.floatCols.length := by
              rw [hF, hi, countType_cons]; simp [hf]
            obtain ⟨a, ha⟩ : ∃ a, df.floatCols.get? 0 = some a :=
              ⟨df.floatCols.get ⟨0, hlen⟩, List.get?_eq_get hlen⟩
            refine ⟨a.length, ?_⟩
            unfold DF.RowCount
            rw [if_neg hvlen]
            have hcB : (ci.colType = ColTypeBool) = False := by
              simp [hf, ColTypeFloat, ColTypeBool]
            have hcI : (ci.colType = ColTypeInt) = False := by
              simp [hf, ColTypeFloat, ColTypeInt]
            have hcT : (ci.colType = ColTypeFloat) = True := by simp [hf]
            simp only [Option.bind_eq_bind, hv0, hi0, Option.some_bind, hcB, hcI, hcT,
              if_true, if_false]
            rw [hveq]
            have hg : getI df.floatCols ((0 : Nat) : Int) = some a := by
              rw [getI_natCast]; exact ha
            have hg2 : getI df.floatCols (0 : Int) = some a := by simpa using hg
            rw [hg2]
            rfl
          · by_cases ht : ci.colType = ColTypeString
            · simp [slotCheck, hb, hn, hf, ht] at hslot
              obtain ⟨hveq, _⟩ := hslot
              have hlen : 0 < df.stringCols.length := by
                rw [hS, hi, countType_cons]; simp [ht]
              obtain ⟨a, ha⟩ : ∃ a, df.stringCols.get? 0 = some a :=
                ⟨df.stringCols.get ⟨0, hlen⟩, List.get?_eq_get hlen⟩
              refine ⟨a.length, ?_⟩
              unfold DF.RowCount
              rw [if_neg hvlen]
              have hcB : (ci.colType = ColTypeBool) = False := by
                simp [ht, ColTypeString, ColTypeBool]
              have hcI : (ci.colType = ColTypeInt) = False := by
                simp [ht, ColTypeString, ColTypeInt]
              have hcF : (ci.colType = ColTypeFloat) = False := by
                simp [ht, ColTypeString, ColTypeFloat]
              have hcT : (ci.colType = ColTypeString) = True := by simp [ht]
              simp only [Option.bind_eq_bind, hv0, hi0, Option.some_bind, hcB, hcI, hcF,
                hcT, if_true, if_false]
              rw [hveq]
              have hg : getI df.stringCols ((0 : Nat) : Int) = some a := by
                rw [getI_natCast]; exact ha
              have hg2 : getI df.stringCols (0 : Int) = some a := by simpa using hg
              rw [hg2]
              rfl
            · rw [slotCheck] at hslot
              simp [hb, hn, hf, ht] at hslot

/-- The per-type value lists gathered from one textual row have exactly one
entry per column of that type. -/
theorem parsedRowVals_lengths : ∀ ps : List (ColInfo × String),
    (parsedRowVals ps).boolVals.length = countType (ps.map Prod.fst) ColTypeBool ∧
    (parsedRowVals ps).intVals.length = countType (ps.map Prod.fst) ColTypeInt ∧
    (parsedRowVals ps).floatVals.length = countType (ps.map Prod.fst) ColTypeFloat ∧
    (parsedRowVals ps).stringVals.length = countType (ps.map Prod.fst) ColTypeString := by
  intro ps
  induction ps with
  | nil => simp [parsedRowVals, countType]
  | cons p rest ih =>
    obtain ⟨i1, i2, i3, i4⟩ := ih
    obtain ⟨ci, s⟩ := p
    by_cases hb : ci.colType = ColTypeBool
    · simp [parsedRowVals, hb, countType_cons, i1, i2, i3, i4, ColTypeBool,
        ColTypeInt, ColTypeFloat, ColTypeString]
    · by_cases hn : ci.colType = ColTypeInt
      · simp [parsedRowVals, hb, hn, countType_cons, i1, i2, i3, i4, ColTypeBool,
          ColTypeInt, ColTypeFloat, ColTypeString]
      · by_cases hf : ci.colType = ColTypeFloat
        · simp [parsedRowVals, hb, hn, hf, countType_cons, i1, i2, i3, i4,
            ColTypeBool, ColTypeInt, ColTypeFloat, ColTypeString]
        · by_cases ht : ci.colType = ColTypeString
          · simp [parsedRowVals, hb, hn, hf, ht, countType_cons, i1, i2, i3, i4,
              ColTypeBool, ColTypeInt, ColTypeFloat, ColTypeString]
          · simp [parsedRowVals, hb, hn, hf, ht, countType_cons, i1, i2, i3, i4]

/-- zipApp makes every array exactly one longer when the value list is long
enough. -/
theorem zipApp_allLen {α : Type} : ∀ (ls : List (List α)) (vs : List α) (R : Nat),
    allLen R ls = true → ls.length = vs.length →
    allLen (R + 1) (zipApp ls vs) = true ∧ (zipApp ls vs).length = ls.length := by
  intro ls
  induction ls with
  | nil => intro vs R _ _; simp [zipApp, allLen]
  | cons a rest ih =>
    intro vs R hall hlen
    cases vs with
    | nil => simp at hlen
    | cons v vrest =>
      simp only [allLen, List.all_cons, Bool.and_eq_true, decide_eq_true_eq] at hall
      obtain ⟨ha, hrest⟩ := hall
      obtain ⟨g1, g2⟩ := ih vrest R hrest (by simpa using hlen)
      constructor
      · simp only [zipApp, List.zipWith_cons_cons, allLen, List.all_cons,
          Bool.and_eq_true, decide_eq_true_eq]
        exact ⟨by simp [ha], by simpa [allLen, zipApp] using g1⟩
      · have g2x : (List.zipWith (fun a v => a ++ [v]) rest vrest).length = rest.length := by
          simpa [zipApp] using g2
        simp [zipApp, g2x]

end Dataframe

namespace Dataframe

/-- SetVal on a fresh wrapper marks NA exactly when the parse fails. -/
theorem setVal_isNA (s : String) :
    (BoolVal.SetVal {} s).1.IsNA = ! boolOk s ∧
    (IntVal.SetVal {} s).1.IsNA = ! intOk s ∧
    (FloatVal.SetVal {} s).1.IsNA = ! floatOk s := by
  refine ⟨?_, ?_, ?_⟩
  · unfold BoolVal.SetVal boolOk
    cases h : (goParseBool s).2 <;> simp [h]
  · unfold IntVal.SetVal intOk
    cases h : (goParseInt0 s).2 <;> simp [h]
  · unfold FloatVal.SetVal floatOk
    by_cases h : (goParseFloat s).2 = true <;> simp [h]

/-- Claim C2: on a well-formed DF, if the field count differs from the
column count, AddRowFromText records exactly one error and leaves every
column array unchanged; otherwise it appends exactly one value to every
column — the value parsed by the column's type, whose IsNA flag is set
exactly when the parse fails — recording one located error per failing
field, and all columns keep equal length (R+1). -/
theorem claim_C2_addRowFromText (df : DF) (R : Nat) (cols : List String)
    (hwf : DFWF df R) :
    (cols.length ≠ df.ColCount →
      df.AddRowFromText cols =
        some (df.addError (.rowColCountMismatch df.ColCount cols.length)) ∧
      (df.addError (.rowColCountMismatch df.ColCount cols.length)).boolCols = df.boolCols ∧
      (df.addError (.rowColCountMismatch df.ColCount cols.length)).intCols = df.intCols ∧
      (df.addError (.rowColCountMismatch df.ColCount cols.length)).floatCols = df.floatCols ∧
      (df.addError (.rowColCountMismatch df.ColCount cols.length)).stringCols = df.stringCols ∧
      (df.addError (.rowColCountMismatch df.ColCount cols.length)).errCount =
        df.errCount + 1) ∧
    (cols.length = df.ColCount →
      ∃ df', df.AddRowFromText cols = some df' ∧ df'.mci = df.mci ∧
        df'.boolCols = zipApp df.boolCols (parsedRowVals (df.mci.info.zip cols)).boolVals ∧
        df'.intCols = zipApp df.intCols (parsedRowVals (df.mci.info.zip cols)).intVals ∧
        df'.floatCols = zipApp df.floatCols (parsedRowVals (df.mci.info.zip cols)).floatVals ∧
        df'.stringCols = zipApp df.stringCols (parsedRowVals (df.mci.info.zip cols)).stringVals ∧
        df'.errCount = df.errCount + parseFailCount (df.mci.info.zip cols) ∧
        DFWF df' (R + 1)) ∧
    (∀ s, (BoolVal.SetVal {} s).1.IsNA = ! boolOk s ∧
      (IntVal.SetVal {} s).1.IsNA = ! intOk s ∧
      (FloatVal.SetVal {} s).1.IsNA = ! floatOk s) := by
  obtain ⟨hslot, hB, hI, hF, hS, aB, aI, aF, aS⟩ := hwf
  refine ⟨?_, ?_, fun s => setVal_isNA s⟩
  · intro hne
    have hne' : cols.length ≠ df.mci.info.length := hne
    unfold DF.AddRowFromText
    rw [if_pos hne']
    simp [DF.addError, DF.ColCount]
  · intro heq
    have heq' : cols.length = df.mci.info.length := heq
    obtain ⟨df', g0, g1, g2, g3, g4, g5, g6, g7⟩ :=
      addRFTLoop_spec df.mci.info df cols 0 0 0 0 0
        (List.drop_zero _)
        (by rw [List.drop_zero]; exact hslot)
        heq'
        (by rw [Nat.zero_add]; exact hB)
        (by rw [Nat.zero_add]; exact hI)
        (by rw [Nat.zero_add]; exact hF)
        (by rw [Nat.zero_add]; exact hS)
        (by
          intro d k1 k2 k3 k4 k5
          exact rowCount_some d (by rw [k1]; exact hslot)
            (by rw [k2, k1]; exact hB) (by rw [k3, k1]; exact hI)
            (by rw [k4, k1]; exact hF) (by rw [k5, k1]; exact hS))
    have hlens := parsedRowVals_lengths (df.mci.info.zip cols)
    have hmapfst : (df.mci.info.zip cols).map Prod.fst = df.mci.info :=
      List.map_fst_zip _ _ (le_of_eq heq'.symm)
    rw [hmapfst] at hlens
    obtain ⟨l1, l2, l3, l4⟩ := hlens
    have zB := zipApp_allLen df.boolCols
      (parsedRowVals (df.mci.info.zip cols)).boolVals R aB (by rw [l1, hB])
    have zI := zipApp_allLen df.intCols
      (parsedRowVals (df.mci.info.zip cols)).intVals R aI (by rw [l2, hI])
    have zF := zipApp_allLen df.floatCols
      (parsedRowVals (df.mci.info.zip cols)).floatVals R aF (by rw [l3, hF])
    have zS := zipApp_allLen df.stringCols
      (parsedRowVals (df.mci.info.zip cols)).stringVals R aS (by rw [l4, hS])
    refine ⟨df', ?_, g1, ?_, ?_, ?_, ?_, ?_, ?_⟩
    · unfold DF.AddRowFromText
      rw [if_neg (by simp [DF.ColCount] at heq; omega)]
      exact g0
    · rw [g3]; simp [List.drop_zero]
    · rw [g4]; simp [List.drop_zero]
    · rw [g5]; simp [List.drop_zero]
    · rw [g6]; simp [List.drop_zero]
    · rw [g7]; simp [List.drop_zero]
    · refine ⟨by rw [g1]; exact hslot, ?_, ?_, ?_, ?_, ?_, ?_, ?_, ?_⟩
      · rw [g3, g1]
        simp only [List.take_zero, List.drop_zero, List.nil_append]
        rw [zB.2, hB]
      · rw [g4, g1]
        simp only [List.take_zero, List.drop_zero, List.nil_append]
        rw [zI.2, hI]
      · rw [g5, g1]
        simp only [List.take_zero, List.drop_zero, List.nil_append]
        rw [zF.2, hF]
      · rw [g6, g1]
        simp only [List.take_zero, List.drop_zero, List.nil_append]
        rw [zS.2, hS]
      · rw [g3]
        simp only [List.take_zero, List.drop_zero, List.nil_append]
        exact zB.1
      · rw [g4]
        simp only [List.take_zero, List.drop_zero, List.nil_append]
        exact zI.1
      · rw [g5]
        simp only [List.take_zero, List.drop_zero, List.nil_append]
        exact zF.1
      · rw [g6]
        simp only [List.take_zero, List.drop_zero, List.nil_append]
        exact zS.1

theorem claim_C2_witness :
    DFWF c3exampleDF 0 ∧
    (["7", "xx"].length = c3exampleDF.ColCount →
      ∃ df', c3exampleDF.AddRowFromText ["7", "xx"] = some df' ∧
        df'.mci = c3exampleDF.mci ∧
        df'.boolCols = zipApp c3exampleDF.boolCols
          (parsedRowVals (c3exampleDF.mci.info.zip ["7", "xx"])).boolVals ∧
        df'.intCols = zipApp c3exampleDF.intCols
          (parsedRowVals (c3exampleDF.mci.info.zip ["7", "xx"])).intVals ∧
        df'.floatCols = zipApp c3exampleDF.floatCols
          (parsedRowVals (c3exampleDF.mci.info.zip ["7", "xx"])).floatVals ∧
        df'.stringCols = zipApp c3exampleDF.stringCols
          (parsedRowVals (c3exampleDF.mci.info.zip ["7", "xx"])).stringVals ∧
        df'.errCount = c3exampleDF.errCount +
          parseFailCount (c3exampleDF.mci.info.zip ["7", "xx"]) ∧
        DFWF df' (0 + 1)) :=
  ⟨by decide, (claim_C2_addRowFromText c3exampleDF 0 ["7", "xx"] (by decide)).2.1⟩

end Dataframe

namespace Dataframe

/-! ### The round trip (claim C5): definitions -/

/-- The values of row `i` across a list of column arrays. -/
def colAt {α : Type} [Inhabited α] (i : Int) (ls : List (List α)) : List α :=
  ls.map (fun a => (getI a i).getD default)

/-- The store truncated to its first `k` rows, with the error state zeroed
(the shape `roundTrip`'s accumulator passes through). -/
def truncDF (df : DF) (k : Nat) : DF :=
  { mci := df.mci,
    boolCols := df.boolCols.map (fun a => a.take k),
    intCols := df.intCols.map (fun a => a.take k),
    floatCols := df.floatCols.map (fun a => a.take k),
    stringCols := df.stringCols.map (fun a => a.take k),
    errors := [], maxErrors := 0, errCount := 0 }

/-- Indices 0..n-1 as ints. -/
def intRange (n : Int) : List Int := (List.range n.toNat).map (fun (j : Nat) => (j : Int))

/-- Extract every listed row of `df` with `Row` and append it to `acc` with
`AddRow`. -/
def roundTripAux (df : DF) : DF → List Int → Option (Except DfErr DF)
  | acc, [] => some (.ok acc)
  | acc, i :: rest =>
    match df.Row i with
    | none => none
    | some r =>
      match acc.AddRow r with
      | none => none
      | some (.error e) => some (.error e)
      | some (.ok acc') => roundTripAux df acc' rest

/-- The round trip of the spec: every row of `df`, extracted with `Row` and
re-appended with `AddRow` into `df.Clone`. -/
def roundTrip (df : DF) : Option (Except DfErr DF) :=
  match df.RowCount with
  | none => none
  | some n => roundTripAux df df.Clone (intRange n)

/-- Match of a registry against itself always succeeds. -/
theorem matchInfoLoop_self : ∀ (l : List ColInfo) (i : Nat),
    matchInfoLoop l l i = none := by
  intro l
  induction l with
  | nil => intro i; rfl
  | cons a rest ih => intro i; simp [matchInfoLoop, ih]

theorem matchValIdxLoop_self : ∀ (l : List Int) (i : Nat),
    matchValIdxLoop l l i = some none := by
  intro l
  induction l with
  | nil => intro i; rfl
  | cons a rest ih => intro i; simp [matchValIdxLoop, ih]

theorem match_self (mci : MultiColInfo) : mci.Match mci = some none := by
  unfold MultiColInfo.Match
  rw [if_neg (by simp)]
  rw [matchInfoLoop_self, matchValIdxLoop_self]

/-- On a well-formed store with at least one column, RowCount is the shared
array length; with no columns it is 0 (and then all arrays are empty). -/
theorem rowCount_value (df : DF) (R : Nat) (hwf : DFWF df R) :
    df.RowCount = some R ∨
    (df.mci.info = [] ∧ df.mci.valIdx = [] ∧ df.boolCols = [] ∧
      df.intCols = [] ∧ df.floatCols = [] ∧ df.stringCols = [] ∧
      df.RowCount = some 0) := by
  obtain ⟨hslot, hB, hI, hF, hS, aB, aI, aF, aS⟩ := hwf
  cases hi : df.mci.info with
  | nil =>
    right
    rw [hi] at hslot
    cases hv : df.mci.valIdx with
    | cons v vs => rw [hv] at hslot; simp [slotCheck] at hslot
    | nil =>
      rw [hi] at hB hI hF hS
      simp only [countType, List.filter_nil, List.length_nil] at hB hI hF hS
      refine ⟨rfl, rfl, List.eq_nil_of_length_eq_zero hB,
        List.eq_nil_of_length_eq_zero hI, List.eq_nil_of_length_eq_zero hF,
        List.eq_nil_of_length_eq_zero hS, ?_⟩
      unfold DF.RowCount
      rw [hv]
      simp
  | cons ci rest =>
    left
    obtain ⟨k, hk⟩ := rowCount_some df hslot hB hI hF hS
    -- identify k with R by re-running the first-column computation
    rw [hi] at hslot
    cases hv : df.mci.valIdx with
    | nil => rw [hv] at hslot; simp [slotCheck] at hslot
    | cons v vs =>
      rw [hv] at hslot
      have hvlen : df.mci.valIdx.length ≠ 0 := by rw [hv]; simp
      have hv0 : df.mci.valIdx.get? 0 = some v := by rw [hv]; rfl
      have hi0 : df.mci.info.get? 0 = some ci := by rw [hi]; rfl
      by_cases hb : ci.colType = ColTypeBool
      · simp [slotCheck, hb] at hslot
        obtain ⟨hveq, _⟩ := hslot
        have hlen : 0 < df.boolCols.length := by
          rw [hB, hi, countType_cons]; simp [hb]
        obtain ⟨a, ha⟩ : ∃ a, df.boolCols.get? 0 = some a :=
          ⟨df.boolCols.get ⟨0, hlen⟩, List.get?_eq_get hlen⟩
        have haR : a.length = R := by
          have hmem : a ∈ df.boolCols := List.get?_mem ha
          have hd := List.all_eq_true.mp aB a hmem
          simpa using hd
        unfold DF.RowCount
        rw [if_neg hvlen]
        simp only [Option.bind_eq_bind, hv0, hi0, Option.some_bind, hb, if_true]
        rw [hveq]
        have hg2 : getI df.boolCols (0 : Int) = some a := by
          simpa using (getI_natCast df.boolCols 0).trans ha
        rw [hg2]
        simp [haR]
      · by_cases hn : ci.colType = ColTypeInt
        · simp [slotCheck, hb, hn] at hslot
          obtain ⟨hveq, _⟩ := hslot
          have hlen : 0 < df.intCols.length := by
            rw [hI, hi, countType_cons]; simp [hn]
          obtain ⟨a, ha⟩ : ∃ a, df.intCols.get? 0 = some a :=
            ⟨df.intCols.get ⟨0, hlen⟩, List.get?_eq_get hlen⟩
          have haR : a.length = R := by
            have hmem : a ∈ df.intCols := List.get?_mem ha
            have hd := List.all_eq_true.mp aI a hmem
            simpa using hd
          unfold DF.RowCount
          rw [if_neg hvlen]
          have hcB : (ci.colType = ColTypeBool) = False := by
            simp [hn, ColTypeInt, ColTypeBool]
          have hcT : (ci.colType = ColTypeInt) = True := by simp [hn]
          simp only [Option.bind_eq_bind, hv0, hi0, Option.some_bind, hcB, hcT,
            if_true, if_false]
          rw [hveq]
          have hg2 : getI df.intCols (0 : Int) = some a := by
            simpa using (getI_natCast df.intCols 0).trans ha
          rw [hg2]
          simp [haR]
        · by_cases hf : ci.colType = ColTypeFloat
          · simp [slotCheck, hb, hn, hf] at hslot
            obtain ⟨hveq, _⟩ := hslot
            have hlen : 0 < df.floatCols.length := by
              rw [hF, hi, countType_cons]; simp [hf]
            obtain ⟨a, ha⟩ : ∃ a, df.floatCols.get? 0 = some a :=
              ⟨df.floatCols.get ⟨0, hlen⟩, List.get?_eq_get hlen⟩
            have haR : a.length = R := by
              have hmem : a ∈ df.floatCols := List.get?_mem ha
              have hd := List.all_eq_true.mp aF a hmem
              simpa using hd
            unfold DF.RowCount
            rw [if_neg hvlen]
            have hcB : (ci.colType = ColTypeBool) = False := by
              simp [hf, ColTypeFloat, ColTypeBool]
            have hcI : (ci.colType = ColTypeInt) = False := by
              simp [hf, ColTypeFloat, ColTypeInt]
            have hcT : (ci.colType = ColTypeFloat) = True := by simp [hf]
            simp only [Option.bind_eq_bind, hv0, hi0, Option.some_bind, hcB, hcI,
              hcT, if_true, if_false]
            rw [hveq]
            have hg2 : getI df.floatCols (0 : Int) = some a := by
              simpa using (getI_natCast df.floatCols 0).trans ha
            rw [hg2]
            simp [haR]
          · by_cases ht : ci.colType = ColTypeString
            · simp [slotCheck, hb, hn, hf, ht] at hslot
              obtain ⟨hveq, _⟩ := hslot
              have hlen : 0 < df.stringCols.length := by
                rw [hS, hi, countType_cons]; simp [ht]
              obtain ⟨a, ha⟩ : ∃ a, df.stringCols.get? 0 = some a :=
                ⟨df.stringCols.get ⟨0, hlen⟩, List.get?_eq_get hlen⟩
              have haR : a.length = R := by
                have hmem : a ∈ df.stringCols := List.get?_mem ha
                have hd := List.all_eq_true.mp aS a hmem
                simpa using hd
              unfold DF.RowCount
              rw [if_neg hvlen]
              have hcB : (ci.colType = ColTypeBool) = False := by
                simp [ht, ColTypeString, ColTypeBool]
              have hcI : (ci.colType = ColTypeInt) = False := by
                simp [ht, ColTypeString, ColTypeInt]
              have hcF : (ci.colType = ColTypeFloat) = False := by
                simp [ht, ColTypeString, ColTypeFloat]
              have hcT : (ci.colType = ColTypeString) = True := by simp [ht]
              simp only [Option.bind_eq_bind, hv0, hi0, Option.some_bind, hcB, hcI,
                hcF, hcT, if_true, if_false]
              rw [hveq]
              have hg2 : getI df.stringCols (0 : Int) = some a := by
                simpa using (getI_natCast df.stringCols 0).trans ha
              rw [hg2]
              simp [haR]
            · rw [slotCheck] at hslot
              simp [hb, hn, hf, ht] at hslot

end Dataframe

namespace Dataframe

/-- Characterization of the copying loop of Row on a well-slotted suffix:
it gathers, per type, the i-th entry of every array from the current slot
counter on. -/
theorem rowFill_spec :
    ∀ (rest : List ColInfo) (df : DF) (i : Int) (cidx cb cn cf cs : Nat)
      (rd : RowData),
    df.mci.info.drop cidx = rest →
    slotCheck rest (df.mci.valIdx.drop cidx) cb cn cf cs = true →
    df.boolCols.length = cb + countType rest ColTypeBool →
    df.intCols.length = cn + countType rest ColTypeInt →
    df.floatCols.length = cf + countType rest ColTypeFloat →
    df.stringCols.length = cs + countType rest ColTypeString →
    0 ≤ i →
    (∀ a ∈ df.boolCols, i.toNat < a.length) →
    (∀ a ∈ df.intCols, i.toNat < a.length) →
    (∀ a ∈ df.floatCols, i.toNat < a.length) →
    (∀ a ∈ df.stringCols, i.toNat < a.length) →
    ∃ rd', rowFill df i rest cidx rd = some rd' ∧
      rd'.boolVals = rd.boolVals ++ colAt i (df.boolCols.drop cb) ∧
      rd'.intVals = rd.intVals ++ colAt i (df.intCols.drop cn) ∧
      rd'.floatVals = rd.floatVals ++ colAt i (df.floatCols.drop cf) ∧
      rd'.stringVals = rd.stringVals ++ colAt i (df.stringCols.drop cs) := by
  intro rest
  induction rest with
  | nil =>
    intro df i cidx cb cn cf cs rd hinfo hslot hB hI hF hS hi0 inB inI inF inS
    simp only [countType, List.filter_nil, List.length_nil, Nat.add_zero] at hB hI hF hS
    refine ⟨rd, rfl, ?_, ?_, ?_, ?_⟩ <;>
      simp [colAt, List.drop_eq_nil_of_le, hB.le, hI.le, hF.le, hS.le]
  | cons ci rest' ih =>
    intro df i cidx cb cn cf cs rd hinfo hslot hB hI hF hS hi0 inB inI inF inS
    cases hvl : df.mci.valIdx.drop cidx with
    | nil => rw [hvl] at hslot; simp [slotCheck] at hslot
    | cons v vs =>
      rw [hvl] at hslot
      have hvi : df.mci.valIdx.get? cidx = some v := get?_of_drop_cons hvl
      have hinfo1 : df.mci.info.drop (cidx + 1) = rest' := tail_of_drop_eq hinfo
      have hvl1 : df.mci.valIdx.drop (cidx + 1) = vs := tail_of_drop_eq hvl
      by_cases hb : ci.colType = ColTypeBool
      ·
        simp [slotCheck, hb] at hslot
        obtain ⟨hveq, hslot'⟩ := hslot
        subst hveq
        have hcB : (ci.colType = ColTypeBool) = True := by simp [hb]
        have hcI : (ci.colType = ColTypeInt) = False := by
          simp [hb, ColTypeBool, ColTypeInt]
        have hcF : (ci.colType = ColTypeFloat) = False := by
          simp [hb, ColTypeBool, ColTypeFloat]
        have hcS : (ci.colType = ColTypeString) = False := by
          simp [hb, ColTypeBool, ColTypeString]
        have hcntB : countType (ci :: rest') ColTypeBool = countType rest' ColTypeBool + 1 := by
          rw [countType_cons]; simp [hb]
        have hcntI : countType (ci :: rest') ColTypeInt = countType rest' ColTypeInt := by
          rw [countType_cons]; simp [hb, ColTypeBool, ColTypeInt]
        have hcntF : countType (ci :: rest') ColTypeFloat = countType rest' ColTypeFloat := by
          rw [countType_cons]; simp [hb, ColTypeBool, ColTypeFloat]
        have hcntS : countType (ci :: rest') ColTypeString = countType rest' ColTypeString := by
          rw [countType_cons]; simp [hb, ColTypeBool, ColTypeString]
        have hcb : cb < df.boolCols.length := by rw [hB, hcntB]; omega
        obtain ⟨acol, hacol⟩ : ∃ a, df.boolCols.get? cb = some a :=
          ⟨df.boolCols.get ⟨cb, hcb⟩, List.get?_eq_get hcb⟩
        have hmem : acol ∈ df.boolCols := List.get?_mem hacol
        obtain ⟨v, hv⟩ : ∃ v, getI acol i = some v := by
          refine ⟨acol.get ⟨i.toNat, inB acol hmem⟩, ?_⟩
          unfold getI
          rw [if_pos hi0]
          exact List.get?_eq_get (inB acol hmem)
        have hga : getI df.boolCols ((cb : Nat) : Int) = some acol := by
          rw [getI_natCast]; exact hacol
        obtain ⟨rd', g0, g1, g2, g3, g4⟩ := ih df i (cidx + 1) (cb + 1) cn cf cs
          { rd with boolVals := rd.boolVals ++ [v] }
          hinfo1 (by rw [hvl1]; exact hslot')
          (by rw [hB, hcntB]; omega)
          (by rw [hI, hcntI])
          (by rw [hF, hcntF])
          (by rw [hS, hcntS])
          hi0 inB inI inF inS
        refine ⟨rd', ?_, ?_, ?_, ?_, ?_⟩
        · simp only [rowFill, hvi, Option.bind_eq_bind, Option.some_bind,
            hcB, hcI, hcF, hcS, if_true, if_false, hga, hv]
          exact g0
        · rw [g1, drop_cons_of_get? hacol]
          simp [colAt, hv, List.append_assoc]
        · rw [g2]
        · rw [g3]
        · rw [g4]
      · by_cases hn : ci.colType = ColTypeInt
        ·
          simp [slotCheck, hb, hn] at hslot
          obtain ⟨hveq, hslot'⟩ := hslot
          subst hveq
          have hcB : (ci.colType = ColTypeBool) = False := by
            simp [hn, ColTypeInt, ColTypeBool]
          have hcI : (ci.colType = ColTypeInt) = True := by simp [hn]
          have hcF : (ci.colType = ColTypeFloat) = False := by
            simp [hn, ColTypeInt, ColTypeFloat]
          have hcS : (ci.colType = ColTypeString) = False := by
            simp [hn, ColTypeInt, ColTypeString]
          have hcntB : countType (ci :: rest') ColTypeBool = countType rest' ColTypeBool := by
            rw [countType_cons]; simp [hn, ColTypeInt, ColTypeBool]
          have hcntI : countType (ci :: rest') ColTypeInt = countType rest' ColTypeInt + 1 := by
            rw [countType_cons]; simp [hn]
          have hcntF : countType (ci :: rest') ColTypeFloat = countType rest' ColTypeFloat := by
            rw [countType_cons]; simp [hn, ColTypeInt, ColTypeFloat]
          have hcntS : countType (ci :: rest') ColTypeString = countType rest' ColTypeString := by
            rw [countType_cons]; simp [hn, ColTypeInt, ColTypeString]
          have hcb : cn < df.intCols.length := by rw [hI, hcntI]; omega
          obtain ⟨acol, hacol⟩ : ∃ a, df.intCols.get? cn = some a :=
            ⟨df.intCols.get ⟨cn, hcb⟩, List.get?_eq_get hcb⟩
          have hmem : acol ∈ df.intCols := List.get?_mem hacol
          obtain ⟨v, hv⟩ : ∃ v, getI acol i = some v := by
            refine ⟨acol.get ⟨i.toNat, inI acol hmem⟩, ?_⟩
            unfold getI
            rw [if_pos hi0]
            exact List.get?_eq_get (inI acol hmem)
          have hga : getI df.intCols ((cn : Nat) : Int) = some acol := by
            rw [getI_natCast]; exact hacol
          obtain ⟨rd', g0, g1, g2, g3, g4⟩ := ih df i (cidx + 1) cb (cn + 1) cf cs
            { rd with intVals := rd.intVals ++ [v] }
            hinfo1 (by rw [hvl1]; exact hslot')
            (by rw [hB, hcntB])
            (by rw [hI, hcntI]; omega)
            (by rw [hF, hcntF])
            (by rw [hS, hcntS])
            hi0 inB inI inF inS
          refine ⟨rd', ?_, ?_, ?_, ?_, ?_⟩
          · simp only [rowFill, hvi, Option.bind_eq_bind, Option.some_bind,
              hcB, hcI, hcF, hcS, if_true, if_false, hga, hv]
            exact g0
          · rw [g1]
          · rw [g2, drop_cons_of_get? hacol]
            simp [colAt, hv, List.append_assoc]
          · rw [g3]
          · rw [g4]
        · by_cases hf : ci.colType = ColTypeFloat
          ·
            simp [slotCheck, hb, hn, hf] at hslot
            obtain ⟨hveq, hslot'⟩ := hslot
            subst hveq
            have hcB : (ci.colType = ColTypeBool) = False := by
              simp [hf, ColTypeFloat, ColTypeBool]
            have hcI : (ci.colType = ColTypeInt) = False := by
              simp [hf, ColTypeFloat, ColTypeInt]
            have hcF : (ci.colType = ColTypeFloat) = True := by simp [hf]
            have hcS : (ci.colType = ColTypeString) = False := by
              simp [hf, ColTypeFloat, ColTypeString]
            have hcntB : countType (ci :: rest') ColTypeBool = countType rest' ColTypeBool := by
              rw [countType_cons]; simp [hf, ColTypeFloat, ColTypeBool]
            have hcntI : countType (ci :: rest') ColTypeInt = countType rest' ColTypeInt := by
              rw [countType_cons]; simp [hf, ColTypeFloat, ColTypeInt]
            have hcntF : countType (ci :: rest') ColTypeFloat = countType rest' ColTypeFloat + 1 := by
              rw [countType_cons]; simp [hf]
            have hcntS : countType (ci :: rest') ColTypeString = countType rest' ColTypeString := by
              rw [countType_cons]; simp [hf, ColTypeFloat, ColTypeString]
            have hcb : cf < df.floatCols.length := by rw [hF, hcntF]; omega
            obtain ⟨acol, hacol⟩ : ∃ a, df.floatCols.get? cf = some a :=
              ⟨df.floatCols.get ⟨cf, hcb⟩, List.get?_eq_get hcb⟩
            have hmem : acol ∈ df.floatCols := List.get?_mem hacol
            obtain ⟨v, hv⟩ : ∃ v, getI acol i = some v := by
              refine ⟨acol.get ⟨i.toNat, inF acol hmem⟩, ?_⟩
              unfold getI
              rw [if_pos hi0]
              exact List.get?_eq_get (inF acol hmem)
            have hga : getI df.floatCols ((cf : Nat) : Int) = some acol := by
              rw [getI_natCast]; exact hacol
            obtain ⟨rd', g0, g1, g2, g3, g4⟩ := ih df i (cidx + 1) cb cn (cf + 1) cs
              { rd with floatVals := rd.floatVals ++ [v] }
              hinfo1 (by rw [hvl1]; exact hslot')
              (by rw [hB, hcntB])
              (by rw [hI, hcntI])
              (by rw [hF, hcntF]; omega)
              (by rw [hS, hcntS])
              hi0 inB inI inF inS
            refine ⟨rd', ?_, ?_, ?_, ?_, ?_⟩
            · simp only [rowFill, hvi, Option.bind_eq_bind, Option.some_bind,
                hcB, hcI, hcF, hcS, if_true, if_false, hga, hv]
              exact g0
            · rw [g1]
            · rw [g2]
            · rw [g3, drop_cons_of_get? hacol]
              simp [colAt, hv, List.append_assoc]
            · rw [g4]
          · by_cases ht : ci.colType = ColTypeString
            ·
              simp [slotCheck, hb, hn, hf, ht] at hslot
              obtain ⟨hveq, hslot'⟩ := hslot
              subst hveq
              have hcB : (ci.colType = ColTypeBool) = False := by
                simp [ht, ColTypeString, ColTypeBool]
              have hcI : (ci.colType = ColTypeInt) = False := by
                simp [ht, ColTypeString, ColTypeInt]
              have hcF : (ci.colType = ColTypeFloat) = False := by
                simp [ht, ColTypeString, ColTypeFloat]
              have hcS : (ci.colType = ColTypeString) = True := by simp [ht]
              have hcntB : countType (ci :: rest') ColTypeBool = countType rest' ColTypeBool := by
                rw [countType_cons]; simp [ht, ColTypeString, ColTypeBool]
              have hcntI : countType (ci :: rest') ColTypeInt = countType rest' ColTypeInt := by
                rw [countType_cons]; simp [ht, ColTypeString, ColTypeInt]
              have hcntF : countType (ci :: rest') ColTypeFloat = countType rest' ColTypeFloat := by
                rw [countType_cons]; simp [ht, ColTypeString, ColTypeFloat]
              have hcntS : countType (ci :: rest') ColTypeString = countType rest' ColTypeString + 1 := by
                rw [countType_cons]; simp [ht]
              have hcb : cs < df.stringCols.length := by rw [hS, hcntS]; omega
              obtain ⟨acol, hacol⟩ : ∃ a, df.stringCols.get? cs = some a :=
                ⟨df.stringCols.get ⟨cs, hcb⟩, List.get?_eq_get hcb⟩
              have hmem : acol ∈ df.stringCols := List.get?_mem hacol
              obtain ⟨v, hv⟩ : ∃ v, getI acol i = some v := by
                refine ⟨acol.get ⟨i.toNat, inS acol hmem⟩, ?_⟩
                unfold getI
                rw [if_pos hi0]
                exact List.get?_eq_get (inS acol hmem)
              have hga : getI df.stringCols ((cs : Nat) : Int) = some acol := by
                rw [getI_natCast]; exact hacol
              obtain ⟨rd', g0, g1, g2, g3, g4⟩ := ih df i (cidx + 1) cb cn cf (cs + 1)
                { rd with stringVals := rd.stringVals ++ [v] }
                hinfo1 (by rw [hvl1]; exact hslot')
                (by rw [hB, hcntB])
                (by rw [hI, hcntI])
                (by rw [hF, hcntF])
                (by rw [hS, hcntS]; omega)
                hi0 inB inI inF inS
              refine ⟨rd', ?_, ?_, ?_, ?_, ?_⟩
              · simp only [rowFill, hvi, Option.bind_eq_bind, Option.some_bind,
                  hcB, hcI, hcF, hcS, if_true, if_false, hga, hv]
                exact g0
              · rw [g1]
              · rw [g2]
              · rw [g3]
              · rw [g4, drop_cons_of_get? hacol]
                simp [colAt, hv, List.append_assoc]
            · rw [slotCheck] at hslot
              simp [hb, hn, hf, ht] at hslot

/-- Characterization of the appending loop of AddRow on a well-slotted
suffix: each column array from the current counter on gets the row's value
of the same slot appended. -/
theorem addRowLoop_spec :
    ∀ (rest : List ColInfo) (df : DF) (row : Row) (cidx cb cn cf cs : Nat),
    df.mci.info.drop cidx = rest →
    slotCheck rest (df.mci.valIdx.drop cidx) cb cn cf cs = true →
    df.boolCols.length = cb + countType rest ColTypeBool →
    df.intCols.length = cn + countType rest ColTypeInt →
    df.floatCols.length = cf + countType rest ColTypeFloat →
    df.stringCols.length = cs + countType rest ColTypeString →
    row.rd.boolVals.length = df.boolCols.length →
    row.rd.intVals.length = df.intCols.length →
    row.rd.floatVals.length = df.floatCols.length →
    row.rd.stringVals.length = df.stringCols.length →
    ∃ df', addRowLoop row df rest cidx = some df' ∧
      df'.mci = df.mci ∧ df'.errors = df.errors ∧ df'.maxErrors = df.maxErrors ∧
      df'.errCount = df.errCount ∧
      df'.boolCols = df.boolCols.take cb ++
        zipApp (df.boolCols.drop cb) (row.rd.boolVals.drop cb) ∧
      df'.intCols = df.intCols.take cn ++
        zipApp (df.intCols.drop cn) (row.rd.intVals.drop cn) ∧
      df'.floatCols = df.floatCols.take cf ++
        zipApp (df.floatCols.drop cf) (row.rd.floatVals.drop cf) ∧
      df'.stringCols = df.stringCols.take cs ++
        zipApp (df.stringCols.drop cs) (row.rd.stringVals.drop cs) := by
  intro rest
  induction rest with
  | nil =>
    intro df row cidx cb cn cf cs hinfo hslot hB hI hF hS rB rI rF rS
    simp only [countType, List.filter_nil, List.length_nil, Nat.add_zero] at hB hI hF hS
    refine ⟨df, rfl, rfl, rfl, rfl, rfl, ?_, ?_, ?_, ?_⟩ <;>
      simp [zipApp, List.drop_eq_nil_of_le, List.take_of_length_le,
        hB.le, hI.le, hF.le, hS.le]
  | cons ci rest' ih =>
    intro df row cidx cb cn cf cs hinfo hslot hB hI hF hS rB rI rF rS
    cases hvl : df.mci.valIdx.drop cidx with
    | nil => rw [hvl] at hslot; simp [slotCheck] at hslot
    | cons v vs =>
      rw [hvl] at hslot
      have hvi : df.mci.valIdx.get? cidx = some v := get?_of_drop_cons hvl
      have hinfo1 : df.mci.info.drop (cidx + 1) = rest' := tail_of_drop_eq hinfo
      have hvl1 : df.mci.valIdx.drop (cidx + 1) = vs := tail_of_drop_eq hvl
      by_cases hb : ci.colType = ColTypeBool
      ·
        simp [slotCheck, hb] at hslot
        obtain ⟨hveq, hslot'⟩ := hslot
        subst hveq
        have hcB : (ci.colType = ColTypeBool) = True := by simp [hb]
        have hcI : (ci.colType = ColTypeInt) = False := by
          simp [hb, ColTypeBool, ColTypeInt]
        have hcF : (ci.colType = ColTypeFloat) = False := by
          simp [hb, ColTypeBool, ColTypeFloat]
        have hcS : (ci.colType = ColTypeString) = False := by
          simp [hb, ColTypeBool, ColTypeString]
        have hcntB : countType (ci :: rest') ColTypeBool = countType rest' ColTypeBool + 1 := by
          rw [countType_cons]; simp [hb]
        have hcntI : countType (ci :: rest') ColTypeInt = countType rest' ColTypeInt := by
          rw [countType_cons]; simp [hb, ColTypeBool, ColTypeInt]
        have hcntF : countType (ci :: rest') ColTypeFloat = countType rest' ColTypeFloat := by
          rw [countType_cons]; simp [hb, ColTypeBool, ColTypeFloat]
        have hcntS : countType (ci :: rest') ColTypeString = countType rest' ColTypeString := by
          rw [countType_cons]; simp [hb, ColTypeBool, ColTypeString]
        have hcb : cb < df.boolCols.length := by rw [hB, hcntB]; omega
        obtain ⟨acol, hacol⟩ : ∃ a, df.boolCols.get? cb = some a :=
          ⟨df.boolCols.get ⟨cb, hcb⟩, List.get?_eq_get hcb⟩
        have hrlen : cb < row.rd.boolVals.length := by rw [rB]; exact hcb
        obtain ⟨v, hvv⟩ : ∃ v, row.rd.boolVals.get? cb = some v :=
          ⟨row.rd.boolVals.get ⟨cb, hrlen⟩, List.get?_eq_get hrlen⟩
        have hga : getI df.boolCols ((cb : Nat) : Int) = some acol := by
          rw [getI_natCast]; exact hacol
        have hgv : getI row.rd.boolVals ((cb : Nat) : Int) = some v := by
          rw [getI_natCast]; exact hvv
        set df1 : DF := { df with boolCols := setI df.boolCols ((cb : Nat) : Int) (acol ++ [v]) } with hdf1
        have hdf1b : df1.boolCols = df.boolCols.set cb (acol ++ [v]) := by
          rw [hdf1]; simp [setI_natCast]
        have hlen1 : df1.boolCols.length = df.boolCols.length := by
          rw [hdf1b, List.length_set]
        obtain ⟨df', g0, g1, g2, g3, g4, g5, g6, g7, g8⟩ := ih df1 row (cidx + 1) (cb + 1) cn cf cs
          hinfo1 (by rw [hvl1]; exact hslot')
          (by rw [hlen1, hB, hcntB]; omega)
          (by rw [hI, hcntI])
          (by rw [hF, hcntF])
          (by rw [hS, hcntS])
          (by rw [rB, ← hlen1])
          rI
          rF
          rS
        refine ⟨df', ?_, g1, g2, g3, g4, ?_, ?_, ?_, ?_⟩
        · simp only [addRowLoop, hvi, Option.bind_eq_bind, Option.some_bind,
            hcB, hcI, hcF, hcS, if_true, if_false, hga, hgv]
          exact g0
        · rw [g5, hdf1b, take_succ_set df.boolCols cb hcb, drop_succ_set]
          rw [drop_cons_of_get? hacol, drop_cons_of_get? hvv]
          simp [zipApp, List.append_assoc]
        · rw [g6]
        · rw [g7]
        · rw [g8]
      · by_cases hn : ci.colType = ColTypeInt
        ·
          simp [slotCheck, hb, hn] at hslot
          obtain ⟨hveq, hslot'⟩ := hslot
          subst hveq
          have hcB : (ci.colType = ColTypeBool) = False := by
            simp [hn, ColTypeInt, ColTypeBool]
          have hcI : (ci.colType = ColTypeInt) = True := by simp [hn]
          have hcF : (ci.colType = ColTypeFloat) = False := by
            simp [hn, ColTypeInt, ColTypeFloat]
          have hcS : (ci.colType = ColTypeString) = False := by
            simp [hn, ColTypeInt, ColTypeString]
          have hcntB : countType (ci :: rest') ColTypeBool = countType rest' ColTypeBool := by
            rw [countType_cons]; simp [hn, ColTypeInt, ColTypeBool]
          have hcntI : countType (ci :: rest') ColTypeInt = countType rest' ColTypeInt + 1 := by
            rw [countType_cons]; simp [hn]
          have hcntF : countType (ci :: rest') ColTypeFloat = countType rest' ColTypeFloat := by
            rw [countType_cons]; simp [hn, ColTypeInt, ColTypeFloat]
          have hcntS : countType (ci :: rest') ColTypeString = countType rest' ColTypeString := by
            rw [countType_cons]; simp [hn, ColTypeInt, ColTypeString]
          have hcb : cn < df.intCols.length := by rw [hI, hcntI]; omega
          obtain ⟨acol, hacol⟩ : ∃ a, df.intCols.get? cn = some a :=
            ⟨df.intCols.get ⟨cn, hcb⟩, List.get?_eq_get hcb⟩
          have hrlen : cn < row.rd.intVals.length := by rw [rI]; exact hcb
          obtain ⟨v, hvv⟩ : ∃ v, row.rd.intVals.get? cn = some v :=
            ⟨row.rd.intVals.get ⟨cn, hrlen⟩, List.get?_eq_get hrlen⟩
          have hga : getI df.intCols ((cn : Nat) : Int) = some acol := by
            rw [getI_natCast]; exact hacol
          have hgv : getI row.rd.intVals ((cn : Nat) : Int) = some v := by
            rw [getI_natCast]; exact hvv
          set df1 : DF := { df with intCols := setI df.intCols ((cn : Nat) : Int) (acol ++ [v]) } with hdf1
          have hdf1b : df1.intCols = df.intCols.set cn (acol ++ [v]) := by
            rw [hdf1]; simp [setI_natCast]
          have hlen1 : df1.intCols.length = df.intCols.length := by
            rw [hdf1b, List.length_set]
          obtain ⟨df', g0, g1, g2, g3, g4, g5, g6, g7, g8⟩ := ih df1 row (cidx + 1) cb (cn + 1) cf cs
            hinfo1 (by rw [hvl1]; exact hslot')
            (by rw [hB, hcntB])
            (by rw [hlen1, hI, hcntI]; omega)
            (by rw [hF, hcntF])
            (by rw [hS, hcntS])
            rB
            (by rw [rI, ← hlen1])
            rF
            rS
          refine ⟨df', ?_, g1, g2, g3, g4, ?_, ?_, ?_, ?_⟩
          · simp only [addRowLoop, hvi, Option.bind_eq_bind, Option.some_bind,
              hcB, hcI, hcF, hcS, if_true, if_false, hga, hgv]
            exact g0
          · rw [g5]
          · rw [g6, hdf1b, take_succ_set df.intCols cn hcb, drop_succ_set]
            rw [drop_cons_of_get? hacol, drop_cons_of_get? hvv]
            simp [zipApp, List.append_assoc]
          · rw [g7]
          · rw [g8]
        · by_cases hf : ci.colType = ColTypeFloat
          ·
            simp [slotCheck, hb, hn, hf] at hslot
            obtain ⟨hveq, hslot'⟩ := hslot
            subst hveq
            have hcB : (ci.colType = ColTypeBool) = False := by
              simp [hf, ColTypeFloat, ColTypeBool]
            have hcI : (ci.colType = ColTypeInt) = False := by
              simp [hf, ColTypeFloat, ColTypeInt]
            have hcF : (ci.colType = ColTypeFloat) = True := by simp [hf]
            have hcS : (ci.colType = ColTypeString) = False := by
              simp [hf, ColTypeFloat, ColTypeString]
            have hcntB : countType (ci :: rest') ColTypeBool = countType rest' ColTypeBool := by
              rw [countType_cons]; simp [hf, ColTypeFloat, ColTypeBool]
            have hcntI : countType (ci :: rest') ColTypeInt = countType rest' ColTypeInt := by
              rw [countType_cons]; simp [hf, ColTypeFloat, ColTypeInt]
            have hcntF : countType (ci :: rest') ColTypeFloat = countType rest' ColTypeFloat + 1 := by
              rw [countType_cons]; simp [hf]
            have hcntS : countType (ci :: rest') ColTypeString = countType rest' ColTypeString := by
              rw [countType_cons]; simp [hf, ColTypeFloat, ColTypeString]
            have hcb : cf < df.floatCols.length := by rw [hF, hcntF]; omega
            obtain ⟨acol, hacol⟩ : ∃ a, df.floatCols.get? cf = some a :=
              ⟨df.floatCols.get ⟨cf, hcb⟩, List.get?_eq_get hcb⟩
            have hrlen : cf < row.rd.floatVals.length := by rw [rF]; exact hcb
            obtain ⟨v, hvv⟩ : ∃ v, row.rd.floatVals.get? cf = some v :=
              ⟨row.rd.floatVals.get ⟨cf, hrlen⟩, List.get?_eq_get hrlen⟩
            have hga : getI df.floatCols ((cf : Nat) : Int) = some acol := by
              rw [getI_natCast]; exact hacol
            have hgv : getI row.rd.floatVals ((cf : Nat) : Int) = some v := by
              rw [getI_natCast]; exact hvv
            set df1 : DF := { df with floatCols := setI df.floatCols ((cf : Nat) : Int) (acol ++ [v]) } with hdf1
            have hdf1b : df1.floatCols = df.floatCols.set cf (acol ++ [v]) := by
              rw [hdf1]; simp [setI_natCast]
            have hlen1 : df1.floatCols.length = df.floatCols.length := by
              rw [hdf1b, List.length_set]
            obtain ⟨df', g0, g1, g2, g3, g4, g5, g6, g7, g8⟩ := ih df1 row (cidx + 1) cb cn (cf + 1) cs
              hinfo1 (by rw [hvl1]; exact hslot')
              (by rw [hB, hcntB])
              (by rw [hI, hcntI])
              (by rw [hlen1, hF, hcntF]; omega)
              (by rw [hS, hcntS])
              rB
              rI
              (by rw [rF, ← hlen1])
              rS
            refine ⟨df', ?_, g1, g2, g3, g4, ?_, ?_, ?_, ?_⟩
            · simp only [addRowLoop, hvi, Option.bind_eq_bind, Option.some_bind,
                hcB, hcI, hcF, hcS, if_true, if_false, hga, hgv]
              exact g0
            · rw [g5]
            · rw [g6]
            · rw [g7, hdf1b, take_succ_set df.floatCols cf hcb, drop_succ_set]
              rw [drop_cons_of_get? hacol, drop_cons_of_get? hvv]
              simp [zipApp, List.append_assoc]
            · rw [g8]
          · by_cases ht : ci.colType = ColTypeString
            ·
              simp [slotCheck, hb, hn, hf, ht] at hslot
              obtain ⟨hveq, hslot'⟩ := hslot
              subst hveq
              have hcB : (ci.colType = ColTypeBool) = False := by
                simp [ht, ColTypeString, ColTypeBool]
              have hcI : (ci.colType = ColTypeInt) = False := by
                simp [ht, ColTypeString, ColTypeInt]
              have hcF : (ci.colType = ColTypeFloat) = False := by
                simp [ht, ColTypeString, ColTypeFloat]
              have hcS : (ci.colType = ColTypeString) = True := by simp [ht]
              have hcntB : countType (ci :: rest') ColTypeBool = countType rest' ColTypeBool := by
                rw [countType_cons]; simp [ht, ColTypeString, ColTypeBool]
              have hcntI : countType (ci :: rest') ColTypeInt = countType rest' ColTypeInt := by
                rw [countType_cons]; simp [ht, ColTypeString, ColTypeInt]
              have hcntF : countType (ci :: rest') ColTypeFloat = countType rest' ColTypeFloat := by
                rw [countType_cons]; simp [ht, ColTypeString, ColTypeFloat]
              have hcntS : countType (ci :: rest') ColTypeString = countType rest' ColTypeString + 1 := by
                rw [countType_cons]; simp [ht]
              have hcb : cs < df.stringCols.length := by rw [hS, hcntS]; omega
              obtain ⟨acol, hacol⟩ : ∃ a, df.stringCols.get? cs = some a :=
                ⟨df.stringCols.get ⟨cs, hcb⟩, List.get?_eq_get hcb⟩
              have hrlen : cs < row.rd.stringVals.length := by rw [rS]; exact hcb
              obtain ⟨v, hvv⟩ : ∃ v, row.rd.stringVals.get? cs = some v :=
                ⟨row.rd.stringVals.get ⟨cs, hrlen⟩, List.get?_eq_get hrlen⟩
              have hga : getI df.stringCols ((cs : Nat) : Int) = some acol := by
                rw [getI_natCast]; exact hacol
              have hgv : getI row.rd.stringVals ((cs : Nat) : Int) = some v := by
                rw [getI_natCast]; exact hvv
              set df1 : DF := { df with stringCols := setI df.stringCols ((cs : Nat) : Int) (acol ++ [v]) } with hdf1
              have hdf1b : df1.stringCols = df.stringCols.set cs (acol ++ [v]) := by
                rw [hdf1]; simp [setI_natCast]
              have hlen1 : df1.stringCols.length = df.stringCols.length := by
                rw [hdf1b, List.length_set]
              obtain ⟨df', g0, g1, g2, g3, g4, g5, g6, g7, g8⟩ := ih df1 row (cidx + 1) cb cn cf (cs + 1)
                hinfo1 (by rw [hvl1]; exact hslot')
                (by rw [hB, hcntB])
                (by rw [hI, hcntI])
                (by rw [hF, hcntF])
                (by rw [hlen1, hS, hcntS]; omega)
                rB
                rI
                rF
                (by rw [rS, ← hlen1])
              refine ⟨df', ?_, g1, g2, g3, g4, ?_, ?_, ?_, ?_⟩
              · simp only [addRowLoop, hvi, Option.bind_eq_bind, Option.some_bind,
                  hcB, hcI, hcF, hcS, if_true, if_false, hga, hgv]
                exact g0
              · rw [g5]
              · rw [g6]
              · rw [g7]
              · rw [g8, hdf1b, take_succ_set df.stringCols cs hcb, drop_succ_set]
                rw [drop_cons_of_get? hacol, drop_cons_of_get? hvv]
                simp [zipApp, List.append_assoc]
            · rw [slotCheck] at hslot
              simp [hb, hn, hf, ht] at hslot

end Dataframe

namespace Dataframe

/-- Appending row k to each truncated column extends the truncation. -/
theorem zipApp_map_take {α : Type} [Inhabited α] :
    ∀ (ls : List (List α)) (k : Nat), (∀ a ∈ ls, k < a.length) →
    zipApp (ls.map (fun a => a.take k)) (colAt (k : Int) ls) =
      ls.map (fun a => a.take (k + 1)) := by
  intro ls
  induction ls with
  | nil => intro k _; rfl
  | cons a rest ih =>
    intro k hk
    have ha : k < a.length := hk a (List.mem_cons_self _ _)
    have hv : getI a (k : Int) = some (a.get ⟨k, ha⟩) := by
      rw [getI_natCast]
      exact List.get?_eq_get ha
    simp only [colAt, List.map_cons, zipApp, List.zipWith_cons_cons]
    rw [hv]
    simp only [Option.getD_some]
    congr 1
    · rw [List.take_succ]
      simp [List.getElem?_eq_getElem ha, List.get_eq_getElem]
    · have hrest := ih k (fun b hb => hk b (List.mem_cons_of_mem _ hb))
      simpa [zipApp, colAt] using hrest

/-- On a well-formed store with at least one column, Row k for k < R is the
snapshot row: the store's registry plus, per type, the k-th entry of every
array. -/
theorem row_spec (df : DF) (R : Nat) (hwf : DFWF df R) (k : Nat) (hk : k < R)
    (hne : df.mci.info ≠ []) :
    df.Row (k : Int) = some
      { mci := df.mci,
        rd := { boolVals := colAt (k : Int) df.boolCols,
                intVals := colAt (k : Int) df.intCols,
                floatVals := colAt (k : Int) df.floatCols,
                stringVals := colAt (k : Int) df.stringCols } } := by
  have hwf' := hwf
  obtain ⟨hslot, hB, hI, hF, hS, aB, aI, aF, aS⟩ := hwf'
  obtain hrc | ⟨hi, _⟩ := rowCount_value df R hwf
  swap
  · exact absurd hi hne
  have hinB : ∀ a ∈ df.boolCols, (k : Int).toNat < a.length := by
    intro a ha
    have hlen : a.length = R := by simpa using List.all_eq_true.mp aB a ha
    omega
  have hinI : ∀ a ∈ df.intCols, (k : Int).toNat < a.length := by
    intro a ha
    have hlen : a.length = R := by simpa using List.all_eq_true.mp aI a ha
    omega
  have hinF : ∀ a ∈ df.floatCols, (k : Int).toNat < a.length := by
    intro a ha
    have hlen : a.length = R := by simpa using List.all_eq_true.mp aF a ha
    omega
  have hinS : ∀ a ∈ df.stringCols, (k : Int).toNat < a.length := by
    intro a ha
    have hlen : a.length = R := by simpa using List.all_eq_true.mp aS a ha
    omega
  obtain ⟨rd', g0, g1, g2, g3, g4⟩ := rowFill_spec df.mci.info df (k : Int) 0 0 0 0 0 {}
    (List.drop_zero _) (by rw [List.drop_zero]; exact hslot)
    (by rw [Nat.zero_add]; exact hB) (by rw [Nat.zero_add]; exact hI)
    (by rw [Nat.zero_add]; exact hF) (by rw [Nat.zero_add]; exact hS)
    (by positivity) hinB hinI hinF hinS
  unfold DF.Row
  rw [hrc]
  have hguard : ¬ ((k : Int) < 0 ∨ (R : Int) ≤ (k : Int)) := by
    push_neg
    constructor <;> [positivity; exact_mod_cast hk]
  simp only [Option.bind_eq_bind, Option.some_bind, if_neg hguard]
  rw [g0]
  simp only [Option.some_bind]
  simp only [List.drop_zero] at g1 g2 g3 g4
  obtain ⟨bv, iv, fv, sv⟩ := rd'
  dsimp only at g1 g2 g3 g4
  subst g1 g2 g3 g4
  simp only [Option.pure_def, Option.some_bind, if_neg hguard, List.nil_append]
  rfl

/-- The body of the round trip: starting from the k-row truncation, feeding
rows k..R-1 back reconstructs the R-row truncation. -/
theorem roundTripAux_range (df : DF) (R : Nat) (hwf : DFWF df R)
    (hne : df.mci.info ≠ []) :
    ∀ (m k : Nat) (acc : DF), k + m = R →
    acc.mci = df.mci →
    acc.boolCols = df.boolCols.map (fun a => a.take k) →
    acc.intCols = df.intCols.map (fun a => a.take k) →
    acc.floatCols = df.floatCols.map (fun a => a.take k) →
    acc.stringCols = df.stringCols.map (fun a => a.take k) →
    ∃ res, roundTripAux df acc ((List.range' k m).map (fun (j : Nat) => (j : Int))) =
        some (.ok res) ∧
      res.mci = df.mci ∧
      res.boolCols = df.boolCols.map (fun a => a.take R) ∧
      res.intCols = df.intCols.map (fun a => a.take R) ∧
      res.floatCols = df.floatCols.map (fun a => a.take R) ∧
      res.stringCols = df.stringCols.map (fun a => a.take R) := by
  have hwf' := hwf
  obtain ⟨hslot, hB, hI, hF, hS, aB, aI, aF, aS⟩ := hwf'
  intro m
  induction m with
  | zero =>
    intro k acc hkm h0 h1 h2 h3 h4
    have hkR : k = R := by omega
    subst hkR
    exact ⟨acc, rfl, h0, h1, h2, h3, h4⟩
  | succ m' ih =>
    intro k acc hkm h0 h1 h2 h3 h4
    have hkR : k < R := by omega
    have hrow := row_spec df R hwf k hkR hne
    have hinB : ∀ a ∈ df.boolCols, k < a.length := by
      intro a ha
      have := List.all_eq_true.mp aB a ha
      simp at this
      omega
    have hinI : ∀ a ∈ df.intCols, k < a.length := by
      intro a ha
      have := List.all_eq_true.mp aI a ha
      simp at this
      omega
    have hinF : ∀ a ∈ df.floatCols, k < a.length := by
      intro a ha
      have := List.all_eq_true.mp aF a ha
      simp at this
      omega
    have hinS : ∀ a ∈ df.stringCols, k < a.length := by
      intro a ha
      have := List.all_eq_true.mp aS a ha
      simp at this
      omega
    set r : Row :=
      { mci := df.mci,
        rd := { boolVals := colAt (k : Int) df.boolCols,
                intVals := colAt (k : Int) df.intCols,
                floatVals := colAt (k : Int) df.floatCols,
                stringVals := colAt (k : Int) df.stringCols } } with hr
    obtain ⟨df'', g0, g1, g2, g3, g4, g5, g6, g7, g8⟩ :=
      addRowLoop_spec acc.mci.info acc r 0 0 0 0 0
        (List.drop_zero _)
        (by rw [List.drop_zero, h0]; exact hslot)
        (by rw [Nat.zero_add, h0, h1, List.length_map]; exact hB)
        (by rw [Nat.zero_add, h0, h2, List.length_map]; exact hI)
        (by rw [Nat.zero_add, h0, h3, List.length_map]; exact hF)
        (by rw [Nat.zero_add, h0, h4, List.length_map]; exact hS)
        (by rw [hr, h1]; simp [colAt])
        (by rw [hr, h2]; simp [colAt])
        (by rw [hr, h3]; simp [colAt])
        (by rw [hr, h4]; simp [colAt])
    have hadd : acc.AddRow r = some (.ok df'') := by
      have hm : acc.mci.Match r.mci = some none := by
        rw [hr, h0]
        exact match_self df.mci
      unfold DF.AddRow
      rw [hm]
      show (addRowLoop r acc acc.mci.info 0).map Except.ok = some (.ok df'')
      rw [g0]
      rfl
    obtain ⟨res, f0, f1, f2, f3, f4, f5⟩ := ih (k + 1) df'' (by omega)
      (g1.trans h0)
      (by
        rw [g5, h1]
        simp only [List.take_zero, List.drop_zero, List.nil_append, hr]
        exact zipApp_map_take df.boolCols k hinB)
      (by
        rw [g6, h2]
        simp only [List.take_zero, List.drop_zero, List.nil_append, hr]
        exact zipApp_map_take df.intCols k hinI)
      (by
        rw [g7, h3]
        simp only [List.take_zero, List.drop_zero, List.nil_append, hr]
        exact zipApp_map_take df.floatCols k hinF)
      (by
        rw [g8, h4]
        simp only [List.take_zero, List.drop_zero, List.nil_append, hr]
        exact zipApp_map_take df.stringCols k hinS)
    refine ⟨res, ?_, f1, f2, f3, f4, f5⟩
    rw [List.range'_succ, List.map_cons]
    simp only [roundTripAux, hrow, hadd]
    exact f0

end Dataframe


namespace Dataframe

/-! ### Building a well-formed store (claim C5): SetColTypes -/

theorem take_set_self {α : Type} : ∀ (l : List α) (i : Nat) (a : α),
    (l.set i a).take i = l.take i := by
  intro l
  induction l with
  | nil => intro i a; cases i <;> rfl
  | cons x xs ih =>
    intro i a
    cases i with
    | zero => rfl
    | succ j => simp [List.take_succ_cons, ih]

theorem get?_set_self {α : Type} : ∀ (l : List α) (i : Nat) (a : α), i < l.length →
    (l.set i a).get? i = some a := by
  intro l
  induction l with
  | nil => intro i a h; simp at h
  | cons x xs ih =>
    intro i a h
    cases i with
    | zero => rfl
    | succ j => simpa using ih j a (by simpa using h)

/-- slotCheck splits over an append: the right part is checked with the
counters advanced by the left part's per-type counts. -/
theorem slotCheck_append : ∀ (l1 : List ColInfo) (v1 : List Int)
    (l2 : List ColInfo) (v2 : List Int) (cb cn cf cs : Nat),
    l1.length = v1.length →
    slotCheck (l1 ++ l2) (v1 ++ v2) cb cn cf cs =
      (slotCheck l1 v1 cb cn cf cs &&
       slotCheck l2 v2 (cb + countType l1 ColTypeBool)
         (cn + countType l1 ColTypeInt) (cf + countType l1 ColTypeFloat)
         (cs + countType l1 ColTypeString)) := by
  intro l1
  induction l1 with
  | nil =>
    intro v1 l2 v2 cb cn cf cs h
    cases v1 with
    | nil => simp [slotCheck, countType]
    | cons v vs => simp at h
  | cons ci rest ih =>
    intro v1 l2 v2 cb cn cf cs h
    cases v1 with
    | nil => simp at h
    | cons v vs =>
      have h' : rest.length = vs.length := by simpa using h
      simp only [List.cons_append, slotCheck, countType_cons, List.append_eq]
      by_cases hb : ci.colType = ColTypeBool
      · simp only [if_pos hb]
        rw [ih vs l2 v2 (cb + 1) cn cf cs h']
        have e1 : cb + 1 + countType rest (1 : Nat) =
            cb + (countType rest (1 : Nat) + 1) := by omega
        simp [hb, e1, Bool.and_assoc, ColTypeBool, ColTypeInt, ColTypeFloat,
          ColTypeString]
      · by_cases hn : ci.colType = ColTypeInt
        · simp only [if_neg hb, if_pos hn]
          rw [ih vs l2 v2 cb (cn + 1) cf cs h']
          have e1 : cn + 1 + countType rest (2 : Nat) =
              cn + (countType rest (2 : Nat) + 1) := by omega
          simp [hn, e1, Bool.and_assoc, ColTypeBool, ColTypeInt, ColTypeFloat,
            ColTypeString]
        · by_cases hf : ci.colType = ColTypeFloat
          · simp only [if_neg hb, if_neg hn, if_pos hf]
            rw [ih vs l2 v2 cb cn (cf + 1) cs h']
            have e1 : cf + 1 + countType rest (3 : Nat) =
                cf + (countType rest (3 : Nat) + 1) := by omega
            simp [hf, e1, Bool.and_assoc, ColTypeBool, ColTypeInt,
              ColTypeFloat, ColTypeString]
          · by_cases hs : ci.colType = ColTypeString
            · simp only [if_neg hb, if_neg hn, if_neg hf, if_pos hs]
              rw [ih vs l2 v2 cb cn cf (cs + 1) h']
              have e1 : cs + 1 + countType rest (4 : Nat) =
                  cs + (countType rest (4 : Nat) + 1) := by omega
              simp [hs, e1, Bool.and_assoc, ColTypeBool, ColTypeInt,
                ColTypeFloat, ColTypeString]
            · simp [if_neg hb, if_neg hn, if_neg hf, if_neg hs]

/-- The assignment loop of `SetColTypes` builds a well-formed empty store:
from a correct prefix (slots allocated for the first `i` columns, arrays
empty and counted), it succeeds and yields a store satisfying `DFWF · 0`,
leaving the error state and the name map untouched. -/
theorem setTypesApply_wf : ∀ (rest : List ColType) (df : DF) (i : Nat),
    (∀ t ∈ rest, IsConcrete t) →
    df.mci.valIdx.length = i →
    df.mci.info.length = i + rest.length →
    slotCheck (df.mci.info.take i) df.mci.valIdx 0 0 0 0 = true →
    df.boolCols.length = countType (df.mci.info.take i) ColTypeBool →
    df.intCols.length = countType (df.mci.info.take i) ColTypeInt →
    df.floatCols.length = countType (df.mci.info.take i) ColTypeFloat →
    df.stringCols.length = countType (df.mci.info.take i) ColTypeString →
    allLen 0 df.boolCols = true → allLen 0 df.intCols = true →
    allLen 0 df.floatCols = true → allLen 0 df.stringCols = true →
    ∃ df', setTypesApply df rest i = some df' ∧ DFWF df' 0 ∧
      df'.errors = df.errors ∧ df'.errCount = df.errCount ∧
      df'.maxErrors = df.maxErrors ∧ df'.mci.nameToCol = df.mci.nameToCol := by
  intro rest
  induction rest with
  | nil =>
    intro df i hconc hv hlen hslot cB cI cF cS aB aI aF aS
    have htake : df.mci.info.take i = df.mci.info :=
      List.take_of_length_le (by simp at hlen; omega)
    rw [htake] at hslot cB cI cF cS
    exact ⟨df, rfl, ⟨hslot, cB, cI, cF, cS, aB, aI, aF, aS⟩, rfl, rfl, rfl, rfl⟩
  | cons t rest' ih =>
    intro df i hconc hv hlen hslot cB cI cF cS aB aI aF aS
    have hconc' : ∀ u ∈ rest', IsConcrete u :=
      fun u hu => hconc u (List.mem_cons_of_mem _ hu)
    have hconct : IsConcrete t := hconc t (List.mem_cons_self _ _)
    have hlen' : df.mci.info.length = i + rest'.length + 1 := by
      simp only [List.length_cons] at hlen
      omega
    have hi' : i < df.mci.info.length := by omega
    obtain ⟨ci, hci⟩ : ∃ ci, df.mci.info.get? i = some ci := by
      rw [List.get?_eq_get hi']
      exact ⟨_, rfl⟩
    have hget' : (df.mci.info.set i { ci with colType := t }).get? i =
        some { ci with colType := t } := get?_set_self _ i _ hi'
    have hg : (df.mci.info.set i { ci with colType := t })[i]? =
        some { ci with colType := t } := by
      rw [← List.get?_eq_getElem?]
      exact hget'
    have htk : (df.mci.info.set i { ci with colType := t }).take (i + 1) =
        df.mci.info.take i ++ [{ ci with colType := t }] := by
      rw [List.take_succ, take_set_self, hg]
      rfl
    have hl1 : (df.mci.info.take i).length = df.mci.valIdx.length := by
      rw [List.length_take, hv]
      omega
    rcases hconct with ht | ht | ht | ht
    · -- t = ColTypeBool
      have hsi : DF.setIdx { df with mci := { df.mci with
            info := df.mci.info.set i { ci with colType := t } } } i = some
          { df with
            boolCols := df.boolCols ++ [[]],
            mci := { df.mci with
              info := df.mci.info.set i { ci with colType := t },
              valIdx := df.mci.valIdx ++ [(df.boolCols.length : Int)] } } := by
        unfold DF.setIdx
        rw [hget']
        simp [ht, ColTypeUnknown, ColTypeBool]
      obtain ⟨df', e0, ewf, e1, e2, e3, e4⟩ :=
        ih { df with
              boolCols := df.boolCols ++ [[]],
              mci := { df.mci with
                info := df.mci.info.set i { ci with colType := t },
                valIdx := df.mci.valIdx ++ [(df.boolCols.length : Int)] } }
          (i + 1) hconc'
          (by simp [hv])
          (by simp only [List.length_set, hlen']; omega)
          (by
            rw [htk, slotCheck_append _ _ _ _ 0 0 0 0 hl1, hslot]
            simp [slotCheck, ht, ColTypeBool, ColTypeInt, ColTypeFloat,
              ColTypeString, cB])
          (by
            rw [htk]
            simp only [List.length_append, List.length_cons, List.length_nil]
            simp [countType, List.filter_append, ht, ColTypeBool, cB])
          (by
            rw [htk]
            simp [countType, List.filter_append, ht, ColTypeBool, ColTypeInt, cI])
          (by
            rw [htk]
            simp [countType, List.filter_append, ht, ColTypeBool, ColTypeFloat, cF])
          (by
            rw [htk]
            simp [countType, List.filter_append, ht, ColTypeBool, ColTypeString, cS])
          (by
            unfold allLen at aB ⊢
            rw [List.all_append, aB]
            rfl)
          aI
          aF
          aS
      refine ⟨df', ?_, ewf, e1, e2, e3, e4⟩
      simp only [setTypesApply, hci]
      rw [hsi]
      exact e0
    · -- t = ColTypeInt
      have hsi : DF.setIdx { df with mci := { df.mci with
            info := df.mci.info.set i { ci with colType := t } } } i = some
          { df with
            intCols := df.intCols ++ [[]],
            mci := { df.mci with
              info := df.mci.info.set i { ci with colType := t },
              valIdx := df.mci.valIdx ++ [(df.intCols.length : Int)] } } := by
        unfold DF.setIdx
        rw [hget']
        simp [ht, ColTypeUnknown, ColTypeBool, ColTypeInt]
      obtain ⟨df', e0, ewf, e1, e2, e3, e4⟩ :=
        ih { df with
              intCols := df.intCols ++ [[]],
              mci := { df.mci with
                info := df.mci.info.set i { ci with colType := t },
                valIdx := df.mci.valIdx ++ [(df.intCols.length : Int)] } }
          (i + 1) hconc'
          (by simp [hv])
          (by simp only [List.length_set, hlen']; omega)
          (by
            rw [htk, slotCheck_append _ _ _ _ 0 0 0 0 hl1, hslot]
            simp [slotCheck, ht, ColTypeBool, ColTypeInt, ColTypeFloat,
              ColTypeString, cI])
          (by
            rw [htk]
            simp [countType, List.filter_append, ht, ColTypeInt, ColTypeBool, cB])
          (by
            rw [htk]
            simp only [List.length_append, List.length_cons, List.length_nil]
            simp [countType, List.filter_append, ht, ColTypeInt, cI])
          (by
            rw [htk]
            simp [countType, List.filter_append, ht, ColTypeInt, ColTypeFloat, cF])
          (by
            rw [htk]
            simp [countType, List.filter_append, ht, ColTypeInt, ColTypeString, cS])
          aB
          (by
            unfold allLen at aI ⊢
            rw [List.all_append, aI]
            rfl)
          aF
          aS
      refine ⟨df', ?_, ewf, e1, e2, e3, e4⟩
      simp only [setTypesApply, hci]
      rw [hsi]
      exact e0
    · -- t = ColTypeFloat
      have hsi : DF.setIdx { df with mci := { df.mci with
            info := df.mci.info.set i { ci with colType := t } } } i = some
          { df with
            floatCols := df.floatCols ++ [[]],
            mci := { df.mci with
              info := df.mci.info.set i { ci with colType := t },
              valIdx := df.mci.valIdx ++ [(df.floatCols.length : Int)] } } := by
        unfold DF.setIdx
        rw [hget']
        simp [ht, ColTypeUnknown, ColTypeBool, ColTypeInt, ColTypeFloat]
      obtain ⟨df', e0, ewf, e1, e2, e3, e4⟩ :=
        ih { df with
              floatCols := df.floatCols ++ [[]],
              mci := { df.mci with
                info := df.mci.info.set i { ci with colType := t },
                valIdx := df.mci.valIdx ++ [(df.floatCols.length : Int)] } }
          (i + 1) hconc'
          (by simp [hv])
          (by simp only [List.length_set, hlen']; omega)
          (by
            rw [htk, slotCheck_append _ _ _ _ 0 0 0 0 hl1, hslot]
            simp [slotCheck, ht, ColTypeBool, ColTypeInt, ColTypeFloat,
              ColTypeString, cF])
          (by
            rw [htk]
            simp [countType, List.filter_append, ht, ColTypeFloat, ColTypeBool, cB])
          (by
            rw [htk]
            simp [countType, List.filter_append, ht, ColTypeFloat, ColTypeInt, cI])
          (by
            rw [htk]
            simp only [List.length_append, List.length_cons, List.length_nil]
            simp [countType, List.filter_append, ht, ColTypeFloat, cF])
          (by
            rw [htk]
            simp [countType, List.filter_append, ht, ColTypeFloat, ColTypeString, cS])
          aB
          aI
          (by
            unfold allLen at aF ⊢
            rw [List.all_append, aF]
            rfl)
          aS
      refine ⟨df', ?_, ewf, e1, e2, e3, e4⟩
      simp only [setTypesApply, hci]
      rw [hsi]
      exact e0
    · -- t = ColTypeString
      have hsi : DF.setIdx { df with mci := { df.mci with
            info := df.mci.info.set i { ci with colType := t } } } i = some
          { df with
            stringCols := df.stringCols ++ [[]],
            mci := { df.mci with
              info := df.mci.info.set i { ci with colType := t },
              valIdx := df.mci.valIdx ++ [(df.stringCols.length : Int)] } } := by
        unfold DF.setIdx
        rw [hget']
        simp [ht, ColTypeUnknown, ColTypeBool, ColTypeInt, ColTypeFloat, ColTypeString]
      obtain ⟨df', e0, ewf, e1, e2, e3, e4⟩ :=
        ih { df with
              stringCols := df.stringCols ++ [[]],
              mci := { df.mci with
                info := df.mci.info.set i { ci with colType := t },
                valIdx := df.mci.valIdx ++ [(df.stringCols.length : Int)] } }
          (i + 1) hconc'
          (by simp [hv])
          (by simp only [List.length_set, hlen']; omega)
          (by
            rw [htk, slotCheck_append _ _ _ _ 0 0 0 0 hl1, hslot]
            simp [slotCheck, ht, ColTypeBool, ColTypeInt, ColTypeFloat,
              ColTypeString, cS])
          (by
            rw [htk]
            simp [countType, List.filter_append, ht, ColTypeString, ColTypeBool, cB])
          (by
            rw [htk]
            simp [countType, List.filter_append, ht, ColTypeString, ColTypeInt, cI])
          (by
            rw [htk]
            simp [countType, List.filter_append, ht, ColTypeString, ColTypeFloat, cF])
          (by
            rw [htk]
            simp only [List.length_append, List.length_cons, List.length_nil]
            simp [countType, List.filter_append, ht, ColTypeString, cS])
          aB
          aI
          aF
          (by
            unfold allLen at aS ⊢
            rw [List.all_append, aS]
            rfl)
      refine ⟨df', ?_, ewf, e1, e2, e3, e4⟩
      simp only [setTypesApply, hci]
      rw [hsi]
      exact e0

end Dataframe

namespace Dataframe

/-- A successful SetColNames never touches the slot list or the data
arrays: only descriptors and the name map change. -/
theorem setColNames_frame (df df1 : DF) (names : List String)
    (h : df.SetColNames names = (df1, none)) :
    df1.mci.valIdx = df.mci.valIdx ∧ df1.boolCols = df.boolCols ∧
    df1.intCols = df.intCols ∧ df1.floatCols = df.floatCols ∧
    df1.stringCols = df.stringCols := by
  simp only [DF.SetColNames] at h
  by_cases hn0 : names.length = 0
  · rw [if_pos hn0] at h
    exact absurd (congrArg Prod.snd h) (by simp)
  · rw [if_neg hn0] at h
    by_cases hz : df.mci.info.length = 0
    · rw [if_pos hz] at h
      rw [if_neg (show ¬(({ df with mci := { df.mci with
          info := List.replicate names.length ({} : ColInfo) } } : DF).mci.info.length ≠
          names.length) from by simp)] at h
      cases hdup : dupCheckLoop [] names 0 with
      | error e =>
        simp only [hdup] at h
        exact absurd (congrArg Prod.snd h) (by simp)
      | ok m =>
        simp only [hdup] at h
        have h1 := congrArg Prod.fst h
        dsimp only at h1
        rw [← h1]
        exact ⟨rfl, rfl, rfl, rfl, rfl⟩
    · rw [if_neg hz] at h
      by_cases hll : df.mci.info.length ≠ names.length
      · rw [if_pos hll] at h
        exact absurd (congrArg Prod.snd h) (by simp)
      · rw [if_neg hll] at h
        cases hdup : dupCheckLoop [] names 0 with
        | error e =>
          simp only [hdup] at h
          exact absurd (congrArg Prod.snd h) (by simp)
        | ok m =>
          simp only [hdup] at h
          have h1 := congrArg Prod.fst h
          dsimp only at h1
          rw [← h1]
          exact ⟨rfl, rfl, rfl, rfl, rfl⟩

/-- A successful SetColTypes with concrete types, on a store with no slots
and no data yet, yields a well-formed empty store. -/
theorem setColTypes_wf (df1 df2 : DF) (types : List ColType)
    (hv : df1.mci.valIdx = []) (hb : df1.boolCols = []) (hn : df1.intCols = [])
    (hf : df1.floatCols = []) (hs : df1.stringCols = [])
    (hconc : ∀ t ∈ types, IsConcrete t)
    (h2 : df1.SetColTypes types = some (df2, none)) :
    DFWF df2 0 := by
  simp only [DF.SetColTypes] at h2
  by_cases h0 : types.length = 0
  · rw [if_pos h0] at h2
    simp at h2
  · rw [if_neg h0] at h2
    cases hval : setTypesValidate types 0 with
    | some e =>
      simp only [hval] at h2
      simp at h2
    | none =>
      simp only [hval] at h2
      by_cases hz : df1.mci.info.length = 0
      · rw [if_pos hz] at h2
        rw [if_neg (show ¬(({ df1 with mci := { df1.mci with
            info := List.replicate types.length ({} : ColInfo) } } : DF).mci.info.length ≠
            types.length) from by simp)] at h2
        obtain ⟨d, hd, hd2⟩ : ∃ d, setTypesApply { df1 with mci := { df1.mci with
            info := List.replicate types.length ({} : ColInfo) } } types 0 = some d ∧
            d = df2 := by
          cases hsta : setTypesApply { df1 with mci := { df1.mci with
              info := List.replicate types.length ({} : ColInfo) } } types 0 with
          | none => rw [hsta] at h2; simp at h2
          | some d =>
            rw [hsta] at h2
            simp at h2
            exact ⟨d, rfl, h2⟩
        obtain ⟨df', e0, ewf, _, _, _, _⟩ :=
          setTypesApply_wf types { df1 with mci := { df1.mci with
              info := List.replicate types.length ({} : ColInfo) } } 0 hconc
            (by simp [hv]) (by simp)
            (by simp [hv, slotCheck])
            (by simp [hb, countType]) (by simp [hn, countType])
            (by simp [hf, countType]) (by simp [hs, countType])
            (by simp [hb, allLen]) (by simp [hn, allLen])
            (by simp [hf, allLen]) (by simp [hs, allLen])
        have hq : df' = df2 := by
          rw [e0] at hd
          injection hd with hh
          exact hh.trans hd2
        exact hq ▸ ewf
      · rw [if_neg hz] at h2
        by_cases hll : df1.mci.info.length ≠ types.length
        · rw [if_pos hll] at h2
          simp at h2
        · rw [if_neg hll] at h2
          obtain ⟨d, hd, hd2⟩ : ∃ d, setTypesApply df1 types 0 = some d ∧ d = df2 := by
            cases hsta : setTypesApply df1 types 0 with
            | none => rw [hsta] at h2; simp at h2
            | some d =>
              rw [hsta] at h2
              simp at h2
              exact ⟨d, rfl, h2⟩
          obtain ⟨df', e0, ewf, _, _, _, _⟩ :=
            setTypesApply_wf types df1 0 hconc
              (by simp [hv]) (by omega)
              (by simp [hv, slotCheck])
              (by simp [hb, countType]) (by simp [hn, countType])
              (by simp [hf, countType]) (by simp [hs, countType])
              (by simp [hb, allLen]) (by simp [hn, allLen])
              (by simp [hf, allLen]) (by simp [hs, allLen])
          have hq : df' = df2 := by
            rw [e0] at hd
            injection hd with hh
            exact hh.trans hd2
          exact hq ▸ ewf

end Dataframe

namespace Dataframe

/-- AddRowFromText preserves well-formedness and the registry: the
mismatch branch leaves the arrays at length R, the matching branch
extends every array to R + 1. -/
theorem addRowFromText_wf (df : DF) (R : Nat) (cols : List String) (hwf : DFWF df R) :
    ∃ df' R', df.AddRowFromText cols = some df' ∧ df'.mci = df.mci ∧ DFWF df' R' := by
  obtain ⟨hslot, hB, hI, hF, hS, aB, aI, aF, aS⟩ := hwf
  by_cases heq' : cols.length = df.mci.info.length
  · obtain ⟨df', g0, g1, g2, g3, g4, g5, g6, g7⟩ :=
      addRFTLoop_spec df.mci.info df cols 0 0 0 0 0
        (List.drop_zero _)
        (by rw [List.drop_zero]; exact hslot)
        heq'
        (by rw [Nat.zero_add]; exact hB)
        (by rw [Nat.zero_add]; exact hI)
        (by rw [Nat.zero_add]; exact hF)
        (by rw [Nat.zero_add]; exact hS)
        (by
          intro d k1 k2 k3 k4 k5
          exact rowCount_some d (by rw [k1]; exact hslot)
            (by rw [k2, k1]; exact hB) (by rw [k3, k1]; exact hI)
            (by rw [k4, k1]; exact hF) (by rw [k5, k1]; exact hS))
    have hlens := parsedRowVals_lengths (df.mci.info.zip cols)
    have hmapfst : (df.mci.info.zip cols).map Prod.fst = df.mci.info :=
      List.map_fst_zip _ _ (le_of_eq heq'.symm)
    rw [hmapfst] at hlens
    obtain ⟨l1, l2, l3, l4⟩ := hlens
    have zB := zipApp_allLen df.boolCols
      (parsedRowVals (df.mci.info.zip cols)).boolVals R aB (by rw [l1, hB])
    have zI := zipApp_allLen df.intCols
      (parsedRowVals (df.mci.info.zip cols)).intVals R aI (by rw [l2, hI])
    have zF := zipApp_allLen df.floatCols
      (parsedRowVals (df.mci.info.zip cols)).floatVals R aF (by rw [l3, hF])
    have zS := zipApp_allLen df.stringCols
      (parsedRowVals (df.mci.info.zip cols)).stringVals R aS (by rw [l4, hS])
    refine ⟨df', R + 1, ?_, g1, ?_⟩
    · unfold DF.AddRowFromText
      rw [if_neg (by simp [heq'])]
      exact g0
    · refine ⟨by rw [g1]; exact hslot, ?_, ?_, ?_, ?_, ?_, ?_, ?_, ?_⟩
      · rw [g3, g1]
        simp only [List.take_zero, List.drop_zero, List.nil_append]
        rw [zB.2, hB]
      · rw [g4, g1]
        simp only [List.take_zero, List.drop_zero, List.nil_append]
        rw [zI.2, hI]
      · rw [g5, g1]
        simp only [List.take_zero, List.drop_zero, List.nil_append]
        rw [zF.2, hF]
      · rw [g6, g1]
        simp only [List.take_zero, List.drop_zero, List.nil_append]
        rw [zS.2, hS]
      · rw [g3]
        simp only [List.take_zero, List.drop_zero, List.nil_append]
        exact zB.1
      · rw [g4]
        simp only [List.take_zero, List.drop_zero, List.nil_append]
        exact zI.1
      · rw [g5]
        simp only [List.take_zero, List.drop_zero, List.nil_append]
        exact zF.1
      · rw [g6]
        simp only [List.take_zero, List.drop_zero, List.nil_append]
        exact zS.1
  · obtain ⟨m1, b1, i1, f1, s1, x1, e1⟩ :=
      addError_fields df (.rowColCountMismatch df.mci.info.length cols.length)
    refine ⟨df.addError (.rowColCountMismatch df.mci.info.length cols.length), R,
      ?_, m1, ?_⟩
    · unfold DF.AddRowFromText
      rw [if_pos heq']
    · exact ⟨by rw [m1]; exact hslot,
        by rw [b1, m1]; exact hB, by rw [i1, m1]; exact hI,
        by rw [f1, m1]; exact hF, by rw [s1, m1]; exact hS,
        by rw [b1]; exact aB, by rw [i1]; exact aI,
        by rw [f1]; exact aF, by rw [s1]; exact aS⟩

/-- AddRowsFromText preserves well-formedness. -/
theorem addRowsFromText_wf : ∀ (lines : List (List String)) (df : DF) (R : Nat),
    DFWF df R → ∀ df', df.AddRowsFromText lines = some df' →
    ∃ R', DFWF df' R' := by
  intro lines
  induction lines with
  | nil =>
    intro df R hwf df' h
    obtain rfl : df = df' := by simpa [DF.AddRowsFromText] using h
    exact ⟨R, hwf⟩
  | cons r rest ih =>
    intro df R hwf df' h
    obtain ⟨dfm, Rm, g0, g1, gwf⟩ := addRowFromText_wf df R r hwf
    simp only [DF.AddRowsFromText, g0] at h
    exact ih dfm Rm gwf df' h

/-- Truncating every array at its own length is the identity. -/
theorem map_take_of_allLen {α : Type} : ∀ (ls : List (List α)) (R : Nat),
    allLen R ls = true → ls.map (fun a => a.take R) = ls := by
  intro ls
  induction ls with
  | nil => intro R _; rfl
  | cons a rest ih =>
    intro R h
    simp only [allLen, List.all_cons, Bool.and_eq_true, decide_eq_true_eq] at h
    simp only [List.map_cons]
    rw [List.take_of_length_le (le_of_eq h.1), ih R h.2]

/-- On every well-formed store, the round trip succeeds and reproduces the
registry and every column array. -/
theorem roundTrip_spec (df : DF) (R : Nat) (hwf : DFWF df R) :
    ∃ res, roundTrip df = some (.ok res) ∧ res.mci = df.mci ∧
      res.boolCols = df.boolCols ∧ res.intCols = df.intCols ∧
      res.floatCols = df.floatCols ∧ res.stringCols = df.stringCols := by
  obtain ⟨hslot, hB, hI, hF, hS, aB, aI, aF, aS⟩ := hwf
  by_cases hne : df.mci.info = []
  · rw [hne] at hslot hB hI hF hS
    have hv : df.mci.valIdx = [] := by
      cases hv : df.mci.valIdx with
      | nil => rfl
      | cons x xs => rw [hv] at hslot; exact absurd hslot (by simp [slotCheck])
    have hb : df.boolCols = [] :=
      List.eq_nil_of_length_eq_zero (by simpa [countType] using hB)
    have hn2 : df.intCols = [] :=
      List.eq_nil_of_length_eq_zero (by simpa [countType] using hI)
    have hf2 : df.floatCols = [] :=
      List.eq_nil_of_length_eq_zero (by simpa [countType] using hF)
    have hs2 : df.stringCols = [] :=
      List.eq_nil_of_length_eq_zero (by simpa [countType] using hS)
    refine ⟨df.Clone, ?_, rfl, ?_, ?_, ?_, ?_⟩
    · unfold roundTrip
      have hrc : df.RowCount = some 0 := by
        unfold DF.RowCount
        rw [hv]
        rfl
      rw [hrc]
      rfl
    · simp [DF.Clone, hb]
    · simp [DF.Clone, hn2]
    · simp [DF.Clone, hf2]
    · simp [DF.Clone, hs2]
  · obtain hrc | ⟨hi, _⟩ := rowCount_value df R
      ⟨hslot, hB, hI, hF, hS, aB, aI, aF, aS⟩
    swap
    · exact absurd hi hne
    obtain ⟨res, f0, f1, f2, f3, f4, f5⟩ :=
      roundTripAux_range df R ⟨hslot, hB, hI, hF, hS, aB, aI, aF, aS⟩ hne R 0 df.Clone
        (by omega) rfl
        (by simp [DF.Clone, List.take_zero])
        (by simp [DF.Clone, List.take_zero])
        (by simp [DF.Clone, List.take_zero])
        (by simp [DF.Clone, List.take_zero])
    refine ⟨res, ?_, f1,
      by rw [f2, map_take_of_allLen _ _ aB],
      by rw [f3, map_take_of_allLen _ _ aI],
      by rw [f4, map_take_of_allLen _ _ aF],
      by rw [f5, map_take_of_allLen _ _ aS]⟩
    unfold roundTrip
    rw [hrc]
    have hint : intRange ((R : Nat) : Int) =
        (List.range' 0 R).map (fun (j : Nat) => (j : Int)) := by
      unfold intRange
      rw [Int.toNat_natCast, List.range_eq_range']
    show roundTripAux df df.Clone (intRange ((R : Nat) : Int)) = some (.ok res)
    rw [hint]
    exact f0

end Dataframe

namespace Dataframe

/-- A store built as in claim C5: names, then one column of each step. -/
def dfC5ex0 : DF := { maxErrors := 500 }

/-- The C5 example after SetColNames. -/
def dfC5ex1 : DF := (dfC5ex0.SetColNames ["a", "b"]).1

/-- The C5 example after SetColTypes. -/
def dfC5ex2 : DF :=
  match dfC5ex1.SetColTypes [ColTypeInt, ColTypeString] with
  | some (d, _) => d
  | none => dfC5ex1

/-- The C5 example after ingesting two well-formed lines. -/
def dfC5ex : DF :=
  match dfC5ex2.AddRowsFromText [["5", "x"], ["-12", "y"]] with
  | some d => d
  | none => dfC5ex2

/-- Claim C5: for every store built with explicit names and types (NewDF,
a successful SetColNames, a successful SetColTypes with concrete types)
from well-formed lines via AddRowsFromText with no recorded errors, the
round trip — extracting every row i in [0, RowCount) with Row and
appending it via AddRow into the store's Clone — succeeds (no AddRow
returns an error, nothing panics) and reproduces the identical store:
the same registry and, for every column, the same sequence of values. -/
theorem claim_C5_round_trip (names : List String) (types : List ColType)
    (lines : List (List String)) (df0 df1 df2 df : DF)
    (h0 : NewDF [] = .ok df0)
    (h1 : df0.SetColNames names = (df1, none))
    (h2 : df1.SetColTypes types = some (df2, none))
    (hconc : ∀ t ∈ types, IsConcrete t)
    (h3 : df2.AddRowsFromText lines = some df)
    (herr : df.errCount = 0) :
    ∃ res, roundTrip df = some (.ok res) ∧ res.mci = df.mci ∧
      res.boolCols = df.boolCols ∧ res.intCols = df.intCols ∧
      res.floatCols = df.floatCols ∧ res.stringCols = df.stringCols := by
  unfold NewDF newDFLoop at h0
  injection h0 with h0
  obtain ⟨d1v, d1b, d1n, d1f, d1s⟩ := setColNames_frame df0 df1 names h1
  have hwf2 : DFWF df2 0 :=
    setColTypes_wf df1 df2 types
      (by rw [d1v, ← h0]) (by rw [d1b, ← h0]) (by rw [d1n, ← h0])
      (by rw [d1f, ← h0]) (by rw [d1s, ← h0]) hconc h2
  obtain ⟨R', hwf'⟩ := addRowsFromText_wf lines df2 0 hwf2 df h3
  exact roundTrip_spec df R' hwf'

theorem claim_C5_witness :
    (∀ t ∈ [ColTypeInt, ColTypeString], IsConcrete t) ∧
    dfC5ex.errCount = 0 ∧
    (∃ res, roundTrip dfC5ex = some (.ok res) ∧ res.mci = dfC5ex.mci ∧
      res.boolCols = dfC5ex.boolCols ∧ res.intCols = dfC5ex.intCols ∧
      res.floatCols = dfC5ex.floatCols ∧ res.stringCols = dfC5ex.stringCols) :=
  ⟨by decide, rfl,
    claim_C5_round_trip ["a", "b"] [ColTypeInt, ColTypeString]
      [["5", "x"], ["-12", "y"]] dfC5ex0 dfC5ex1 dfC5ex2 dfC5ex
      rfl rfl rfl (by decide) rfl rfl⟩

end Dataframe

namespace Dataframe

/-! ### The registry invariant (claim C8): amended statement -/

/-- The registry invariant of claim C8: descriptor and slot lists of equal
length, each slot equal to the count of earlier same-typed columns (all
types concrete), and the name map a bijection onto the valid column
indices (its keys are exactly the distinct column names, in order, and
its values enumerate 0..n-1). -/
def RegOK (mci : MultiColInfo) : Prop :=
  mci.info.length = mci.valIdx.length ∧
  slotCheck mci.info mci.valIdx 0 0 0 0 = true ∧
  mci.nameToCol.map Prod.fst = mci.info.map ColInfo.name ∧
  mci.nameToCol.map Prod.snd = List.range mci.info.length ∧
  (mci.info.map ColInfo.name).Nodup

instance (mci : MultiColInfo) : Decidable (RegOK mci) := by
  unfold RegOK
  infer_instance

theorem lookup_none_not_mem {m : NameMap} {k : String}
    (h : List.lookup k m = none) : k ∉ m.map Prod.fst := by
  induction m with
  | nil => simp
  | cons p rest ih =>
    simp only [List.lookup] at h
    by_cases hk : k = p.1
    · rw [show (k == p.1) = true from by simp [hk]] at h
      cases h
    · rw [show (k == p.1) = false from by simp [hk]] at h
      simp [hk, ih h]

theorem check_none_concrete (ci : ColInfo) (h : ci.Check = none) :
    IsConcrete ci.colType := by
  unfold ColInfo.Check at h
  by_cases hname : ci.name = ""
  · rw [if_pos hname] at h
    cases h
  · rw [if_neg hname] at h
    by_cases hcond : ci.colType ≤ ColTypeUnknown ∨ ColTypeMaxVal ≤ ci.colType
    · rw [if_pos hcond] at h
      cases h
    · simp only [ColTypeUnknown, ColTypeMaxVal] at hcond
      unfold IsConcrete ColTypeBool ColTypeInt ColTypeFloat ColTypeString
      push_neg at hcond
      obtain ⟨h1, h2⟩ := hcond
      have g : ∀ u : Nat, 0 < u → u < 5 → (u = 1 ∨ u = 2 ∨ u = 3 ∨ u = 4) := by
        intro u g1 g2
        omega
      exact g ci.colType h1 h2

theorem slotCheck_length : ∀ (l : List ColInfo) (v : List Int) (cb cn cf cs : Nat),
    slotCheck l v cb cn cf cs = true → l.length = v.length := by
  intro l
  induction l with
  | nil =>
    intro v cb cn cf cs h
    cases v with
    | nil => rfl
    | cons x xs => simp [slotCheck] at h
  | cons ci rest ih =>
    intro v cb cn cf cs h
    cases v with
    | nil => simp [slotCheck] at h
    | cons x xs =>
      simp only [slotCheck] at h
      by_cases hb : ci.colType = ColTypeBool
      · rw [if_pos hb] at h
        simp only [Bool.and_eq_true] at h
        simpa using ih xs _ _ _ _ h.2
      · rw [if_neg hb] at h
        by_cases hn : ci.colType = ColTypeInt
        · rw [if_pos hn] at h
          simp only [Bool.and_eq_true] at h
          simpa using ih xs _ _ _ _ h.2
        · rw [if_neg hn] at h
          by_cases hf : ci.colType = ColTypeFloat
          · rw [if_pos hf] at h
            simp only [Bool.and_eq_true] at h
            simpa using ih xs _ _ _ _ h.2
          · rw [if_neg hf] at h
            by_cases hs : ci.colType = ColTypeString
            · rw [if_pos hs] at h
              simp only [Bool.and_eq_true] at h
              simpa using ih xs _ _ _ _ h.2
            · rw [if_neg hs] at h
              cases h

/-- A successful `MultiColInfo.Add` preserves the registry invariant. -/
theorem regOK_add (mci : MultiColInfo) (ci : ColInfo) (mci' : MultiColInfo)
    (hok : RegOK mci) (hadd : mci.Add ci = .ok mci') : RegOK mci' := by
  unfold MultiColInfo.Add at hadd
  cases hchk : ci.Check with
  | some e =>
    simp only [hchk] at hadd
    cases hadd
  | none =>
    simp only [hchk] at hadd
    cases hlk : mapLookup mci.nameToCol ci.name with
    | some j =>
      simp only [hlk] at hadd
      cases hadd
    | none =>
      simp only [hlk] at hadd
      injection hadd with hadd
      subst hadd
      obtain ⟨hlen, hslot, hkeys, hvals, hnod⟩ := hok
      have hconc : IsConcrete ci.colType := check_none_concrete ci hchk
      have hnotmem : ci.name ∉ mci.nameToCol.map Prod.fst :=
        lookup_none_not_mem hlk
      have hmem2 : ci.name ∉ mci.info.map ColInfo.name := by
        rw [← hkeys]
        exact hnotmem
      have hins : mapInsert mci.nameToCol ci.name mci.info.length =
          mci.nameToCol ++ [(ci.name, mci.info.length)] := by
        simp [mapInsert, show List.lookup ci.name mci.nameToCol = none from hlk]
      refine ⟨by simp [hlen], ?_, ?_, ?_, ?_⟩
      · rw [slotCheck_append _ _ _ _ 0 0 0 0 hlen, hslot]
        rcases hconc with ht | ht | ht | ht <;>
          simp [slotCheck, ht, ColTypeBool, ColTypeInt, ColTypeFloat,
            ColTypeString, countType]
      · rw [hins]
        simp [hkeys]
      · rw [hins]
        simp [hvals, List.range_succ]
      · simp only [List.map_append]
        exact List.Nodup.append hnod (List.nodup_singleton _) (by simpa using hmem2)

theorem regOK_newMciLoop : ∀ (cis : List ColInfo) (m : MultiColInfo) (i : Nat),
    RegOK m → ∀ m', newMciLoop m cis i = .ok m' → RegOK m' := by
  intro cis
  induction cis with
  | nil =>
    intro m i hm m' h
    injection h with h
    exact h ▸ hm
  | cons ci rest ih =>
    intro m i hm m' h
    simp only [newMciLoop] at h
    cases hadd : m.Add ci with
    | error e =>
      simp only [hadd] at h
      cases h
    | ok m2 =>
      simp only [hadd] at h
      exact ih m2 (i + 1) (regOK_add m ci m2 hm hadd) m' h

/-- Claim C8 (amended): the registry invariant — equal descriptor/slot
lengths, slots counting earlier same-typed columns, name map a bijection
onto valid indices — holds for the empty registry and is preserved by
every successful `MultiColInfo.Add`, hence holds after `NewMultiColInfo`
and the `Row.Add*` operations, and the slot part is restored for a `DF`
once a successful `SetColTypes` with concrete types follows `SetColNames`
on a fresh store; it does not hold between `SetColNames` and
`SetColTypes` (see the counterexample). -/
theorem claim_C8_amended :
    RegOK ({} : MultiColInfo) ∧
    (∀ (mci : MultiColInfo) (ci : ColInfo) (mci' : MultiColInfo),
      RegOK mci → mci.Add ci = .ok mci' → RegOK mci') ∧
    (∀ (cis : List ColInfo) (mci : MultiColInfo),
      NewMultiColInfo cis = .ok mci → RegOK mci) ∧
    (∀ (r : Row) (s : String) (v : BoolVal) (r' : Row),
      RegOK r.mci → r.AddBool s v = .ok r' → RegOK r'.mci) ∧
    (∀ (r : Row) (s : String) (v : IntVal) (r' : Row),
      RegOK r.mci → r.AddInt s v = .ok r' → RegOK r'.mci) ∧
    (∀ (r : Row) (s : String) (v : FloatVal) (r' : Row),
      RegOK r.mci → r.AddFloat s v = .ok r' → RegOK r'.mci) ∧
    (∀ (r : Row) (s : String) (v : StringVal) (r' : Row),
      RegOK r.mci → r.AddString s v = .ok r' → RegOK r'.mci) ∧
    (∀ (names : List String) (types : List ColType) (df0 df1 df2 : DF),
      NewDF [] = .ok df0 →
      df0.SetColNames names = (df1, none) →
      df1.SetColTypes types = some (df2, none) →
      (∀ t ∈ types, IsConcrete t) →
      df2.mci.info.length = df2.mci.valIdx.length ∧
      slotCheck df2.mci.info df2.mci.valIdx 0 0 0 0 = true) := by
  refine ⟨by decide, regOK_add, fun cis mci h => regOK_newMciLoop cis {} 0 (by decide) mci h,
    ?_, ?_, ?_, ?_, ?_⟩
  · intro r s v r' hok h
    unfold Row.AddBool at h
    cases hadd : r.mci.Add { name := s, colType := ColTypeBool } with
    | error e =>
      simp only [hadd] at h
      cases h
    | ok m2 =>
      simp only [hadd] at h
      injection h with h
      rw [← h]
      exact regOK_add r.mci _ m2 hok hadd
  · intro r s v r' hok h
    unfold Row.AddInt at h
    cases hadd : r.mci.Add { name := s, colType := ColTypeInt } with
    | error e =>
      simp only [hadd] at h
      cases h
    | ok m2 =>
      simp only [hadd] at h
      injection h with h
      rw [← h]
      exact regOK_add r.mci _ m2 hok hadd
  · intro r s v r' hok h
    unfold Row.AddFloat at h
    cases hadd : r.mci.Add { name := s, colType := ColTypeFloat } with
    | error e =>
      simp only [hadd] at h
      cases h
    | ok m2 =>
      simp only [hadd] at h
      injection h with h
      rw [← h]
      exact regOK_add r.mci _ m2 hok hadd
  · intro r s v r' hok h
    unfold Row.AddString at h
    cases hadd : r.mci.Add { name := s, colType := ColTypeString } with
    | error e =>
      simp only [hadd] at h
      cases h
    | ok m2 =>
      simp only [hadd] at h
      injection h with h
      rw [← h]
      exact regOK_add r.mci _ m2 hok hadd
  · intro names types df0 df1 df2 h0 h1 h2 hconc
    unfold NewDF newDFLoop at h0
    injection h0 with h0
    obtain ⟨d1v, d1b, d1n, d1f, d1s⟩ := setColNames_frame df0 df1 names h1
    have hwf2 : DFWF df2 0 :=
      setColTypes_wf df1 df2 types
        (by rw [d1v, ← h0]) (by rw [d1b, ← h0]) (by rw [d1n, ← h0])
        (by rw [d1f, ← h0]) (by rw [d1s, ← h0]) hconc h2
    exact ⟨slotCheck_length _ _ _ _ _ _ hwf2.1, hwf2.1⟩

theorem claim_C8_witness :
    RegOK ({} : MultiColInfo) ∧
    (∃ m, MultiColInfo.Add {} { name := "a", colType := ColTypeBool } = .ok m ∧
      RegOK m) :=
  ⟨claim_C8_amended.1,
    ⟨_, rfl, claim_C8_amended.2.1 {} { name := "a", colType := ColTypeBool } _
      (by decide) rfl⟩⟩

end Dataframe

namespace Dataframe

/-- The default reader of claim C9's scenario. -/
def dfrC9 : DFReader :=
  match NewDFReader [] with
  | .ok d => d
  | .error _ => {}

/-- The six mixed-type lines of claim C9's scenario. -/
def linesC9 : List String :=
  ["true 2 3.1 4", "false -1 3.1e33 4hello", "False 9999999 3 4",
    "FALSE 0 3 4", "f 2 3 4", "1 2 3 4"]

/-- The store read from the C9 scenario. -/
def dfC9 : DF :=
  match dfrC9.Read linesC9 "test" with
  | some (.ok d) => d
  | _ => {}

set_option maxRecDepth 100000 in
set_option maxHeartbeats 4000000 in
unseal Rat.mul Rat.inv Rat.add Rat.sub Rat.ofScientific in
/-- Claim C9: the six-line mixed-type input read with a default-configured
reader succeeds, infers the column types [boolean, integer, float, text]
(resolved at end of input from the buffered rows, since the sample buffer
never fills), and yields a store with row count 6 and no errors. -/
theorem claim_C9_mixed_types :
    NewDFReader [] = .ok dfrC9 ∧
    (match dfrC9.Read linesC9 "test" with
     | some (.ok d) => some d
     | _ => none) = some dfC9 ∧
    dfC9.mci.info.map ColInfo.colType =
      [ColTypeBool, ColTypeInt, ColTypeFloat, ColTypeString] ∧
    dfC9.RowCount = some 6 ∧ dfC9.errCount = 0 :=
  ⟨rfl, by decide, by decide, by decide, by decide⟩

end Dataframe

namespace Dataframe

/-! ### Permissive-mode error handling (claim C1) -/

/-- A permissive reader that also skips column 2. -/
def dfrC1 : DFReader :=
  match DFRSkipCols [2] with
  | some o =>
    match NewDFReader [AllowErrors, o] with
    | .ok d => d
    | .error _ => {}
  | none => {}

/-- Claim C1 (counterexample): an out-of-range skip-column index aborts
the read and is returned to the caller even in permissive-errors mode —
`splitLine` is the one stage whose error is not gated on `allowErrors`. -/
theorem claim_C1_counterexample :
    dfrC1.allowErrors = true ∧ dfrC1.skipCols = [2] ∧
    dfrC1.Read ["a b"] "test" = some (.error (.skipColsPastEnd 1 [2])) :=
  ⟨rfl, rfl, rfl⟩

theorem stage_err_none (dfr : DFReader) (hall : dfr.allowErrors = true)
    (hskip : dfr.skipCols = []) :
    ∀ op ∈ operations, ∀ (state : DfReadState) (df : DF)
      (st' : DfReadState) (df' : DF) (skip : Bool) (err : Option DfErr),
      op dfr state df = some (st', df', skip, err) → err = none := by
  intro op hop state df st' df' skip err h
  simp only [operations, List.mem_cons, List.not_mem_nil, or_false] at hop
  rcases hop with rfl | rfl | rfl | rfl | rfl | rfl | rfl | rfl
  · unfold skipLine at h
    split at h <;>
      (injection h with h2; simp only [Prod.mk.injEq] at h2; exact h2.2.2.2.symm)
  · unfold stripComments at h
    split at h <;>
      (injection h with h2; simp only [Prod.mk.injEq] at h2; exact h2.2.2.2.symm)
  · unfold skipBlankLine at h
    simp only [hall, if_true] at h
    split at h <;> try split at h <;> skip
    all_goals
      (injection h with h2; simp only [Prod.mk.injEq] at h2; exact h2.2.2.2.symm)
  · unfold splitLine at h
    simp only [hskip, List.length_nil, if_pos] at h
    injection h with h2
    simp only [Prod.mk.injEq] at h2
    exact h2.2.2.2.symm
  · unfold handleLine1 at h
    simp only [hall, if_true] at h
    split at h <;>
      (injection h with h2; simp only [Prod.mk.injEq] at h2; exact h2.2.2.2.symm)
  · unfold checkColumns at h
    simp only [hall, if_true] at h
    split at h <;>
      (injection h with h2; simp only [Prod.mk.injEq] at h2; exact h2.2.2.2.symm)
  · unfold cacheData at h
    simp only [hall, if_true] at h
    split at h
    · injection h with h2
      simp only [Prod.mk.injEq] at h2
      exact h2.2.2.2.symm
    · split at h
      · split at h
        · cases h
        · injection h with h2
          simp only [Prod.mk.injEq] at h2
          exact h2.2.2.2.symm
      · injection h with h2
        simp only [Prod.mk.injEq] at h2
        exact h2.2.2.2.symm
  · unfold handleData at h
    split at h
    · cases h
    · split at h
      · rename_i hcond
        rw [hall] at hcond
        simp at hcond
      · injection h with h2
        simp only [Prod.mk.injEq] at h2
        exact h2.2.2.2.symm

theorem runOps_err_none (dfr : DFReader) :
    ∀ (ops : List LineHandler),
    (∀ op ∈ ops, ∀ (state : DfReadState) (df : DF)
      (st' : DfReadState) (df' : DF) (skip : Bool) (err : Option DfErr),
      op dfr state df = some (st', df', skip, err) → err = none) →
    ∀ (state : DfReadState) (df : DF) (r : DfReadState × DF × Option DfErr),
      runOps dfr ops state df = some r → r.2.2 = none := by
  intro ops
  induction ops with
  | nil =>
    intro _ state df r h
    injection h with h
    rw [← h]
  | cons op rest ih =>
    intro hops state df r h
    simp only [runOps] at h
    cases hop : op dfr state df with
    | none =>
      rw [hop] at h
      cases h
    | some q =>
      obtain ⟨st', df', skip, err⟩ := q
      simp only [hop] at h
      have herr : err = none :=
        hops op (List.mem_cons_self _ _) state df st' df' skip err hop
      subst herr
      by_cases hsk : skip = true
      · rw [if_pos hsk] at h
        injection h with h
        rw [← h]
      · rw [if_neg hsk] at h
        exact ih (fun o ho => hops o (List.mem_cons_of_mem _ ho)) st' df' r h

theorem readLoop_err_none (dfr : DFReader) (hall : dfr.allowErrors = true)
    (hskip : dfr.skipCols = []) :
    ∀ (lines : List String) (state : DfReadState) (df : DF)
      (r : DfReadState × DF × Option DfErr),
      readLoop dfr lines state df = some r → r.2.2 = none := by
  intro lines
  induction lines with
  | nil =>
    intro state df r h
    injection h with h
    rw [← h]
  | cons l rest ih =>
    intro state df r h
    simp only [readLoop] at h
    cases hro : runOps dfr operations
        { state with lineNum := state.lineNum + 1, line := l } df with
    | none =>
      rw [hro] at h
      cases h
    | some q =>
      obtain ⟨st', df', err⟩ := q
      have herr : err = none := by
        have := runOps_err_none dfr operations
          (stage_err_none dfr hall hskip) _ df (st', df', err) hro
        simpa using this
      subst herr
      simp only [hro] at h
      exact ih st' df' r h

/-- Claim C1 (amended): in permissive-errors mode and with no skip-column
configuration, no stage of the pipeline ever returns a non-nil error —
each failure (arity mismatch, unparsable cell, unexpected blank line, too
many ingestion errors in the buffered sample) is recorded into the store's
accumulator and the read continues with the next line — and consequently,
whenever the reader's own construction succeeds, Read never aborts with an
error. An out-of-range skip-column index (the `splitLine` stage) is the
exception that refutes the original claim: see the counterexample. -/
theorem claim_C1_amended (dfr : DFReader) (hall : dfr.allowErrors = true)
    (hskip : dfr.skipCols = []) :
    (∀ (state : DfReadState) (df : DF) (r : DfReadState × DF × Option DfErr),
      runOps dfr operations state df = some r → r.2.2 = none) ∧
    ((match dfr.makeDF with
      | some (.error _) => false
      | _ => true) = true →
     ∀ (lines : List String) (source : String) (e : DfErr),
       dfr.Read lines source ≠ some (.error e)) := by
  refine ⟨runOps_err_none dfr operations (stage_err_none dfr hall hskip), ?_⟩
  intro hmk lines source e hread
  unfold DFReader.Read at hread
  cases hm : dfr.makeDF with
  | none =>
    rw [hm] at hread
    cases hread
  | some x =>
    cases x with
    | error e0 =>
      rw [hm] at hmk
      simp at hmk
    | ok df0 =>
      simp only [hm] at hread
      cases hrl : readLoop dfr lines (newDFReadState dfr source) df0 with
      | none =>
        rw [hrl] at hread
        cases hread
      | some q =>
        obtain ⟨st', df', err⟩ := q
        have herr : err = none := by
          have h9 := readLoop_err_none dfr hall hskip lines
            (newDFReadState dfr source) df0 (st', df', err) hrl
          simpa using h9
        subst herr
        simp only [hrl] at hread
        cases hpd : populateDF dfr st' df' with
        | none =>
          rw [hpd] at hread
          cases hread
        | some p =>
          obtain ⟨df2, perr⟩ := p
          simp only [hpd] at hread
          cases perr with
          | none => simp at hread
          | some e2 =>
            rw [hall] at hread
            simp at hread

/-- A permissive reader with no skip columns, for the amended claim. -/
def dfrC1b : DFReader :=
  match NewDFReader [AllowErrors] with
  | .ok d => d
  | .error _ => {}

theorem claim_C1_witness :
    dfrC1b.allowErrors = true ∧ dfrC1b.skipCols = [] ∧
    dfrC1b.Read ["a b"] "t" ≠ some (.error .noTypeInfo) :=
  ⟨rfl, rfl, (claim_C1_amended dfrC1b rfl rfl).2 (by decide) ["a b"] "t" .noTypeInfo⟩

end Dataframe
